import Mathlib

/-!
# Spark row to columnar batch codec: row layout and type translation

A shallow embedding of `cpp-ch/local-engine/Parser/SparkRowToCHColumn.h` and
`cpp-ch/local-engine/Parser/TypeParser.cpp`.

* Machine integers are mathematical integers with explicit two's-complement
  conversions (`toInt32`, `toInt64`, `toUInt64`, ...).
* Code that throws returns `Except Error _`.
* A row buffer is a byte memory addressed relative to the row's first byte.
-/

namespace local_engine

/-! ## Machine integers -/

/-- Value of an integer after conversion to `int8_t`. -/
def toInt8 (x : Int) : Int := (x + 2 ^ 7) % 2 ^ 8 - 2 ^ 7

/-- Value of an integer after conversion to `int16_t`. -/
def toInt16 (x : Int) : Int := (x + 2 ^ 15) % 2 ^ 16 - 2 ^ 15

/-- Value of an integer after conversion to `int32_t`. -/
def toInt32 (x : Int) : Int := (x + 2 ^ 31) % 2 ^ 32 - 2 ^ 31

/-- Value of an integer after conversion to `int64_t`. -/
def toInt64 (x : Int) : Int := (x + 2 ^ 63) % 2 ^ 64 - 2 ^ 63

/-- Value of an integer after conversion to `uint32_t` (`UInt32`). -/
def toUInt32 (x : Int) : Nat := (x % 2 ^ 32).toNat

/-- Value of an integer after conversion to `uint64_t` (`size_t`, `UInt64`). -/
def toUInt64 (x : Int) : Nat := (x % 2 ^ 64).toNat

/-! ## Errors -/

/-- Outcomes other than a normal return.  The first two are the
`DB::ErrorCodes` thrown by the translated code; `ASSERTION_FAILED` stands for a
violated `assert`, where a debug build aborts and a release build has no
defined behaviour. -/
inductive Error where
  | UNKNOWN_TYPE
  | CANNOT_PARSE_PROTOBUF_SCHEMA
  | ASSERTION_FAILED
  deriving DecidableEq, Repr

/-! ## The embedded engine's types (`DB::DataTypePtr`) -/

/-- The type tree of the embedded engine, one constructor per engine class
that the translated code instantiates. `DataTypeTuple` carries its explicit
element names when it was built with the two-argument constructor. -/
inductive DataType where
  | DataTypeBool
  | DataTypeInt8
  | DataTypeInt16
  | DataTypeInt32
  | DataTypeInt64
  | DataTypeFloat32
  | DataTypeFloat64
  | DataTypeString
  | DataTypeFixedString (n : Nat)
  | DataTypeDateTime64 (scale : Nat)
  | DataTypeDate32
  | DataTypeDecimal32 (precision scale : Nat)
  | DataTypeDecimal64 (precision scale : Nat)
  | DataTypeDecimal128 (precision scale : Nat)
  | DataTypeDecimal256 (precision scale : Nat)
  | DataTypeTuple (elems : List DataType) (names : Option (List String))
  | DataTypeArray (nested : DataType)
  | DataTypeMap (key value : DataType)
  | DataTypeNothing
  | DataTypeNullable (nested : DataType)
  | DataTypeAggregateFunction (function_name : String) (argument_types : List DataType)

namespace DataType

/-- Method `IDataType::isNullable`: true exactly for `DataTypeNullable`. -/
def isNullable : DataType → Bool
  | DataTypeNullable _ => true
  | _ => false

end DataType

/-- Function `DB::removeNullable`: strips one `Nullable` wrapper, if present. -/
def removeNullable : DataType → DataType
  | .DataTypeNullable nested => nested
  | t => t

/-- Alias `DB::DataTypes` is a `std::vector` of 16-byte shared pointers, and a
vector holds at most `PTRDIFF_MAX / sizeof(value_type)` elements. -/
def DataTypes.max_size : Nat := (2 ^ 63 - 1) / 16

/-! ## Row layout planning (`SparkRowReader::SparkRowReader`) -/

/-- Modelled from the spec: `calculateBitSetWidthInBytes` is declared in
`Parser/CHColumnToSparkRow.h`, which is not among the translated sources. The
spec gives `nullBitmapBytes = ceil(fieldCount/64)*8`, a bitmap made of whole
64-bit words. -/
def calculateBitSetWidthInBytes (num_fields : Nat) : Nat := (num_fields + 63) / 64 * 8

/-- The static classification functions of `BackingDataLengthCalculator`
(declared in `Parser/CHColumnToSparkRow.h`) that the reader calls. Their bodies
are not among the translated sources, so they are parameters of the model. -/
structure BackingDataLengthCalculator where
  isDataTypeSupportRawData : DataType → Bool
  isBigEndianInSparkRow : DataType → Bool
  isFixedLengthDataType : DataType → Bool
  isVariableLengthDataType : DataType → Bool
  extractOffset : Int → Int
  extractSize : Int → Int

/-- Class `FixedLengthDataReader`, built from the field's type. -/
structure FixedLengthDataReader where
  type : DataType

/-- Class `VariableLengthDataReader`, built from the field's type. -/
structure VariableLengthDataReader where
  type : DataType

/-- A byte memory addressed relative to the first byte of the current row
(`buffer`); address `a` is the byte `buffer[a]`. -/
abbrev Memory := Int → Fin 256

/-- Class `SparkRowReader`. `buffer` and `length` are unset until `pointTo`. -/
structure SparkRowReader where
  field_types : List DataType
  num_fields : Nat
  bit_set_width_in_bytes : Int
  field_offsets : List Int
  support_raw_datas : List Bool
  is_big_endians_in_spark_row : List Bool
  fixed_length_data_readers : List (Option FixedLengthDataReader)
  variable_length_data_readers : List (Option VariableLengthDataReader)
  buffer : Option Memory
  length : Int

namespace SparkRowReader

/-- The member initialiser
`bit_set_width_in_bytes(static_cast<int32_t>(calculateBitSetWidthInBytes(num_fields)))`. -/
def initBitSetWidthInBytes (num_fields : Nat) : Int :=
  toInt32 (calculateBitSetWidthInBytes num_fields)

/-- The right-hand side of `field_offsets[ordinal] = bit_set_width_in_bytes + ordinal * 8L`:
`ordinal` is a `size_t`, so the product and the sum are computed modulo `2^64`
and the result is converted to the `int64_t` element type. -/
def fieldOffsetAt (bit_set_width_in_bytes : Int) (ordinal : Nat) : Int :=
  toInt64 ((toUInt64 bit_set_width_in_bytes + ordinal * 8 % 2 ^ 64 : Nat) % 2 ^ 64 : Nat)

/-- The constructor's loop from `ordinal` on, over the field types not yet
visited; `r` holds the vectors filled so far. Throws `UNKNOWN_TYPE` at the first
type that is neither fixed-length nor variable-length. -/
def constructLoop (calculator : BackingDataLengthCalculator) :
    List DataType → Nat → SparkRowReader → Except Error SparkRowReader
  | [], _, r => .ok r
  | field_type :: rest, ordinal, r =>
    let type_without_nullable := removeNullable field_type
    let r1 := { r with
      field_offsets := r.field_offsets ++ [fieldOffsetAt r.bit_set_width_in_bytes ordinal]
      support_raw_datas :=
        r.support_raw_datas ++ [calculator.isDataTypeSupportRawData type_without_nullable]
      is_big_endians_in_spark_row :=
        r.is_big_endians_in_spark_row ++ [calculator.isBigEndianInSparkRow type_without_nullable] }
    if calculator.isFixedLengthDataType type_without_nullable then
      constructLoop calculator rest (ordinal + 1)
        { r1 with
          fixed_length_data_readers := r1.fixed_length_data_readers ++ [some ⟨field_type⟩]
          variable_length_data_readers := r1.variable_length_data_readers ++ [none] }
    else if calculator.isVariableLengthDataType type_without_nullable then
      constructLoop calculator rest (ordinal + 1)
        { r1 with
          fixed_length_data_readers := r1.fixed_length_data_readers ++ [none]
          variable_length_data_readers := r1.variable_length_data_readers ++ [some ⟨field_type⟩] }
    else
      .error Error.UNKNOWN_TYPE

/-- Constructor `SparkRowReader::SparkRowReader(const DataTypes & field_types_)`. -/
def construct (calculator : BackingDataLengthCalculator) (field_types_ : List DataType) :
    Except Error SparkRowReader :=
  constructLoop calculator field_types_ 0
    { field_types := field_types_
      num_fields := field_types_.length
      bit_set_width_in_bytes := initBitSetWidthInBytes field_types_.length
      field_offsets := []
      support_raw_datas := []
      is_big_endians_in_spark_row := []
      fixed_length_data_readers := []
      variable_length_data_readers := []
      buffer := none
      length := 0 }

/-- Method `assertIndexIsValid`: `assert(index < num_fields)`. -/
def assertIndexIsValid (r : SparkRowReader) (index : Nat) : Except Error Unit :=
  if index < r.num_fields then .ok () else .error Error.ASSERTION_FAILED

/-- Method `pointTo(buffer_, length_)`. -/
def pointTo (r : SparkRowReader) (buffer_ : Memory) (length_ : Int) : SparkRowReader :=
  { r with buffer := some buffer_, length := length_ }

/-- Method `getFieldOffset`: the pointer `buffer + field_offsets[ordinal]`, as
the row memory together with the address of the slot. Reading an unset
`buffer` or indexing outside `field_offsets` has no defined behaviour. -/
def getFieldOffset (r : SparkRowReader) (ordinal : Nat) : Except Error (Memory × Int) :=
  match r.buffer, r.field_offsets[ordinal]? with
  | some buffer, some field_offset => .ok (buffer, field_offset)
  | _, _ => .error Error.ASSERTION_FAILED

end SparkRowReader

/-- The unsigned value of the `n` bytes at address `a`, least significant byte
first (the native byte order of the rows). -/
def readLE (buffer : Memory) (a : Int) : Nat → Nat
  | 0 => 0
  | n + 1 => (buffer a).val + 256 * readLE buffer (a + 1) n

/-- Modelled from the spec: `isBitSet` is declared in
`Parser/CHColumnToSparkRow.h`, which is not among the translated sources. The
spec describes the null bitmap as 64-bit words holding one bit per field, the
field's ordinal selecting the bit: word `index / 64`, bit `index % 64`. -/
def isBitSet (bitmap : Memory) (index : Nat) : Bool :=
  (readLE bitmap ((index / 64 * 8 : Nat) : Int) 8).testBit (index % 64)

/-- The engine's `StringRef`: a data pointer (an address relative to the row
start, `none` for the null pointer) and a `size_t` size. -/
structure StringRef where
  data : Option Int
  size : Nat
  deriving DecidableEq, Repr

/-- The engine's `Field`: a decoded value. -/
inductive Field where
  | Null
  | UInt64 (value : Nat)
  | Int64 (value : Int)
  | Float64 (bits : Nat)
  | String (bytes : List (Fin 256))
  | Decimal (unscaled : Int) (scale : Nat)
  | Array (elems : List Field)
  | Tuple (elems : List Field)
  | Map (entries : List Field)

/-- The `read` and raw-read methods of the two reader classes. Their bodies
are in `Parser/SparkRowToCHColumn.cpp`, not among the translated sources, so
they are parameters of the model; a pointer argument is the row memory together
with an address. -/
structure DataReaderMethods where
  fixedRead : FixedLengthDataReader → Memory → Int → Except Error Field
  fixedUnsafeRead : FixedLengthDataReader → Memory → Int → Except Error StringRef
  variableRead : VariableLengthDataReader → Memory → Int → Nat → Except Error Field
  variableReadUnalignedBytes :
    VariableLengthDataReader → Memory → Int → Nat → Except Error StringRef

namespace SparkRowReader

/-- Method `isNullAt`. -/
def isNullAt (r : SparkRowReader) (ordinal : Nat) : Except Error Bool :=
  match assertIndexIsValid r ordinal with
  | .error e => .error e
  | .ok _ =>
    match r.buffer with
    | some buffer => .ok (isBitSet buffer ordinal)
    | none => .error Error.ASSERTION_FAILED

/-- The shared shape of the fixed-width accessors: assert the ordinal, then
reinterpret the leading `n` bytes of the slot and convert with `conv`. -/
def readSlot (r : SparkRowReader) (ordinal : Nat) (n : Nat) (conv : Nat → α) :
    Except Error α :=
  match assertIndexIsValid r ordinal with
  | .error e => .error e
  | .ok _ =>
    match getFieldOffset r ordinal with
    | .error e => .error e
    | .ok (buffer, p) => .ok (conv (readLE buffer p n))

/-- Method `getByte`. -/
def getByte (r : SparkRowReader) (ordinal : Nat) : Except Error Int :=
  readSlot r ordinal 1 (fun v => toInt8 v)

/-- Method `getUnsignedByte`. -/
def getUnsignedByte (r : SparkRowReader) (ordinal : Nat) : Except Error Nat :=
  readSlot r ordinal 1 id

/-- Method `getShort`. -/
def getShort (r : SparkRowReader) (ordinal : Nat) : Except Error Int :=
  readSlot r ordinal 2 (fun v => toInt16 v)

/-- Method `getUnsignedShort`. -/
def getUnsignedShort (r : SparkRowReader) (ordinal : Nat) : Except Error Nat :=
  readSlot r ordinal 2 id

/-- Method `getInt`. -/
def getInt (r : SparkRowReader) (ordinal : Nat) : Except Error Int :=
  readSlot r ordinal 4 (fun v => toInt32 v)

/-- Method `getUnsignedInt`. -/
def getUnsignedInt (r : SparkRowReader) (ordinal : Nat) : Except Error Nat :=
  readSlot r ordinal 4 id

/-- Method `getLong`. -/
def getLong (r : SparkRowReader) (ordinal : Nat) : Except Error Int :=
  readSlot r ordinal 8 (fun v => toInt64 v)

/-- Method `getString`: `offset_and_size >> 32` is an arithmetic shift of an
`int64_t` (floor division by `2^32`); both halves are narrowed to `int32_t`,
and the size is converted to the `size_t` of `StringRef`. -/
def getString (r : SparkRowReader) (ordinal : Nat) : Except Error StringRef :=
  match assertIndexIsValid r ordinal with
  | .error e => .error e
  | .ok _ =>
    match getLong r ordinal with
    | .error e => .error e
    | .ok offset_and_size =>
      let offset := toInt32 (offset_and_size / 2 ^ 32)
      let size := toInt32 offset_and_size
      .ok { data := some offset, size := toUInt64 size }

/-- Method `getStringSize`. -/
def getStringSize (r : SparkRowReader) (ordinal : Nat) : Except Error Int :=
  match assertIndexIsValid r ordinal with
  | .error e => .error e
  | .ok _ =>
    match getLong r ordinal with
    | .error e => .error e
    | .ok offset_and_size => .ok (toInt32 offset_and_size)

/-- The slot word read by `memcpy(&offset_and_size, buffer + bit_set_width_in_bytes + ordinal * 8, 8)`. -/
def slotWord (r : SparkRowReader) (buffer : Memory) (ordinal : Nat) : Int :=
  toInt64 (readLE buffer (r.bit_set_width_in_bytes + ((ordinal * 8 % 2 ^ 64 : Nat) : Int)) 8)

/-- Method `getField`. -/
def getField (calculator : BackingDataLengthCalculator) (m : DataReaderMethods)
    (r : SparkRowReader) (ordinal : Nat) : Except Error Field :=
  match assertIndexIsValid r ordinal with
  | .error e => .error e
  | .ok _ =>
    match isNullAt r ordinal with
    | .error e => .error e
    | .ok true => .ok Field.Null
    | .ok false =>
      match r.buffer, r.fixed_length_data_readers[ordinal]?,
          r.variable_length_data_readers[ordinal]? with
      | some buffer, some fixed_length_data_reader, some variable_length_data_reader =>
        match fixed_length_data_reader with
        | some reader =>
          match getFieldOffset r ordinal with
          | .error e => .error e
          | .ok (_, p) => m.fixedRead reader buffer p
        | none =>
          match variable_length_data_reader with
          | some reader =>
            let offset_and_size := slotWord r buffer ordinal
            let offset := calculator.extractOffset offset_and_size
            let size := calculator.extractSize offset_and_size
            m.variableRead reader buffer offset (toUInt64 size)
          | none => .error Error.UNKNOWN_TYPE
      | _, _, _ => .error Error.ASSERTION_FAILED

/-- Method `getStringRef`. -/
def getStringRef (calculator : BackingDataLengthCalculator) (m : DataReaderMethods)
    (r : SparkRowReader) (ordinal : Nat) : Except Error StringRef :=
  match assertIndexIsValid r ordinal with
  | .error e => .error e
  | .ok _ =>
    match r.support_raw_datas[ordinal]? with
    | none => .error Error.ASSERTION_FAILED
    | some false => .error Error.UNKNOWN_TYPE
    | some true =>
      match isNullAt r ordinal with
      | .error e => .error e
      | .ok true => .ok { data := none, size := 0 }
      | .ok false =>
        match r.buffer, r.fixed_length_data_readers[ordinal]?,
            r.variable_length_data_readers[ordinal]? with
        | some buffer, some fixed_length_data_reader, some variable_length_data_reader =>
          match fixed_length_data_reader with
          | some reader =>
            match getFieldOffset r ordinal with
            | .error e => .error e
            | .ok (_, p) => m.fixedUnsafeRead reader buffer p
          | none =>
            match variable_length_data_reader with
            | some reader =>
              let offset_and_size := slotWord r buffer ordinal
              let offset := calculator.extractOffset offset_and_size
              let size := calculator.extractSize offset_and_size
              m.variableReadUnalignedBytes reader buffer offset (toUInt64 size)
            | none => .error Error.UNKNOWN_TYPE
        | _, _, _ => .error Error.ASSERTION_FAILED

end SparkRowReader

/-! ## Type descriptors (`substrait::Type`) -/

/-- Enum `substrait::Type_Nullability`. -/
inductive Type_Nullability where
  | NULLABILITY_UNSPECIFIED
  | NULLABILITY_NULLABLE
  | NULLABILITY_REQUIRED
  deriving DecidableEq, Repr

/-- The alternatives of the descriptor's `kind` that `parseType` has no branch
for, `KIND_NOT_SET` being a descriptor with no alternative set. -/
inductive UnhandledKind where
  | time
  | interval_year
  | interval_day
  | timestamp_tz
  | uuid
  | varchar
  | user_defined
  | user_defined_type_reference
  | KIND_NOT_SET
  deriving DecidableEq, Repr

/-- Message `substrait::Type`: exactly one alternative of `kind` is set, so
the `has_*` tests of `parseType` are mutually exclusive. Integer fields are
protobuf `int32` values. An absent sub-message reads as the default descriptor
`other KIND_NOT_SET`. -/
inductive SubstraitType where
  | bool_ (nullability : Type_Nullability)
  | i8 (nullability : Type_Nullability)
  | i16 (nullability : Type_Nullability)
  | i32 (nullability : Type_Nullability)
  | i64 (nullability : Type_Nullability)
  | string (nullability : Type_Nullability)
  | binary (nullability : Type_Nullability)
  | fixed_char (length : Int) (nullability : Type_Nullability)
  | fixed_binary (length : Int) (nullability : Type_Nullability)
  | fp32 (nullability : Type_Nullability)
  | fp64 (nullability : Type_Nullability)
  | timestamp (nullability : Type_Nullability)
  | date (nullability : Type_Nullability)
  | decimal (scale precision : Int) (nullability : Type_Nullability)
  | struct_ (types : List SubstraitType) (nullability : Type_Nullability)
  | list (type : SubstraitType) (nullability : Type_Nullability)
  | map (key value : SubstraitType) (nullability : Type_Nullability)
  | nothing
  | other (kind : UnhandledKind)

namespace SubstraitType

/-- Accessor `has_nothing()`. -/
def has_nothing : SubstraitType → Bool
  | nothing => true
  | _ => false

end SubstraitType

/-! ## Type translation (`TypeParser`) -/

/-- The engine constant `DataTypeDecimal128::maxPrecision()`. -/
def DataTypeDecimal128.maxPrecision : Nat := 38

/-- Modelled from the spec: `createDecimal` is the engine's decimal factory,
not among the translated sources. It selects the minimal-width representation
that can hold the requested precision (9, 18 and 38 digits for 32, 64 and 128
bits, the 256-bit representation beyond). Neither the spec nor the translated
sources name a failure of the factory, so the model has none; the result type
keeps the place where an exception of the factory would pass through
`parseType`. -/
def createDecimal (precision_value scale_value : Nat) : Except Error DataType :=
  if precision_value ≤ 9 then .ok (.DataTypeDecimal32 precision_value scale_value)
  else if precision_value ≤ 18 then .ok (.DataTypeDecimal64 precision_value scale_value)
  else if precision_value ≤ 38 then .ok (.DataTypeDecimal128 precision_value scale_value)
  else .ok (.DataTypeDecimal256 precision_value scale_value)

namespace TypeParser

/-- Function `TypeParser::tryWrapNullable`. -/
def tryWrapNullable (nullable : Type_Nullability) (nested_type : DataType) : DataType :=
  if nullable = Type_Nullability.NULLABILITY_NULLABLE ∧ nested_type.isNullable = false then
    .DataTypeNullable nested_type
  else
    nested_type

/-- The opening of `parseType`: when a name list is supplied,
`assert(!field_names->empty())` and `pop_front()`. -/
def popFieldName : Option (List String) → Except Error (Option (List String))
  | none => .ok none
  | some [] => .error Error.ASSERTION_FAILED
  | some (_ :: rest) => .ok (some rest)

/-- The statement `if (field_names) struct_field_names.push_back(field_names->front())`
of the struct loop: the name recorded for the next field, if any. Taking the
front of an empty list has no defined behaviour. -/
def frontFieldName : Option (List String) → Except Error (Option String)
  | none => .ok none
  | some [] => .error Error.ASSERTION_FAILED
  | some (name :: _) => .ok (some name)

mutual

/-- Function `TypeParser::parseType(substrait_type, field_names)`. The name
list is passed by pointer and consumed in place, so the list that remains is
returned with the type; `none` is the default argument `nullptr`. -/
def parseType (substrait_type : SubstraitType) (field_names : Option (List String)) :
    Except Error (DataType × Option (List String)) :=
  match popFieldName field_names with
  | .error e => .error e
  | .ok field_names =>
    match substrait_type with
    | .bool_ nullability => .ok (tryWrapNullable nullability .DataTypeBool, field_names)
    | .i8 nullability => .ok (tryWrapNullable nullability .DataTypeInt8, field_names)
    | .i16 nullability => .ok (tryWrapNullable nullability .DataTypeInt16, field_names)
    | .i32 nullability => .ok (tryWrapNullable nullability .DataTypeInt32, field_names)
    | .i64 nullability => .ok (tryWrapNullable nullability .DataTypeInt64, field_names)
    | .string nullability => .ok (tryWrapNullable nullability .DataTypeString, field_names)
    | .binary nullability => .ok (tryWrapNullable nullability .DataTypeString, field_names)
    | .fixed_char length nullability =>
      .ok (tryWrapNullable nullability (.DataTypeFixedString (toUInt64 length)), field_names)
    | .fixed_binary length nullability =>
      .ok (tryWrapNullable nullability (.DataTypeFixedString (toUInt64 length)), field_names)
    | .fp32 nullability => .ok (tryWrapNullable nullability .DataTypeFloat32, field_names)
    | .fp64 nullability => .ok (tryWrapNullable nullability .DataTypeFloat64, field_names)
    | .timestamp nullability =>
      .ok (tryWrapNullable nullability (.DataTypeDateTime64 6), field_names)
    | .date nullability => .ok (tryWrapNullable nullability .DataTypeDate32, field_names)
    | .decimal scale precision nullability =>
      let precision := toUInt32 precision
      let scale := toUInt32 scale
      if DataTypeDecimal128.maxPrecision < precision then .error Error.UNKNOWN_TYPE
      else
        match createDecimal precision scale with
        | .error e => .error e
        | .ok ch_type => .ok (tryWrapNullable nullability ch_type, field_names)
    | .struct_ types nullability =>
      match parseStructFields types field_names with
      | .error e => .error e
      | .ok (struct_field_types, struct_field_names, field_names) =>
        let ch_type :=
          if struct_field_names.isEmpty = false then
            DataType.DataTypeTuple struct_field_types (some struct_field_names)
          else
            DataType.DataTypeTuple struct_field_types none
        .ok (tryWrapNullable nullability ch_type, field_names)
    | .list type nullability =>
      match parseType type none with
      | .error e => .error e
      | .ok (ch_nested_type, _) =>
        .ok (tryWrapNullable nullability (.DataTypeArray ch_nested_type), field_names)
    | .map key value nullability =>
      if key.has_nothing then
        .ok (tryWrapNullable nullability (.DataTypeMap .DataTypeNothing .DataTypeNothing),
          field_names)
      else
        match parseType key none with
        | .error e => .error e
        | .ok (ch_key_type, _) =>
          match parseType value none with
          | .error e => .error e
          | .ok (ch_val_type, _) =>
            .ok (tryWrapNullable nullability (.DataTypeMap ch_key_type ch_val_type),
              field_names)
    | .nothing =>
      .ok (tryWrapNullable Type_Nullability.NULLABILITY_NULLABLE .DataTypeNothing, field_names)
    | .other _ => .error Error.UNKNOWN_TYPE

/-- The loop of the struct branch over the fields not yet visited: returns the
field types, the names recorded for them and the name list that remains. -/
def parseStructFields (types : List SubstraitType) (field_names : Option (List String)) :
    Except Error (List DataType × List String × Option (List String)) :=
  match types with
  | [] => .ok ([], [], field_names)
  | type :: rest =>
    match frontFieldName field_names with
    | .error e => .error e
    | .ok front =>
      match parseType type field_names with
      | .error e => .error e
      | .ok (struct_field_type, field_names) =>
        match parseStructFields rest field_names with
        | .error e => .error e
        | .ok (struct_field_types, struct_field_names, field_names) =>
          .ok (struct_field_type :: struct_field_types,
            front.toList ++ struct_field_names, field_names)

end

end TypeParser


/-! ## Instances used to evaluate the model on concrete inputs -/

/-- Modelled from the spec: one instance of the `BackingDataLengthCalculator`
parameters, following the classification the spec gives for the row layout
planner (booleans, integers, floats, small decimals, dates and timestamps are
fixed-length; strings, large decimals and nested containers are
variable-length; raw bytes are supported by scalars and strings only) and its
description of the slot word (high 32 bits offset, low 32 bits size). -/
def specCalculator : BackingDataLengthCalculator where
  isDataTypeSupportRawData
    | .DataTypeTuple _ _ => false
    | .DataTypeArray _ => false
    | .DataTypeMap _ _ => false
    | .DataTypeNothing => false
    | .DataTypeNullable _ => false
    | .DataTypeAggregateFunction _ _ => false
    | _ => true
  isBigEndianInSparkRow
    | .DataTypeDecimal128 _ _ => true
    | .DataTypeDecimal256 _ _ => true
    | _ => false
  isFixedLengthDataType
    | .DataTypeBool => true
    | .DataTypeInt8 => true
    | .DataTypeInt16 => true
    | .DataTypeInt32 => true
    | .DataTypeInt64 => true
    | .DataTypeFloat32 => true
    | .DataTypeFloat64 => true
    | .DataTypeDateTime64 _ => true
    | .DataTypeDate32 => true
    | .DataTypeDecimal32 _ _ => true
    | .DataTypeDecimal64 _ _ => true
    | _ => false
  isVariableLengthDataType
    | .DataTypeString => true
    | .DataTypeFixedString _ => true
    | .DataTypeDecimal128 _ _ => true
    | .DataTypeDecimal256 _ _ => true
    | .DataTypeTuple _ _ => true
    | .DataTypeArray _ => true
    | .DataTypeMap _ _ => true
    | _ => false
  extractOffset w := w / 2 ^ 32
  extractSize w := w % 2 ^ 32

/-- A three-field schema: a nullable 32-bit integer, a string and a 64-bit integer. -/
def exampleTypes : List DataType :=
  [.DataTypeNullable .DataTypeInt32, .DataTypeString, .DataTypeInt64]

/-- The reader that `construct specCalculator exampleTypes` builds. -/
def exampleReader : SparkRowReader where
  field_types := exampleTypes
  num_fields := 3
  bit_set_width_in_bytes := 8
  field_offsets := [8, 16, 24]
  support_raw_datas := [true, true, true]
  is_big_endians_in_spark_row := [false, false, false]
  fixed_length_data_readers :=
    [some ⟨.DataTypeNullable .DataTypeInt32⟩, none, some ⟨.DataTypeInt64⟩]
  variable_length_data_readers := [none, some ⟨.DataTypeString⟩, none]
  buffer := none
  length := 0

/-- The leading `n` bytes at address `a` hold the unsigned value `v` in native
(little-endian) byte order: byte `k` is digit `k` of `v` in base 256. -/
def holdsLE (buffer : Memory) (a : Int) (n : Nat) (v : Nat) : Prop :=
  ∀ k : Nat, k < n → (buffer (a + k)).val = v / 256 ^ k % 256

/-- A row for `exampleReader` whose null bitmap marks field 0 as null; every
other byte is zero. -/
def exampleNullRow : Memory := fun a => if a = 0 then 1 else 0

/-- The row `exampleNullRow` with the bytes of slot 0 and of the region behind
the slots overwritten. -/
def exampleNullRowGarbage : Memory :=
  fun a => if a = 0 then 1 else if 8 ≤ a ∧ a < 16 then 255 else if 32 ≤ a then 170 else 0

/-- Reader methods that fail whenever they are invoked. -/
def failingMethods : DataReaderMethods where
  fixedRead _ _ _ := .error Error.UNKNOWN_TYPE
  fixedUnsafeRead _ _ _ := .error Error.UNKNOWN_TYPE
  variableRead _ _ _ _ := .error Error.UNKNOWN_TYPE
  variableReadUnalignedBytes _ _ _ _ := .error Error.UNKNOWN_TYPE

/-- A row for `exampleReader` with no null field: slot 1 (bytes 16..23) holds
the word `32 * 2^32 + 5` and slot 2 (bytes 24..31) holds `-2` as a 64-bit
integer; slot 0 (bytes 8..15) holds `0xFFFFFF85`, followed by bytes `0x11`. -/
def exampleRow : Memory := fun a =>
  if a = 8 then 0x85 else if 9 ≤ a ∧ a < 12 then 0xFF else if 12 ≤ a ∧ a < 16 then 0x11
  else if a = 16 then 5 else if a = 20 then 32
  else if a = 24 then 0xFE else if 25 ≤ a ∧ a < 32 then 0xFF else 0

/-! ## Predicates and operations used to state the translator's properties -/

mutual

/-- No node of the type tree is a `Nullable` whose nested type is itself a
`Nullable`. -/
def DataType.noNestedNullable : DataType → Bool
  | .DataTypeNullable nested => !nested.isNullable && nested.noNestedNullable
  | .DataTypeTuple elems _ => noNestedNullableList elems
  | .DataTypeArray nested => nested.noNestedNullable
  | .DataTypeMap key value => key.noNestedNullable && value.noNestedNullable
  | .DataTypeAggregateFunction _ argument_types => noNestedNullableList argument_types
  | _ => true

/-- Every type of the list satisfies `DataType.noNestedNullable`. -/
def noNestedNullableList : List DataType → Bool
  | [] => true
  | t :: ts => t.noNestedNullable && noNestedNullableList ts

end

/-- The descriptor with its own (root) nullability flag replaced; `nothing`
and the unhandled kinds carry no flag that `parseType` reads. -/
def SubstraitType.setNullability (nullability : Type_Nullability) :
    SubstraitType → SubstraitType
  | .bool_ _ => .bool_ nullability
  | .i8 _ => .i8 nullability
  | .i16 _ => .i16 nullability
  | .i32 _ => .i32 nullability
  | .i64 _ => .i64 nullability
  | .string _ => .string nullability
  | .binary _ => .binary nullability
  | .fixed_char length _ => .fixed_char length nullability
  | .fixed_binary length _ => .fixed_binary length nullability
  | .fp32 _ => .fp32 nullability
  | .fp64 _ => .fp64 nullability
  | .timestamp _ => .timestamp nullability
  | .date _ => .date nullability
  | .decimal scale precision _ => .decimal scale precision nullability
  | .struct_ types _ => .struct_ types nullability
  | .list type _ => .list type nullability
  | .map key value _ => .map key value nullability
  | .nothing => .nothing
  | .other kind => .other kind

/-- Three field descriptors: a `nothing`, a nullable list of nullable 32-bit
integers, and a required map from strings to nullable `decimal(10, 2)`. -/
def exampleFields : List SubstraitType :=
  [.nothing,
   .list (.i32 .NULLABILITY_NULLABLE) .NULLABILITY_NULLABLE,
   .map (.string .NULLABILITY_REQUIRED) (.decimal 2 10 .NULLABILITY_NULLABLE)
     .NULLABILITY_REQUIRED]

/-- A nested descriptor: a nullable struct of `exampleFields`. -/
def exampleDescriptor : SubstraitType := .struct_ exampleFields .NULLABILITY_NULLABLE

/-- The tuple that `exampleDescriptor` translates to, before the root wrapper. -/
def exampleTuple : DataType :=
  .DataTypeTuple
    [.DataTypeNullable .DataTypeNothing,
     .DataTypeNullable (.DataTypeArray (.DataTypeNullable .DataTypeInt32)),
     .DataTypeMap .DataTypeString (.DataTypeNullable (.DataTypeDecimal64 10 2))]
    none

/-! ## Names consumed and recorded by the translator -/

mutual

/-- The number of names a descriptor uses from a supplied name list: one for
the descriptor itself and, for a struct, those of its fields in turn. Lists and
maps translate their children without the name list. -/
def SubstraitType.nameCount : SubstraitType → Nat
  | .struct_ types _ => 1 + nameCountList types
  | _ => 1

/-- The names used by a sequence of struct fields. -/
def nameCountList : List SubstraitType → Nat
  | [] => 0
  | t :: ts => t.nameCount + nameCountList ts

end

mutual

/-- The type tree with the element names of every tuple erased. -/
def DataType.eraseNames : DataType → DataType
  | .DataTypeTuple elems _ => .DataTypeTuple (eraseNamesList elems) none
  | .DataTypeArray nested => .DataTypeArray nested.eraseNames
  | .DataTypeMap key value => .DataTypeMap key.eraseNames value.eraseNames
  | .DataTypeNullable nested => .DataTypeNullable nested.eraseNames
  | .DataTypeAggregateFunction function_name argument_types =>
    .DataTypeAggregateFunction function_name (eraseNamesList argument_types)
  | t => t

/-- The list of types with `DataType.eraseNames` applied to each. -/
def eraseNamesList : List DataType → List DataType
  | [] => []
  | t :: ts => t.eraseNames :: eraseNamesList ts

end

mutual

/-- Every tuple of the type tree is positional (built without element names). -/
def DataType.allPositional : DataType → Bool
  | .DataTypeTuple elems names => names.isNone && allPositionalList elems
  | .DataTypeArray nested => nested.allPositional
  | .DataTypeMap key value => key.allPositional && value.allPositional
  | .DataTypeNullable nested => nested.allPositional
  | .DataTypeAggregateFunction _ argument_types => allPositionalList argument_types
  | _ => true

/-- Every type of the list satisfies `DataType.allPositional`. -/
def allPositionalList : List DataType → Bool
  | [] => true
  | t :: ts => t.allPositional && allPositionalList ts

end

/-- Two field descriptors: a nullable 32-bit integer and a struct of one string. -/
def exampleNamedFields : List SubstraitType :=
  [.i32 .NULLABILITY_NULLABLE,
   .struct_ [.string .NULLABILITY_REQUIRED] .NULLABILITY_REQUIRED]

/-- A required struct of `exampleNamedFields`. -/
def exampleNamedDescriptor : SubstraitType :=
  .struct_ exampleNamedFields .NULLABILITY_REQUIRED

/-- A name list for `exampleNamedDescriptor`, with one name to spare. -/
def exampleNames : List String := ["s", "a", "b", "c", "extra"]

/-- The type `exampleNamedDescriptor` translates to with `exampleNames`. -/
def exampleNamedTuple : DataType :=
  .DataTypeTuple
    [.DataTypeNullable .DataTypeInt32,
     .DataTypeTuple [.DataTypeString] (some ["c"])]
    (some ["a", "b"])

/-- The type `exampleNamedDescriptor` translates to without a name list. -/
def examplePositionalTuple : DataType :=
  .DataTypeTuple
    [.DataTypeNullable .DataTypeInt32,
     .DataTypeTuple [.DataTypeString] none]
    none

/-! ## Block construction (`TypeParser::buildBlockFromNamedStruct`) -/

/-- The engine's `ColumnWithTypeAndName`, as built by the two-argument
constructor `(type, name)`: a column description carrying no data. -/
structure ColumnWithTypeAndName where
  type : DataType
  name : String

/-- The engine's `Block`: its columns in order. -/
abbrev Block := List ColumnWithTypeAndName

/-- Message `substrait::NamedStruct`: the flattened name list `names()` and the
top-level types `struct_().types()`. -/
structure NamedStruct where
  names : List String
  types : List SubstraitType

/-- A function parser handed out by `FunctionParserFactory`. -/
structure FunctionParser where
  getCHFunctionName : List DataType → Except Error String
  getDefaultFunctionParameters : List Field

/-- The collaborators `buildBlockFromNamedStruct` calls, none of them among the
translated sources, as parameters of the model: the tokens of
`Poco::StringTokenizer(name, "#")`, `FunctionParserFactory::instance().get`,
and `AggregateFunctionFactory::instance().get(...)->getStateType()` as a
function of the function name, argument types and parameters. -/
structure FunctionRegistry where
  StringTokenizer : String → List String
  getFunctionParser : String → Except Error FunctionParser
  getStateType : String → List DataType → List Field → Except Error DataType

namespace TypeParser

/-- The body of the `for` loop of `buildBlockFromNamedStruct` after `parseType`:
the type stored for the column named `name` whose descriptor translated to
`data_type`. -/
def resolveColumnType (registry : FunctionRegistry) (name : String) (data_type : DataType) :
    Except Error DataType :=
  let name_parts := registry.StringTokenizer name
  if 4 ≤ name_parts.length then
    match removeNullable data_type with
    | .DataTypeTuple args_types _ =>
      match name_parts[3]? with
      | none => .error Error.ASSERTION_FAILED
      | some function_name =>
        match registry.getFunctionParser function_name with
        | .error e => .error e
        | .ok parser =>
          match parser.getCHFunctionName args_types with
          | .error e => .error e
          | .ok agg_function_name =>
            registry.getStateType agg_function_name args_types
              parser.getDefaultFunctionParameters
    | _ => .error Error.UNKNOWN_TYPE
  else .ok data_type

/-- The `for` loop of `buildBlockFromNamedStruct` over the top-level types not
yet visited, with the name list that remains. Taking the front of an empty name
list has no defined behaviour. -/
def buildColumns (registry : FunctionRegistry) :
    List SubstraitType → List String → Except Error (List ColumnWithTypeAndName)
  | [], _ => .ok []
  | type :: rest, field_names =>
    match field_names with
    | [] => .error Error.ASSERTION_FAILED
    | name :: _ =>
      match parseType type (some field_names) with
      | .error e => .error e
      | .ok (data_type, field_names) =>
        match resolveColumnType registry name data_type with
        | .error e => .error e
        | .ok data_type =>
          match buildColumns registry rest (field_names.getD []) with
          | .error e => .error e
          | .ok internal_cols => .ok (⟨data_type, name⟩ :: internal_cols)

/-- Function `TypeParser::buildBlockFromNamedStruct`. -/
def buildBlockFromNamedStruct (registry : FunctionRegistry) (struct_ : NamedStruct) :
    Except Error Block :=
  buildColumns registry struct_.types struct_.names

end TypeParser

/-- One instance of the tokenizer parameter: the segments of the characters
`cs` between separators `#` (code 35), empty segments included; `cur` holds
the current segment, reversed. -/
def splitOnHash : List Char → List Char → List String
  | [], cur => [String.mk cur.reverse]
  | c :: cs, cur =>
    if c = Char.ofNat 35 then String.mk cur.reverse :: splitOnHash cs []
    else splitOnHash cs (c :: cur)

/-- One instance of the registry parameters: every function name has a parser
that keeps the name and has no parameters, and the state type records the
function name and argument types. -/
def exampleRegistry : FunctionRegistry where
  StringTokenizer name := splitOnHash name.toList []
  getFunctionParser function_name :=
    .ok { getCHFunctionName := fun _ => .ok function_name, getDefaultFunctionParameters := [] }
  getStateType agg_function_name args_types _ :=
    .ok (.DataTypeAggregateFunction agg_function_name args_types)

/-- A named struct with a plain column `x` and a partial-aggregate column. -/
def exampleNamedStruct : NamedStruct where
  names := ["x", "sum#Partial#0#sum", "v"]
  types :=
    [.i64 .NULLABILITY_REQUIRED,
     .struct_ [.fp64 .NULLABILITY_NULLABLE] .NULLABILITY_REQUIRED]

/-- The block `buildBlockFromNamedStruct exampleRegistry exampleNamedStruct`. -/
def exampleBlock : Block :=
  [⟨.DataTypeInt64, "x"⟩,
   ⟨.DataTypeAggregateFunction "sum" [.DataTypeNullable .DataTypeFloat64],
    "sum#Partial#0#sum"⟩]

/-! ## Streamed conversion (`SparkRowToCHColumnHelper`, `SparkRowToCHColumn`) -/

/-- Struct `SparkRowToCHColumnHelper`. A column builder (`MutableColumn`) is
modelled by the values appended to it so far. -/
structure SparkRowToCHColumnHelper where
  data_types : List DataType
  header : Block
  mutable_columns : List (List Field)
  rows : Nat

namespace SparkRowToCHColumnHelper

/-- Method `resetMutableColumns`: `rows = 0` and `header.mutateColumns()`,
which for a header of data-less columns creates one empty builder per column. -/
def resetMutableColumns (helper : SparkRowToCHColumnHelper) : SparkRowToCHColumnHelper :=
  { helper with rows := 0, mutable_columns := helper.header.map (fun _ => []) }

/-- Static method `SparkRowToCHColumnHelper::parseType(const string &)`;
`ParseFromString` is the protobuf deserialiser of `substrait::Type`, a
parameter of the model (`none` when it reports failure). -/
def parseType (ParseFromString : String → Option SubstraitType) (type : String) :
    Except Error DataType :=
  match ParseFromString type with
  | none => .error Error.CANNOT_PARSE_PROTOBUF_SCHEMA
  | some substrait_type =>
    match TypeParser.parseType substrait_type none with
    | .error e => .error e
    | .ok (ch_type, _) => .ok ch_type

/-- The constructor's loop `for i < names.size()`, over the names and type
strings not yet visited; indexing `types` past its end has no defined
behaviour. -/
def constructLoop (ParseFromString : String → Option SubstraitType) :
    List String → List String → Except Error (List DataType)
  | [], _ => .ok []
  | _ :: _, [] => .error Error.ASSERTION_FAILED
  | _ :: names, type :: types =>
    match parseType ParseFromString type with
    | .error e => .error e
    | .ok data_type =>
      match constructLoop ParseFromString names types with
      | .error e => .error e
      | .ok data_types => .ok (data_type :: data_types)

/-- Constructor `SparkRowToCHColumnHelper(names, types)`. -/
def construct (ParseFromString : String → Option SubstraitType)
    (names types : List String) : Except Error SparkRowToCHColumnHelper :=
  if names.length = types.length then
    match constructLoop ParseFromString names types with
    | .error e => .error e
    | .ok data_types =>
      .ok (resetMutableColumns
        { data_types := data_types
          header := List.zipWith (fun data_type name => ⟨data_type, name⟩) data_types names
          mutable_columns := []
          rows := 0 })
  else .error Error.ASSERTION_FAILED

end SparkRowToCHColumnHelper

/-- The private methods `appendSparkRowToCHColumn` and `getBlock` of
`SparkRowToCHColumn`, defined in `Parser/SparkRowToCHColumn.cpp` (not among the
translated sources), as parameters of the model. A buffer pointer is the row
buffer together with an offset into it. -/
structure ConversionMethods (β : Type) where
  appendSparkRowToCHColumn :
    SparkRowToCHColumnHelper → Memory → Int → Int → Except Error SparkRowToCHColumnHelper
  getBlock : SparkRowToCHColumnHelper → β

namespace SparkRowToCHColumn

/-- The inner loop `while (len >= 0)` of `convertSparkRowItrToCHColumn` on one
row buffer, entered with the read position `rows_buf_ptr` (an offset into
`rows_buf`) and the length `len` just read there. The loop runs as long as the
lengths read are non-negative; `fuel` bounds the number of tests of the loop
condition and `none` is returned when it runs out. -/
def appendRows
    (append : SparkRowToCHColumnHelper → Memory → Int → Int →
      Except Error SparkRowToCHColumnHelper)
    (rows_buf : Memory) :
    Nat → Int → Int → SparkRowToCHColumnHelper → Option (Except Error SparkRowToCHColumnHelper)
  | 0, _, _, _ => none
  | fuel + 1, rows_buf_ptr, len, helper =>
    if 0 ≤ len then
      match append helper rows_buf (rows_buf_ptr + 4) len with
      | .error e => some (.error e)
      | .ok helper =>
        appendRows append rows_buf fuel (rows_buf_ptr + 4 + len)
          (toInt32 (readLE rows_buf (rows_buf_ptr + 4 + len) 4)) helper
    else some (.ok helper)

/-- The outer loop `while (hasNext)` over the row buffers the iterator still
holds, each scanned with `fuel`. -/
def convertLoop
    (append : SparkRowToCHColumnHelper → Memory → Int → Int →
      Except Error SparkRowToCHColumnHelper)
    (fuel : Nat) :
    List Memory → SparkRowToCHColumnHelper → Option (Except Error SparkRowToCHColumnHelper)
  | [], helper => some (.ok helper)
  | rows_buf :: rest, helper =>
    match appendRows append rows_buf fuel 0 (toInt32 (readLE rows_buf 0 4)) helper with
    | none => none
    | some (.error e) => some (.error e)
    | some (.ok helper) => convertLoop append fuel rest helper

/-- Function `SparkRowToCHColumn::convertSparkRowItrToCHColumn`; `java_iter` is
the sequence of row buffers the iterator yields. -/
def convertSparkRowItrToCHColumn {β : Type} (ParseFromString : String → Option SubstraitType)
    (methods : ConversionMethods β) (fuel : Nat) (java_iter : List Memory)
    (names types : List String) : Option (Except Error β) :=
  match SparkRowToCHColumnHelper.construct ParseFromString names types with
  | .error e => some (.error e)
  | .ok helper =>
    match convertLoop methods.appendSparkRowToCHColumn fuel java_iter helper with
    | none => none
    | some (.error e) => some (.error e)
    | some (.ok helper) => some (.ok (methods.getBlock helper))

end SparkRowToCHColumn

/-- The `(pointer offset, length)` pairs of the rows of a buffer whose rows
have the lengths `lens`, the first length prefix standing at offset `pos`: row
`i` starts 4 bytes after its prefix, which follows row `i - 1`. -/
def rowPointers : Int → List Nat → List (Int × Int)
  | _, [] => []
  | pos, len :: lens => (pos + 4, (len : Int)) :: rowPointers (pos + 4 + len) lens

/-- The buffer holds, from offset `pos` on, rows of the lengths `lens`, each
preceded by its length as a 4-byte native-order integer, and then a negative
length. -/
def holdsRows (rows_buf : Memory) : Int → List Nat → Prop
  | pos, [] => toInt32 (readLE rows_buf pos 4) < 0
  | pos, len :: lens =>
    toInt32 (readLE rows_buf pos 4) = (len : Int) ∧ holdsRows rows_buf (pos + 4 + len) lens

/-- The calls `append(helper, rows_buf + offset, length)` made in order for the
given `(offset, length)` pairs, stopping at the first one that throws. -/
def applyCalls
    (append : SparkRowToCHColumnHelper → Memory → Int → Int →
      Except Error SparkRowToCHColumnHelper)
    (rows_buf : Memory) :
    List (Int × Int) → SparkRowToCHColumnHelper → Except Error SparkRowToCHColumnHelper
  | [], helper => .ok helper
  | (offset, len) :: calls, helper =>
    match append helper rows_buf offset len with
    | .error e => .error e
    | .ok helper => applyCalls append rows_buf calls helper

/-- The calls of `applyCalls` for a sequence of buffers, each with the lengths
of its rows, one buffer after the other on the same helper. -/
def applyBuffers
    (append : SparkRowToCHColumnHelper → Memory → Int → Int →
      Except Error SparkRowToCHColumnHelper) :
    List (Memory × List Nat) → SparkRowToCHColumnHelper →
      Except Error SparkRowToCHColumnHelper
  | [], helper => .ok helper
  | (rows_buf, lens) :: rest, helper =>
    match applyCalls append rows_buf (rowPointers 0 lens) helper with
    | .error e => .error e
    | .ok helper => applyBuffers append rest helper

/-- The buffer `[len=12, row0][len=-1]`; the row bytes are zero. -/
def exampleBuffer1 : Memory := fun a =>
  if a = 0 then 12 else if 16 ≤ a ∧ a < 20 then 0xFF else 0

/-- The buffer `[len=0][len=-1]`. -/
def exampleBuffer2 : Memory := fun a => if 4 ≤ a ∧ a < 8 then 0xFF else 0

/-- An `append` that counts the row and records, in front of the builders, the
offset and length it was called with. -/
def recordingMethods : ConversionMethods SparkRowToCHColumnHelper where
  appendSparkRowToCHColumn helper _ offset len :=
    .ok { helper with
      rows := helper.rows + 1
      mutable_columns := [Field.Int64 offset, Field.Int64 len] :: helper.mutable_columns }
  getBlock helper := helper

/-- One instance of the deserialiser parameter: three strings stand for a
required 64-bit integer, a nullable string and the unhandled kind `time`;
every other string fails to parse. -/
def exampleParseFromString (type : String) : Option SubstraitType :=
  if type = "i64" then some (.i64 .NULLABILITY_REQUIRED)
  else if type = "string?" then some (.string .NULLABILITY_NULLABLE)
  else if type = "time" then some (.other .time)
  else none

/-- The helper `construct exampleParseFromString ["a", "b"] ["i64", "string?"]`. -/
def exampleHelper : SparkRowToCHColumnHelper where
  data_types := [.DataTypeInt64, .DataTypeNullable .DataTypeString]
  header := [⟨.DataTypeInt64, "a"⟩, ⟨.DataTypeNullable .DataTypeString, "b"⟩]
  mutable_columns := [[], []]
  rows := 0

/-! ## Further accessors of `SparkRowReader` -/

namespace SparkRowReader

/-- Method `supportRawData`. -/
def supportRawData (r : SparkRowReader) (ordinal : Nat) : Except Error Bool :=
  match assertIndexIsValid r ordinal with
  | .error e => .error e
  | .ok _ =>
    match r.support_raw_datas[ordinal]? with
    | some b => .ok b
    | none => .error Error.ASSERTION_FAILED

/-- Method `isBigEndianInSparkRow`. -/
def isBigEndianInSparkRow (r : SparkRowReader) (ordinal : Nat) : Except Error Bool :=
  match assertIndexIsValid r ordinal with
  | .error e => .error e
  | .ok _ =>
    match r.is_big_endians_in_spark_row[ordinal]? with
    | some b => .ok b
    | none => .error Error.ASSERTION_FAILED

/-- Method `getFixedLengthDataReader(int ordinal)`; the `int` is converted to
`size_t` for the assertion and the index. -/
def getFixedLengthDataReader (r : SparkRowReader) (ordinal : Int) :
    Except Error (Option FixedLengthDataReader) :=
  match assertIndexIsValid r (toUInt64 ordinal) with
  | .error e => .error e
  | .ok _ =>
    match r.fixed_length_data_readers[toUInt64 ordinal]? with
    | some reader => .ok reader
    | none => .error Error.ASSERTION_FAILED

/-- Method `getVariableLengthDataReader(int ordinal)`. -/
def getVariableLengthDataReader (r : SparkRowReader) (ordinal : Int) :
    Except Error (Option VariableLengthDataReader) :=
  match assertIndexIsValid r (toUInt64 ordinal) with
  | .error e => .error e
  | .ok _ =>
    match r.variable_length_data_readers[toUInt64 ordinal]? with
    | some reader => .ok reader
    | none => .error Error.ASSERTION_FAILED

/-- Method `getRawDataForFixedNumber`: the slot's address. -/
def getRawDataForFixedNumber (r : SparkRowReader) (ordinal : Nat) : Except Error Int :=
  match assertIndexIsValid r ordinal with
  | .error e => .error e
  | .ok _ =>
    match getFieldOffset r ordinal with
    | .error e => .error e
    | .ok (_, p) => .ok p

end SparkRowReader

/-- Whether an outcome is an exception thrown with a `DB::ErrorCodes` code, as
opposed to a violated `assert`. -/
def Error.isException : Error → Bool
  | .ASSERTION_FAILED => false
  | _ => true


/-! ## Instances for the raw-byte path -/

/-- Reader methods that hand back what they were called with: the
variable-length `read` returns the offset and the size as a two-element tuple,
the raw reads return the span at the address they were given (eight bytes for a
fixed-length slot). -/
def echoMethods : DataReaderMethods where
  fixedRead _ _ p := .ok (Field.Int64 p)
  fixedUnsafeRead _ _ p := .ok { data := some p, size := 8 }
  variableRead _ _ offset size := .ok (Field.Tuple [Field.Int64 offset, Field.UInt64 size])
  variableReadUnalignedBytes _ _ offset size := .ok { data := some offset, size := size }

/-- A one-field schema whose field is an array of 32-bit integers. -/
def exampleArrayTypes : List DataType := [.DataTypeArray .DataTypeInt32]

/-- The reader that `construct specCalculator exampleArrayTypes` builds. -/
def exampleArrayReader : SparkRowReader where
  field_types := exampleArrayTypes
  num_fields := 1
  bit_set_width_in_bytes := 8
  field_offsets := [8]
  support_raw_datas := [false]
  is_big_endians_in_spark_row := [false]
  fixed_length_data_readers := [none]
  variable_length_data_readers := [some ⟨.DataTypeArray .DataTypeInt32⟩]
  buffer := none
  length := 0

/-- A nullable list whose elements are `exampleNamedDescriptor`. -/
def exampleListOfStruct : SubstraitType :=
  .list exampleNamedDescriptor .NULLABILITY_NULLABLE

/-- The buffer `[len=3, row0][len=INT32_MIN]`: the second length prefix, at
offset 7, is `0x80000000`; the row bytes are zero. -/
def exampleBuffer3 : Memory := fun a => if a = 0 then 3 else if a = 10 then 0x80 else 0

/-- The engine's `Chunk`: its columns and its number of rows. -/
structure Chunk where
  columns : List (List Field)
  num_rows : Nat

/-- A default-constructed `Chunk`, which is also what a moved-from chunk is
left as. -/
def Chunk.empty : Chunk := { columns := [], num_rows := 0 }

/-- The engine's `IProcessor::Status`. -/
inductive Status where
  | NeedData
  | PortFull
  | Finished
  | Ready
  | Async
  | ExpandPipeline
  deriving DecidableEq, Repr

/-- The engine's `InputPort` as the processor uses it: whether the port is
finished, the chunk waiting in it, the needed flag, and a record of the chunks
pulled from it so far, oldest first. -/
structure InputPort where
  is_finished : Bool
  data : Option Chunk
  is_needed : Bool
  pulled : List Chunk

/-- The engine's `OutputPort` as the processor uses it: whether the port is
finished, whether a chunk can be pushed, and a record of the chunks pushed into
it so far, oldest first. -/
structure OutputPort where
  is_finished : Bool
  can_push : Bool
  pushed : List Chunk

namespace InputPort

/-- Method `isFinished`. -/
def isFinished (port : InputPort) : Bool := port.is_finished

/-- Method `close`. -/
def close (port : InputPort) : InputPort :=
  { port with is_finished := true, is_needed := false }

/-- Method `setNeeded`. -/
def setNeeded (port : InputPort) : InputPort := { port with is_needed := true }

/-- Method `hasData`. -/
def hasData (port : InputPort) : Bool := port.data.isSome

/-- Method `pull(set_not_needed)` on a port that has data: the chunk leaves the port. -/
def pull (port : InputPort) (chunk : Chunk) (set_not_needed : Bool) : InputPort :=
  { port with
    data := none
    is_needed := if set_not_needed then false else port.is_needed
    pulled := port.pulled ++ [chunk] }

end InputPort

namespace OutputPort

/-- Method `isFinished`. -/
def isFinished (port : OutputPort) : Bool := port.is_finished

/-- Method `canPush`. -/
def canPush (port : OutputPort) : Bool := port.can_push

/-- Method `push`: the port holds the chunk until the consumer takes it. -/
def push (port : OutputPort) (chunk : Chunk) : OutputPort :=
  { port with can_push := false, pushed := port.pushed ++ [chunk] }

/-- Method `finish`. -/
def finish (port : OutputPort) : OutputPort := { port with is_finished := true }

end OutputPort

/-- Class `EmptyProject`: its single input port and single output port, and the
members `output_chunk`, `has_input` and `has_output`. -/
structure EmptyProject where
  input : InputPort
  output : OutputPort
  output_chunk : Chunk
  has_input : Bool
  has_output : Bool

namespace EmptyProject

/-- The processor as constructed, connected to the two ports: `has_input` and
`has_output` are `false` and `output_chunk` is default-constructed. -/
def construct (input : InputPort) (output : OutputPort) : EmptyProject :=
  { input := input, output := output, output_chunk := Chunk.empty,
    has_input := false, has_output := false }

/-- Method `prepare`. `BlockUtil::buildRowCountChunk` is declared in
`Common/CHUtil.h`, not among the translated sources, and is a parameter. -/
def prepare (buildRowCountChunk : Nat → Chunk) (p : EmptyProject) : EmptyProject × Status :=
  if p.output.isFinished then
    ({ p with input := p.input.close }, Status.Finished)
  else if p.has_output then
    if p.output.canPush then
      ({ p with
          output := p.output.push p.output_chunk
          output_chunk := Chunk.empty
          has_output := false }, Status.PortFull)
    else (p, Status.PortFull)
  else if p.has_input then (p, Status.Ready)
  else if p.input.isFinished then
    ({ p with output := p.output.finish }, Status.Finished)
  else
    let input := p.input.setNeeded
    match input.data with
    | some chunk =>
      ({ p with
          input := input.pull chunk true
          output_chunk := buildRowCountChunk chunk.num_rows
          has_input := true }, Status.Ready)
    | none => ({ p with input := input }, Status.NeedData)

/-- Method `work`. -/
def work (p : EmptyProject) : EmptyProject :=
  { p with has_input := false, has_output := true }

end EmptyProject

/-- What happens to the processor, in order: the executor calls `prepare` or
`work`, or the neighbouring processors change what the ports report. -/
inductive Call where
  | prepare
  | work
  | ports (input_is_finished : Bool) (input_data : Option Chunk)
      (output_is_finished output_can_push : Bool)

/-- The executor's view: the processor and the status its last `prepare`
returned, `none` before the first call. -/
structure Executor where
  processor : EmptyProject
  status : Option Status

namespace Executor

/-- One call. The executor calls `work` only when the last `prepare` returned
`Ready`; a `work` at any other time is outside the protocol (`none`). -/
def step (buildRowCountChunk : Nat → Chunk) (s : Executor) : Call → Option Executor
  | .prepare =>
    some { processor := (s.processor.prepare buildRowCountChunk).1
           status := some (s.processor.prepare buildRowCountChunk).2 }
  | .work =>
    if s.status = some Status.Ready then some { s with processor := s.processor.work }
    else none
  | .ports input_is_finished input_data output_is_finished output_can_push =>
    some { s with
      processor := { s.processor with
        input := { s.processor.input with is_finished := input_is_finished, data := input_data }
        output := { s.processor.output with
          is_finished := output_is_finished, can_push := output_can_push } } }

/-- A sequence of calls, oldest first. -/
def run (buildRowCountChunk : Nat → Chunk) : Executor → List Call → Option Executor
  | s, [] => some s
  | s, call :: calls =>
    match step buildRowCountChunk s call with
    | none => none
    | some s => run buildRowCountChunk s calls

end Executor

/-- One instance of the `buildRowCountChunk` parameter: a chunk of `rows` rows
with a single column that holds the row count. -/
def exampleBuildRowCountChunk (rows : Nat) : Chunk :=
  { columns := [[Field.UInt64 rows]], num_rows := rows }

/-- An input port that holds a chunk of five rows without columns. -/
def exampleInput : InputPort :=
  { is_finished := false, data := some { columns := [], num_rows := 5 },
    is_needed := false, pulled := [] }

/-- An output port that accepts a chunk. -/
def exampleOutput : OutputPort := { is_finished := false, can_push := true, pushed := [] }

/-- What holds of the processor between calls, in terms of the records kept by
the ports: the two flags are not both set; after `Ready` one of them is set;
while one is set, the last chunk pulled is in flight (`output_chunk` is its
row-count chunk) and the chunks pushed are the row-count chunks of the chunks
pulled before it; while none is set, the chunks pushed are the row-count
chunks of all chunks pulled. -/
def Executor.invariant (buildRowCountChunk : Nat → Chunk) (s : Executor) : Prop :=
  ¬ (s.processor.has_input = true ∧ s.processor.has_output = true) ∧
  (s.status = some Status.Ready →
    s.processor.has_input = true ∨ s.processor.has_output = true) ∧
  ((s.processor.has_input = true ∨ s.processor.has_output = true) →
    ∃ (chunk : Chunk) (earlier : List Chunk),
      s.processor.input.pulled = earlier ++ [chunk] ∧
      s.processor.output.pushed = earlier.map (fun c => buildRowCountChunk c.num_rows) ∧
      s.processor.output_chunk = buildRowCountChunk chunk.num_rows) ∧
  (s.processor.has_input = false → s.processor.has_output = false →
    s.processor.output.pushed =
      s.processor.input.pulled.map (fun c => buildRowCountChunk c.num_rows))

mutual

/-- Whether the descriptor is of a kind `parseType` has no branch for, or
holds such a descriptor at a place `parseType` translates: as the element of a
list, as a field of a struct, or as the key or value of a map whose key is not
of kind `nothing`, at any depth. -/
def SubstraitType.containsUnhandled : SubstraitType → Bool
  | .other _ => true
  | .list type _ => type.containsUnhandled
  | .map key value _ =>
    !key.has_nothing && (key.containsUnhandled || value.containsUnhandled)
  | .struct_ types _ => containsUnhandledList types
  | _ => false

/-- Some descriptor of the list satisfies `SubstraitType.containsUnhandled`. -/
def containsUnhandledList : List SubstraitType → Bool
  | [] => false
  | t :: ts => t.containsUnhandled || containsUnhandledList ts

end

/-- A row for `exampleReader` with no null field whose slot 1 (bytes 16..23)
holds the word `32 * 2^32 + 0xFFFFFFFF`: the low half has every bit set. -/
def exampleRowLargeSize : Memory := fun a =>
  if 16 ≤ a ∧ a < 20 then 0xFF else if a = 20 then 32 else 0
/-! ## Row layout: proofs -/

theorem toInt32_range (x : Int) : -2 ^ 31 ≤ toInt32 x ∧ toInt32 x < 2 ^ 31 := by
  unfold toInt32
  omega

theorem fieldOffsetAt_eq (bsw : Int) (ordinal : Nat) (h1 : -2 ^ 31 ≤ bsw) (h2 : bsw < 2 ^ 31)
    (h3 : ordinal ≤ DataTypes.max_size) :
    SparkRowReader.fieldOffsetAt bsw ordinal = bsw + 8 * ordinal := by
  unfold SparkRowReader.fieldOffsetAt toInt64 toUInt64
  have h4 : ordinal ≤ 576460752303423487 := by
    have : DataTypes.max_size = 576460752303423487 := by decide
    omega
  push_cast
  omega

theorem constructLoop_layout (calculator : BackingDataLengthCalculator) :
    ∀ (types : List DataType) (ordinal : Nat) (r r' : SparkRowReader),
      SparkRowReader.constructLoop calculator types ordinal r = .ok r' →
      r'.bit_set_width_in_bytes = r.bit_set_width_in_bytes ∧
      r'.num_fields = r.num_fields ∧
      r'.field_offsets = r.field_offsets ++
        (List.range' ordinal types.length).map
          (SparkRowReader.fieldOffsetAt r.bit_set_width_in_bytes) := by
  intro types
  induction types with
  | nil =>
    intro ordinal r r' h
    simp only [SparkRowReader.constructLoop, Except.ok.injEq] at h
    subst h
    simp
  | cons ty rest ih =>
    intro ordinal r r' h
    simp only [SparkRowReader.constructLoop] at h
    split at h
    · obtain ⟨hb, hn, ho⟩ := ih _ _ _ h
      refine ⟨hb, hn, ?_⟩
      rw [ho]
      simp [List.range'_succ]
    · split at h
      · obtain ⟨hb, hn, ho⟩ := ih _ _ _ h
        refine ⟨hb, hn, ?_⟩
        rw [ho]
        simp [List.range'_succ]
      · cases h

theorem construct_layout (calculator : BackingDataLengthCalculator)
    (field_types : List DataType) (r : SparkRowReader)
    (h : SparkRowReader.construct calculator field_types = .ok r) :
    r.bit_set_width_in_bytes = SparkRowReader.initBitSetWidthInBytes field_types.length ∧
    r.num_fields = field_types.length ∧
    r.field_offsets = (List.range field_types.length).map
      (SparkRowReader.fieldOffsetAt r.bit_set_width_in_bytes) := by
  unfold SparkRowReader.construct at h
  obtain ⟨hb, hn, ho⟩ := constructLoop_layout calculator _ _ _ _ h
  refine ⟨hb, hn, ?_⟩
  rw [ho, hb]
  simp [List.range_eq_range']

theorem construct_field_offset (calculator : BackingDataLengthCalculator)
    (field_types : List DataType) (r : SparkRowReader)
    (hmax : field_types.length ≤ DataTypes.max_size)
    (h : SparkRowReader.construct calculator field_types = .ok r)
    (i : Nat) (hi : i < field_types.length) :
    r.field_offsets[i]? = some (r.bit_set_width_in_bytes + 8 * (i : Int)) := by
  obtain ⟨hb, _, ho⟩ := construct_layout calculator field_types r h
  have hr := toInt32_range (calculateBitSetWidthInBytes field_types.length)
  rw [ho, List.getElem?_map, List.getElem?_range hi]
  simp only [Option.map_some']
  rw [fieldOffsetAt_eq]
  · rw [hb]; exact hr.1
  · rw [hb]; exact hr.2
  · omega

theorem construct_exampleReader :
    SparkRowReader.construct specCalculator exampleTypes = .ok exampleReader := by
  rfl

/-- C1: for every field-type list that the `SparkRowReader` constructor accepts
(a vector, so of at most `DataTypes.max_size` elements) and every ordinal
`i < n`, the planned slot offset is
`field_offsets[i] = bit_set_width_in_bytes + 8*i`; hence `field_offsets[0]` is
the null-bitmap width and consecutive offsets differ by exactly 8. -/
theorem SparkRowReader.field_offsets_planned (calculator : BackingDataLengthCalculator)
    (field_types : List DataType) (r : SparkRowReader)
    (hmax : field_types.length ≤ DataTypes.max_size)
    (h : SparkRowReader.construct calculator field_types = .ok r) :
    r.field_offsets.length = field_types.length ∧
    (∀ i : Nat, i < field_types.length →
      r.field_offsets[i]? = some (r.bit_set_width_in_bytes + 8 * (i : Int))) ∧
    (0 < field_types.length → r.field_offsets[0]? = some r.bit_set_width_in_bytes) ∧
    (∀ (i : Nat) (a b : Int), i + 1 < field_types.length →
      r.field_offsets[i]? = some a → r.field_offsets[i + 1]? = some b → b - a = 8) := by
  have hoff := construct_field_offset calculator field_types r hmax h
  refine ⟨?_, hoff, ?_, ?_⟩
  · rw [(construct_layout calculator field_types r h).2.2]
    simp
  · intro h0
    simpa using hoff 0 h0
  · intro i a b hi ha hb
    rw [hoff i (by omega)] at ha
    rw [hoff (i + 1) hi] at hb
    simp only [Option.some.injEq] at ha hb
    subst ha hb
    push_cast
    omega

/-- Witness for C1: the three-field example schema is accepted and its planned
offsets are 8, 16 and 24 after an 8-byte null bitmap. -/
theorem SparkRowReader.field_offsets_planned_witness :
    (exampleTypes.length ≤ DataTypes.max_size ∧
      SparkRowReader.construct specCalculator exampleTypes = .ok exampleReader) ∧
    (exampleReader.field_offsets.length = exampleTypes.length ∧
    (∀ i : Nat, i < exampleTypes.length →
      exampleReader.field_offsets[i]? = some (exampleReader.bit_set_width_in_bytes + 8 * (i : Int))) ∧
    (0 < exampleTypes.length →
      exampleReader.field_offsets[0]? = some exampleReader.bit_set_width_in_bytes) ∧
    (∀ (i : Nat) (a b : Int), i + 1 < exampleTypes.length →
      exampleReader.field_offsets[i]? = some a → exampleReader.field_offsets[i + 1]? = some b →
      b - a = 8)) :=
  ⟨⟨by decide, construct_exampleReader⟩,
    SparkRowReader.field_offsets_planned specCalculator exampleTypes exampleReader
      (by decide) construct_exampleReader⟩

theorem constructLoop_ok (calculator : BackingDataLengthCalculator) :
    ∀ (types : List DataType) (ordinal : Nat) (r : SparkRowReader),
      (∀ t ∈ types, calculator.isFixedLengthDataType (removeNullable t) = true ∨
        calculator.isVariableLengthDataType (removeNullable t) = true) →
      ∃ r', SparkRowReader.constructLoop calculator types ordinal r = .ok r' := by
  intro types
  induction types with
  | nil => intro ordinal r _; exact ⟨r, rfl⟩
  | cons ty rest ih =>
    intro ordinal r hall
    have hrest : ∀ t ∈ rest, calculator.isFixedLengthDataType (removeNullable t) = true ∨
        calculator.isVariableLengthDataType (removeNullable t) = true :=
      fun t ht => hall t (List.mem_cons_of_mem _ ht)
    simp only [SparkRowReader.constructLoop]
    rcases hall ty (List.mem_cons_self _ _) with hf | hv
    · rw [if_pos hf]
      exact ih _ _ hrest
    · by_cases hf : calculator.isFixedLengthDataType (removeNullable ty) = true
      · rw [if_pos hf]
        exact ih _ _ hrest
      · rw [if_neg hf, if_pos hv]
        exact ih _ _ hrest

theorem ceil_div_64 (n : Nat) : ⌈(n : ℚ) / 64⌉₊ = (n + 63) / 64 := by
  apply le_antisymm
  · rw [Nat.ceil_le, div_le_iff₀ (by norm_num)]
    have h : n ≤ (n + 63) / 64 * 64 := by omega
    exact_mod_cast h
  · rw [Nat.div_le_iff_le_mul_add_pred (by norm_num)]
    have h1 : (n : ℚ) / 64 ≤ ⌈(n : ℚ) / 64⌉₊ := Nat.le_ceil _
    rw [div_le_iff₀ (by norm_num)] at h1
    have h2 : n ≤ ⌈(n : ℚ) / 64⌉₊ * 64 := by exact_mod_cast h1
    omega

theorem initBitSetWidthInBytes_eq (n : Nat) (hn : n ≤ 2 ^ 34 - 64) :
    SparkRowReader.initBitSetWidthInBytes n = ((calculateBitSetWidthInBytes n : Nat) : Int) := by
  unfold SparkRowReader.initBitSetWidthInBytes toInt32 calculateBitSetWidthInBytes
  push_cast
  omega

/-- C2 (as amended): for every field count `n` of at most `2^34 - 64`, so that
`ceil(n/64)*8` fits the `int32_t` member, the null-bitmap width of a constructed
`SparkRowReader` equals `ceil(n/64)*8`: it is a multiple of 8, provides at
least `n` bits, and is 0 exactly when `n = 0`. -/
theorem SparkRowReader.bit_set_width_in_bytes_eq (calculator : BackingDataLengthCalculator)
    (field_types : List DataType) (r : SparkRowReader)
    (hn : field_types.length ≤ 2 ^ 34 - 64)
    (h : SparkRowReader.construct calculator field_types = .ok r) :
    r.bit_set_width_in_bytes = ((⌈(field_types.length : ℚ) / 64⌉₊ * 8 : Nat) : Int) ∧
    (8 : Int) ∣ r.bit_set_width_in_bytes ∧
    (field_types.length : Int) ≤ 8 * r.bit_set_width_in_bytes ∧
    (r.bit_set_width_in_bytes = 0 ↔ field_types.length = 0) := by
  have hb := (construct_layout calculator field_types r h).1
  rw [initBitSetWidthInBytes_eq _ hn] at hb
  rw [hb, ceil_div_64]
  unfold calculateBitSetWidthInBytes
  refine ⟨rfl, ?_, ?_, ?_⟩
  · exact ⟨(((field_types.length + 63) / 64 : Nat) : Int), by push_cast; ring⟩
  · push_cast
    omega
  · push_cast
    omega

/-- Witness for C2: the three-field example schema gets an 8-byte bitmap. -/
theorem SparkRowReader.bit_set_width_in_bytes_eq_witness :
    (exampleTypes.length ≤ 2 ^ 34 - 64 ∧
      SparkRowReader.construct specCalculator exampleTypes = .ok exampleReader) ∧
    (exampleReader.bit_set_width_in_bytes = ((⌈(exampleTypes.length : ℚ) / 64⌉₊ * 8 : Nat) : Int) ∧
    (8 : Int) ∣ exampleReader.bit_set_width_in_bytes ∧
    (exampleTypes.length : Int) ≤ 8 * exampleReader.bit_set_width_in_bytes ∧
    (exampleReader.bit_set_width_in_bytes = 0 ↔ exampleTypes.length = 0)) :=
  ⟨⟨by decide, construct_exampleReader⟩,
    SparkRowReader.bit_set_width_in_bytes_eq specCalculator exampleTypes exampleReader
      (by decide) construct_exampleReader⟩

/-- Counterexample to C2 as stated: a schema of `2^34` 64-bit integer fields is
accepted, `ceil(n/64)*8` is `2^31`, and the narrowed member
`bit_set_width_in_bytes` is `-2^31`. -/
theorem SparkRowReader.bit_set_width_in_bytes_narrowed :
    Option.map SparkRowReader.bit_set_width_in_bytes
      (SparkRowReader.construct specCalculator
        (List.replicate (2 ^ 34) DataType.DataTypeInt64)).toOption = some (-2147483648) ∧
    ((⌈(((2 ^ 34 : Nat) : ℚ)) / 64⌉₊ * 8 : Nat) : Int) = 2147483648 := by
  constructor
  · have hall : ∀ t ∈ List.replicate (2 ^ 34) DataType.DataTypeInt64,
        specCalculator.isFixedLengthDataType (removeNullable t) = true ∨
        specCalculator.isVariableLengthDataType (removeNullable t) = true := by
      intro t ht
      rw [List.eq_of_mem_replicate ht]
      exact Or.inl rfl
    obtain ⟨r, hr⟩ := constructLoop_ok specCalculator _ 0
      { field_types := List.replicate (2 ^ 34) DataType.DataTypeInt64
        num_fields := (List.replicate (2 ^ 34) DataType.DataTypeInt64).length
        bit_set_width_in_bytes :=
          SparkRowReader.initBitSetWidthInBytes
            (List.replicate (2 ^ 34) DataType.DataTypeInt64).length
        field_offsets := []
        support_raw_datas := []
        is_big_endians_in_spark_row := []
        fixed_length_data_readers := []
        variable_length_data_readers := []
        buffer := none
        length := 0 } hall
    have hc : SparkRowReader.construct specCalculator
        (List.replicate (2 ^ 34) DataType.DataTypeInt64) = .ok r := hr
    have hb := (construct_layout specCalculator _ r hc).1
    rw [hc, List.length_replicate] at *
    simp only [Except.toOption, Option.map_some', hb, Option.some.injEq]
    unfold SparkRowReader.initBitSetWidthInBytes toInt32 calculateBitSetWidthInBytes
    norm_num
  · rw [ceil_div_64]
    norm_num

/-- C3: for every schema the `SparkRowReader` constructor accepts, the 8-byte
slots follow the schema field order and never overlap: for ordinals `i < j`
the slot of `i` ends at or before the start of the slot of `j`, so no byte
address belongs to both, and no slot has a byte in the null-bitmap region
`[0, bit_set_width_in_bytes)`. -/
theorem SparkRowReader.slots_ordered_disjoint (calculator : BackingDataLengthCalculator)
    (field_types : List DataType) (r : SparkRowReader)
    (hmax : field_types.length ≤ DataTypes.max_size)
    (h : SparkRowReader.construct calculator field_types = .ok r) :
    (∀ i j : Nat, i < j → j < field_types.length →
      ∃ oi oj : Int, r.field_offsets[i]? = some oi ∧ r.field_offsets[j]? = some oj ∧
        oi < oj ∧ oi + 8 ≤ oj ∧
        ∀ a : Int, ¬ ((oi ≤ a ∧ a < oi + 8) ∧ (oj ≤ a ∧ a < oj + 8))) ∧
    (∀ i : Nat, i < field_types.length →
      ∃ oi : Int, r.field_offsets[i]? = some oi ∧
        ∀ a : Int, oi ≤ a ∧ a < oi + 8 → ¬ (0 ≤ a ∧ a < r.bit_set_width_in_bytes)) := by
  have hoff := construct_field_offset calculator field_types r hmax h
  constructor
  · intro i j hij hj
    refine ⟨_, _, hoff i (by omega), hoff j hj, ?_, ?_, ?_⟩
    · omega
    · omega
    · intro a
      omega
  · intro i hi
    refine ⟨_, hoff i hi, ?_⟩
    intro a
    omega

/-- Witness for C3 on the three-field example schema. -/
theorem SparkRowReader.slots_ordered_disjoint_witness :
    (exampleTypes.length ≤ DataTypes.max_size ∧
      SparkRowReader.construct specCalculator exampleTypes = .ok exampleReader) ∧
    ((∀ i j : Nat, i < j → j < exampleTypes.length →
      ∃ oi oj : Int, exampleReader.field_offsets[i]? = some oi ∧
        exampleReader.field_offsets[j]? = some oj ∧
        oi < oj ∧ oi + 8 ≤ oj ∧
        ∀ a : Int, ¬ ((oi ≤ a ∧ a < oi + 8) ∧ (oj ≤ a ∧ a < oj + 8))) ∧
    (∀ i : Nat, i < exampleTypes.length →
      ∃ oi : Int, exampleReader.field_offsets[i]? = some oi ∧
        ∀ a : Int, oi ≤ a ∧ a < oi + 8 →
          ¬ (0 ≤ a ∧ a < exampleReader.bit_set_width_in_bytes))) :=
  ⟨⟨by decide, construct_exampleReader⟩,
    SparkRowReader.slots_ordered_disjoint specCalculator exampleTypes exampleReader
      (by decide) construct_exampleReader⟩

/-! ## Field access: proofs -/

theorem readLE_congr (b1 b2 : Memory) :
    ∀ (n : Nat) (a : Int), (∀ k : Nat, k < n → b1 (a + k) = b2 (a + k)) →
      readLE b1 a n = readLE b2 a n := by
  intro n
  induction n with
  | zero => intro a _; rfl
  | succ n ih =>
    intro a h
    simp only [readLE]
    have h0 := h 0 (by omega)
    simp only [Nat.cast_zero, add_zero] at h0
    rw [h0, ih (a + 1)]
    intro k hk
    have := h (k + 1) (by omega)
    push_cast at this
    rw [add_assoc, add_comm 1 (k : Int)]
    exact this

theorem readLE_lt (b : Memory) : ∀ (n : Nat) (a : Int), readLE b a n < 256 ^ n := by
  intro n
  induction n with
  | zero => intro a; simp [readLE]
  | succ n ih =>
    intro a
    simp only [readLE]
    have h1 := ih (a + 1)
    have h2 := (b a).isLt
    rw [pow_succ]
    omega

theorem readLE_of_holdsLE (b : Memory) :
    ∀ (n : Nat) (a : Int) (v : Nat), holdsLE b a n v → v < 256 ^ n → readLE b a n = v := by
  intro n
  induction n with
  | zero =>
    intro a v _ hv
    simp only [pow_zero, Nat.lt_one_iff] at hv
    simp [readLE, hv]
  | succ n ih =>
    intro a v h hv
    simp only [readLE]
    have h0 := h 0 (by omega)
    simp only [Nat.cast_zero, add_zero, pow_zero, Nat.div_one] at h0
    have hrest : readLE b (a + 1) n = v / 256 := by
      apply ih
      · intro k hk
        have := h (k + 1) (by omega)
        push_cast at this
        rw [add_assoc, add_comm 1 (k : Int), this, pow_succ, Nat.div_div_eq_div_mul,
          Nat.mul_comm]
      · rw [pow_succ] at hv
        omega
    rw [h0, hrest]
    omega

theorem isBitSet_congr (b1 b2 : Memory) (n ordinal : Nat) (hi : ordinal < n)
    (hagree : ∀ a : Int, 0 ≤ a → a < calculateBitSetWidthInBytes n → b1 a = b2 a) :
    isBitSet b1 ordinal = isBitSet b2 ordinal := by
  unfold isBitSet
  rw [readLE_congr b1 b2]
  intro k hk
  apply hagree
  · omega
  · unfold calculateBitSetWidthInBytes
    omega

/-- C4: for every reader, row and ordinal whose bit is set in the row's null
bitmap, `getField` returns `Null`; a second row that agrees with the first on
the null bitmap, whatever its slots and variable-length region contain, gives
`Null` as well, and so do arbitrary reader methods, including ones that fail
when invoked. -/
theorem SparkRowReader.getField_null (calculator : BackingDataLengthCalculator)
    (m m' : DataReaderMethods) (r : SparkRowReader) (b1 b2 : Memory) (l1 l2 : Int)
    (ordinal : Nat)
    (hagree : ∀ a : Int, 0 ≤ a → a < calculateBitSetWidthInBytes r.num_fields → b1 a = b2 a)
    (hnull : SparkRowReader.isNullAt (r.pointTo b1 l1) ordinal = .ok true) :
    SparkRowReader.getField calculator m (r.pointTo b1 l1) ordinal = .ok Field.Null ∧
    SparkRowReader.getField calculator m' (r.pointTo b2 l2) ordinal = .ok Field.Null := by
  have hvalid : ordinal < r.num_fields := by
    by_contra hc
    simp [SparkRowReader.isNullAt, SparkRowReader.assertIndexIsValid,
      SparkRowReader.pointTo, hc] at hnull
  have hbit : isBitSet b1 ordinal = true := by
    simpa [SparkRowReader.isNullAt, SparkRowReader.assertIndexIsValid,
      SparkRowReader.pointTo, hvalid] using hnull
  have hbit2 : isBitSet b2 ordinal = true := by
    rw [← isBitSet_congr b1 b2 r.num_fields ordinal hvalid hagree]
    exact hbit
  constructor
  · simp [SparkRowReader.getField, SparkRowReader.isNullAt,
      SparkRowReader.assertIndexIsValid, SparkRowReader.pointTo, hvalid, hbit]
  · simp [SparkRowReader.getField, SparkRowReader.isNullAt,
      SparkRowReader.assertIndexIsValid, SparkRowReader.pointTo, hvalid, hbit2]

/-- Witness for C4: field 0 of the example row is null, and the row with
garbage in slot 0 and behind the slots decodes to `Null` too, with reader
methods that fail when invoked. -/
theorem SparkRowReader.getField_null_witness :
    ((∀ a : Int, 0 ≤ a → a < calculateBitSetWidthInBytes exampleReader.num_fields →
        exampleNullRow a = exampleNullRowGarbage a) ∧
      SparkRowReader.isNullAt (exampleReader.pointTo exampleNullRow 32) 0 = .ok true) ∧
    (SparkRowReader.getField specCalculator failingMethods
        (exampleReader.pointTo exampleNullRow 32) 0 = .ok Field.Null ∧
      SparkRowReader.getField specCalculator failingMethods
        (exampleReader.pointTo exampleNullRowGarbage 40) 0 = .ok Field.Null) :=
  have hagree : ∀ a : Int, 0 ≤ a → a < calculateBitSetWidthInBytes exampleReader.num_fields →
      exampleNullRow a = exampleNullRowGarbage a := by
    intro a h0 h1
    have h2 : a < 8 := h1
    unfold exampleNullRow exampleNullRowGarbage
    by_cases ha : a = 0
    · simp [ha]
    · have h3 : ¬ (8 ≤ a ∧ a < 16) := by omega
      have h4 : ¬ (32 ≤ a) := by omega
      simp [ha, h3, h4]
  ⟨⟨hagree, rfl⟩,
    SparkRowReader.getField_null specCalculator failingMethods failingMethods exampleReader
      exampleNullRow exampleNullRowGarbage 32 40 0 hagree rfl⟩

theorem readSlot_eq (r : SparkRowReader) (buffer : Memory) (ordinal : Nat) (off : Int)
    (n : Nat) (conv : Nat → α)
    (hb : r.buffer = some buffer) (hi : ordinal < r.num_fields)
    (ho : r.field_offsets[ordinal]? = some off) :
    SparkRowReader.readSlot r ordinal n conv = .ok (conv (readLE buffer off n)) := by
  simp [SparkRowReader.readSlot, SparkRowReader.assertIndexIsValid,
    SparkRowReader.getFieldOffset, hb, hi, ho]

/-- C5 (amended): for every 64-bit word `w` held by the slot of a valid
ordinal, `getString` returns the span that starts at row start plus the high 32
bits of `w` read as `int32_t` and whose size is the low 32 bits of `w` read as
`int32_t` and then converted to the `size_t` of the span, and `getStringSize`
returns the low 32 bits read as `int32_t`. For offsets `o` and sizes `s` below
`2^31` the word `o * 2^32 + s` decodes back to exactly `(o, s)` and
`getStringSize` returns `s`; when the low 32 bits `l` are `2^31` or more,
`getStringSize` returns `l - 2^32` and the span's size is `2^64 - 2^32 + l`. -/
theorem SparkRowReader.getString_decodes (r : SparkRowReader) (buffer : Memory)
    (ordinal : Nat) (off : Int) (w : Nat)
    (hb : r.buffer = some buffer) (hi : ordinal < r.num_fields)
    (ho : r.field_offsets[ordinal]? = some off)
    (hw : readLE buffer off 8 = w) :
    w < 2 ^ 64 ∧
    SparkRowReader.getString r ordinal =
      .ok { data := some (toInt32 ((w / 2 ^ 32 : Nat) : Int)),
            size := toUInt64 (toInt32 ((w % 2 ^ 32 : Nat) : Int)) } ∧
    SparkRowReader.getStringSize r ordinal = .ok (toInt32 ((w % 2 ^ 32 : Nat) : Int)) ∧
    (∀ o s : Nat, o < 2 ^ 31 → s < 2 ^ 31 → w = o * 2 ^ 32 + s →
      SparkRowReader.getString r ordinal = .ok { data := some (o : Int), size := s } ∧
      SparkRowReader.getStringSize r ordinal = .ok (s : Int)) ∧
    (2 ^ 31 ≤ w % 2 ^ 32 →
      SparkRowReader.getString r ordinal =
        .ok { data := some (toInt32 ((w / 2 ^ 32 : Nat) : Int)),
              size := 2 ^ 64 - 2 ^ 32 + w % 2 ^ 32 } ∧
      SparkRowReader.getStringSize r ordinal = .ok (((w % 2 ^ 32 : Nat) : Int) - 2 ^ 32)) := by
  have hlt : w < 2 ^ 64 := by
    have := readLE_lt buffer 8 off
    rw [hw] at this
    norm_num at this
    omega
  have hlong : SparkRowReader.getLong r ordinal = .ok (toInt64 w) := by
    unfold SparkRowReader.getLong
    rw [readSlot_eq r buffer ordinal off 8 _ hb hi ho, hw]
  have hhi : toInt32 (toInt64 (w : Int) / 2 ^ 32) = toInt32 ((w / 2 ^ 32 : Nat) : Int) := by
    unfold toInt32 toInt64
    push_cast
    omega
  have hlo : toInt32 (toInt64 (w : Int)) = toInt32 ((w % 2 ^ 32 : Nat) : Int) := by
    unfold toInt32 toInt64
    push_cast
    omega
  have hs : SparkRowReader.getString r ordinal =
      .ok { data := some (toInt32 ((w / 2 ^ 32 : Nat) : Int)),
            size := toUInt64 (toInt32 ((w % 2 ^ 32 : Nat) : Int)) } := by
    simp only [SparkRowReader.getString, SparkRowReader.assertIndexIsValid, hi, if_true,
      hlong, hhi, hlo]
  have hz : SparkRowReader.getStringSize r ordinal = .ok (toInt32 ((w % 2 ^ 32 : Nat) : Int)) := by
    simp only [SparkRowReader.getStringSize, SparkRowReader.assertIndexIsValid, hi, if_true,
      hlong, hlo]
  refine ⟨hlt, hs, hz, ?_, ?_⟩
  · intro o s ho' hs' hwos
    have h1 : toInt32 ((w / 2 ^ 32 : Nat) : Int) = (o : Int) := by
      unfold toInt32
      push_cast
      omega
    have h2 : toInt32 ((w % 2 ^ 32 : Nat) : Int) = (s : Int) := by
      unfold toInt32
      push_cast
      omega
    have h3 : toUInt64 (s : Int) = s := by
      unfold toUInt64
      omega
    rw [hs, hz, h1, h2, h3]
    exact ⟨rfl, rfl⟩
  · intro hbig
    have h2 : toInt32 ((w % 2 ^ 32 : Nat) : Int) = ((w % 2 ^ 32 : Nat) : Int) - 2 ^ 32 := by
      unfold toInt32
      push_cast
      omega
    have h3 : toUInt64 (((w % 2 ^ 32 : Nat) : Int) - 2 ^ 32) =
        2 ^ 64 - 2 ^ 32 + w % 2 ^ 32 := by
      unfold toUInt64
      push_cast
      omega
    rw [hs, hz, h2, h3]
    exact ⟨rfl, rfl⟩

/-- Witness for C5 (amended): slot 1 of the example row holds `32 * 2^32 + 5`,
which decodes to offset 32 and size 5. -/
theorem SparkRowReader.getString_decodes_witness :
    ((exampleReader.pointTo exampleRow 40).buffer = some exampleRow ∧
      1 < (exampleReader.pointTo exampleRow 40).num_fields ∧
      (exampleReader.pointTo exampleRow 40).field_offsets[1]? = some 16 ∧
      readLE exampleRow 16 8 = 32 * 2 ^ 32 + 5) ∧
    SparkRowReader.getString (exampleReader.pointTo exampleRow 40) 1 =
      .ok { data := some 32, size := 5 } ∧
    SparkRowReader.getStringSize (exampleReader.pointTo exampleRow 40) 1 = .ok 5 :=
  ⟨⟨rfl, by decide, rfl, by decide⟩,
    (SparkRowReader.getString_decodes (exampleReader.pointTo exampleRow 40) exampleRow 1 16
      (32 * 2 ^ 32 + 5) rfl (by decide) rfl (by decide)).2.2.2.1 32 5 (by decide) (by decide)
      rfl⟩

/-- Counterexample to C5: the slot of the string field holds the word
`32 * 2^32 + 0xFFFFFFFF`, whose low 32 bits are `4294967295`; `getStringSize`
returns `-1` and the span returned by `getString` has size `2^64 - 1`, so
neither is the low 32 bits and the two differ. -/
theorem SparkRowReader.getString_size_sign_extended :
    readLE exampleRowLargeSize 16 8 = 32 * 2 ^ 32 + 4294967295 ∧
    (32 * 2 ^ 32 + 4294967295) % 2 ^ 32 = 4294967295 ∧
    SparkRowReader.getString (exampleReader.pointTo exampleRowLargeSize 40) 1 =
      .ok { data := some 32, size := 18446744073709551615 } ∧
    SparkRowReader.getStringSize (exampleReader.pointTo exampleRowLargeSize 40) 1 =
      .ok (-1) ∧
    (18446744073709551615 : Nat) ≠ 4294967295 ∧
    ((-1 : Int) ≠ 4294967295) ∧
    (((18446744073709551615 : Nat) : Int) ≠ -1) :=
  ⟨by decide, by decide, rfl, rfl, by decide, by decide, by decide⟩

/-- C6: for every integer width 8, 16, 32 and 64, every value `v` of that
width, signed or unsigned, and every valid ordinal: if the leading bytes of the
slot hold `v` in native (little-endian) two's-complement byte order, the
matching accessor returns exactly `v`; nothing is assumed about the remaining
bytes of the 8-byte slot. -/
theorem SparkRowReader.integer_accessors_roundtrip (r : SparkRowReader) (buffer : Memory)
    (ordinal : Nat) (off : Int)
    (hb : r.buffer = some buffer) (hi : ordinal < r.num_fields)
    (ho : r.field_offsets[ordinal]? = some off) :
    (∀ v : Int, -2 ^ 7 ≤ v → v < 2 ^ 7 → holdsLE buffer off 1 (v % 2 ^ 8).toNat →
      SparkRowReader.getByte r ordinal = .ok v) ∧
    (∀ v : Nat, v < 2 ^ 8 → holdsLE buffer off 1 v →
      SparkRowReader.getUnsignedByte r ordinal = .ok v) ∧
    (∀ v : Int, -2 ^ 15 ≤ v → v < 2 ^ 15 → holdsLE buffer off 2 (v % 2 ^ 16).toNat →
      SparkRowReader.getShort r ordinal = .ok v) ∧
    (∀ v : Nat, v < 2 ^ 16 → holdsLE buffer off 2 v →
      SparkRowReader.getUnsignedShort r ordinal = .ok v) ∧
    (∀ v : Int, -2 ^ 31 ≤ v → v < 2 ^ 31 → holdsLE buffer off 4 (v % 2 ^ 32).toNat →
      SparkRowReader.getInt r ordinal = .ok v) ∧
    (∀ v : Nat, v < 2 ^ 32 → holdsLE buffer off 4 v →
      SparkRowReader.getUnsignedInt r ordinal = .ok v) ∧
    (∀ v : Int, -2 ^ 63 ≤ v → v < 2 ^ 63 → holdsLE buffer off 8 (v % 2 ^ 64).toNat →
      SparkRowReader.getLong r ordinal = .ok v) := by
  refine ⟨?_, ?_, ?_, ?_, ?_, ?_, ?_⟩
  · intro v h1 h2 hh
    unfold SparkRowReader.getByte
    rw [readSlot_eq r buffer ordinal off 1 _ hb hi ho,
      readLE_of_holdsLE buffer 1 off _ hh (by norm_num; omega)]
    refine congrArg Except.ok ?_
    show toInt8 _ = v
    unfold toInt8
    omega
  · intro v h1 hh
    unfold SparkRowReader.getUnsignedByte
    rw [readSlot_eq r buffer ordinal off 1 _ hb hi ho,
      readLE_of_holdsLE buffer 1 off _ hh (by norm_num; omega)]
    rfl
  · intro v h1 h2 hh
    unfold SparkRowReader.getShort
    rw [readSlot_eq r buffer ordinal off 2 _ hb hi ho,
      readLE_of_holdsLE buffer 2 off _ hh (by norm_num; omega)]
    refine congrArg Except.ok ?_
    show toInt16 _ = v
    unfold toInt16
    omega
  · intro v h1 hh
    unfold SparkRowReader.getUnsignedShort
    rw [readSlot_eq r buffer ordinal off 2 _ hb hi ho,
      readLE_of_holdsLE buffer 2 off _ hh (by norm_num; omega)]
    rfl
  · intro v h1 h2 hh
    unfold SparkRowReader.getInt
    rw [readSlot_eq r buffer ordinal off 4 _ hb hi ho,
      readLE_of_holdsLE buffer 4 off _ hh (by norm_num; omega)]
    refine congrArg Except.ok ?_
    show toInt32 _ = v
    unfold toInt32
    omega
  · intro v h1 hh
    unfold SparkRowReader.getUnsignedInt
    rw [readSlot_eq r buffer ordinal off 4 _ hb hi ho,
      readLE_of_holdsLE buffer 4 off _ hh (by norm_num; omega)]
    rfl
  · intro v h1 h2 hh
    unfold SparkRowReader.getLong
    rw [readSlot_eq r buffer ordinal off 8 _ hb hi ho,
      readLE_of_holdsLE buffer 8 off _ hh (by norm_num; omega)]
    refine congrArg Except.ok ?_
    show toInt64 _ = v
    unfold toInt64
    omega

theorem exampleRow_slot0_holds : holdsLE exampleRow 8 4 (((-123 : Int) % 2 ^ 32).toNat) := by
  intro k hk
  have hcases : k = 0 ∨ k = 1 ∨ k = 2 ∨ k = 3 := by omega
  rcases hcases with h | h | h | h <;> subst h <;> decide

/-- Witness for C6: the leading four bytes of slot 0 of the example row hold
`-123`, the other four hold `0x11`, and `getInt` returns `-123`. -/
theorem SparkRowReader.integer_accessors_roundtrip_witness :
    ((exampleReader.pointTo exampleRow 40).buffer = some exampleRow ∧
      0 < (exampleReader.pointTo exampleRow 40).num_fields ∧
      (exampleReader.pointTo exampleRow 40).field_offsets[0]? = some 8 ∧
      holdsLE exampleRow 8 4 (((-123 : Int) % 2 ^ 32).toNat) ∧
      exampleRow 12 = 0x11) ∧
    SparkRowReader.getInt (exampleReader.pointTo exampleRow 40) 0 = .ok (-123) :=
  ⟨⟨rfl, by decide, rfl, exampleRow_slot0_holds, by decide⟩,
    (SparkRowReader.integer_accessors_roundtrip (exampleReader.pointTo exampleRow 40)
      exampleRow 0 8 rfl (by decide) rfl).2.2.2.2.1 (-123) (by decide) (by decide)
      exampleRow_slot0_holds⟩

/-! ## Type translation: proofs -/

/-- C7: `tryWrapNullable` is idempotent: wrapping twice with the same flag is
wrapping once, and the type is returned unchanged whenever it is already
nullable or the flag is not `NULLABLE`. -/
theorem TypeParser.tryWrapNullable_idempotent (n : Type_Nullability) (t : DataType) :
    TypeParser.tryWrapNullable n (TypeParser.tryWrapNullable n t) =
      TypeParser.tryWrapNullable n t ∧
    (t.isNullable = true ∨ n ≠ Type_Nullability.NULLABILITY_NULLABLE →
      TypeParser.tryWrapNullable n t = t) := by
  constructor
  · cases n <;> cases t <;> simp [TypeParser.tryWrapNullable, DataType.isNullable]
  · intro h
    unfold TypeParser.tryWrapNullable
    rcases h with h | h
    · simp [h]
    · simp [h]

theorem tryWrapNullable_noNestedNullable (n : Type_Nullability) (t : DataType)
    (h : t.noNestedNullable = true) : (TypeParser.tryWrapNullable n t).noNestedNullable = true := by
  unfold TypeParser.tryWrapNullable
  split
  · rename_i hc
    simp [DataType.noNestedNullable, hc.2, h]
  · exact h

theorem parseType_struct_eq (types : List SubstraitType) (n : Type_Nullability)
    (names : Option (List String)) :
    TypeParser.parseType (.struct_ types n) names =
      match TypeParser.popFieldName names with
      | .error e => .error e
      | .ok field_names =>
        match TypeParser.parseStructFields types field_names with
        | .error e => .error e
        | .ok (struct_field_types, struct_field_names, field_names) =>
          .ok (TypeParser.tryWrapNullable n
            (if struct_field_names.isEmpty = false then
              DataType.DataTypeTuple struct_field_types (some struct_field_names)
            else DataType.DataTypeTuple struct_field_types none), field_names) := by
  rw [TypeParser.parseType]

theorem parseType_list_eq (type : SubstraitType) (n : Type_Nullability)
    (names : Option (List String)) :
    TypeParser.parseType (.list type n) names =
      match TypeParser.popFieldName names with
      | .error e => .error e
      | .ok field_names =>
        match TypeParser.parseType type none with
        | .error e => .error e
        | .ok (ch_nested_type, _) =>
          .ok (TypeParser.tryWrapNullable n (.DataTypeArray ch_nested_type), field_names) := by
  rw [TypeParser.parseType]

theorem parseType_map_eq (key value : SubstraitType) (n : Type_Nullability)
    (names : Option (List String)) :
    TypeParser.parseType (.map key value n) names =
      match TypeParser.popFieldName names with
      | .error e => .error e
      | .ok field_names =>
        if key.has_nothing then
          .ok (TypeParser.tryWrapNullable n (.DataTypeMap .DataTypeNothing .DataTypeNothing), field_names)
        else
          match TypeParser.parseType key none with
          | .error e => .error e
          | .ok (ch_key_type, _) =>
            match TypeParser.parseType value none with
            | .error e => .error e
            | .ok (ch_val_type, _) =>
              .ok (TypeParser.tryWrapNullable n (.DataTypeMap ch_key_type ch_val_type), field_names) := by
  rw [TypeParser.parseType]

mutual

theorem parseType_noNestedNullable :
    ∀ (t : SubstraitType) (names : Option (List String)) (ty : DataType)
      (names' : Option (List String)),
      TypeParser.parseType t names = .ok (ty, names') → ty.noNestedNullable = true
  | .struct_ types n, names, ty, names', h => by
    rw [parseType_struct_eq] at h
    split at h
    · cases h
    · split at h
      · cases h
      · rename_i tys ns nm hps
        simp only [Except.ok.injEq, Prod.mk.injEq] at h
        rw [← h.1]
        apply tryWrapNullable_noNestedNullable
        have := parseStructFields_noNestedNullable types _ _ _ _ hps
        split <;> simpa [DataType.noNestedNullable] using this
  | .list type n, names, ty, names', h => by
    rw [parseType_list_eq] at h
    split at h
    · cases h
    · split at h
      · cases h
      · rename_i te nm hp
        simp only [Except.ok.injEq, Prod.mk.injEq] at h
        rw [← h.1]
        apply tryWrapNullable_noNestedNullable
        have := parseType_noNestedNullable type _ _ _ hp
        simpa [DataType.noNestedNullable] using this
  | .map key value n, names, ty, names', h => by
    rw [parseType_map_eq] at h
    split at h
    · cases h
    · split at h
      · simp only [Except.ok.injEq, Prod.mk.injEq] at h
        rw [← h.1]
        apply tryWrapNullable_noNestedNullable
        simp [DataType.noNestedNullable]
      · cases hk : TypeParser.parseType key none with
        | error e => rw [hk] at h; cases h
        | ok pk =>
          cases hv : TypeParser.parseType value none with
          | error e => rw [hk, hv] at h; cases h
          | ok pv =>
            rw [hk, hv] at h
            simp only [Except.ok.injEq, Prod.mk.injEq] at h
            rw [← h.1]
            apply tryWrapNullable_noNestedNullable
            have h1 := parseType_noNestedNullable key none pk.1 pk.2 hk
            have h2 := parseType_noNestedNullable value none pv.1 pv.2 hv
            simp [DataType.noNestedNullable, h1, h2]
  | .bool_ n, names, ty, names', h => by
    simp only [TypeParser.parseType] at h
    split at h
    · cases h
    · simp only [Except.ok.injEq, Prod.mk.injEq] at h
      rw [← h.1]
      exact tryWrapNullable_noNestedNullable _ _ rfl
  | .i8 n, names, ty, names', h => by
    simp only [TypeParser.parseType] at h
    split at h
    · cases h
    · simp only [Except.ok.injEq, Prod.mk.injEq] at h
      rw [← h.1]
      exact tryWrapNullable_noNestedNullable _ _ rfl
  | .i16 n, names, ty, names', h => by
    simp only [TypeParser.parseType] at h
    split at h
    · cases h
    · simp only [Except.ok.injEq, Prod.mk.injEq] at h
      rw [← h.1]
      exact tryWrapNullable_noNestedNullable _ _ rfl
  | .i32 n, names, ty, names', h => by
    simp only [TypeParser.parseType] at h
    split at h
    · cases h
    · simp only [Except.ok.injEq, Prod.mk.injEq] at h
      rw [← h.1]
      exact tryWrapNullable_noNestedNullable _ _ rfl
  | .i64 n, names, ty, names', h => by
    simp only [TypeParser.parseType] at h
    split at h
    · cases h
    · simp only [Except.ok.injEq, Prod.mk.injEq] at h
      rw [← h.1]
      exact tryWrapNullable_noNestedNullable _ _ rfl
  | .string n, names, ty, names', h => by
    simp only [TypeParser.parseType] at h
    split at h
    · cases h
    · simp only [Except.ok.injEq, Prod.mk.injEq] at h
      rw [← h.1]
      exact tryWrapNullable_noNestedNullable _ _ rfl
  | .binary n, names, ty, names', h => by
    simp only [TypeParser.parseType] at h
    split at h
    · cases h
    · simp only [Except.ok.injEq, Prod.mk.injEq] at h
      rw [← h.1]
      exact tryWrapNullable_noNestedNullable _ _ rfl
  | .fixed_char l n, names, ty, names', h => by
    simp only [TypeParser.parseType] at h
    split at h
    · cases h
    · simp only [Except.ok.injEq, Prod.mk.injEq] at h
      rw [← h.1]
      exact tryWrapNullable_noNestedNullable _ _ rfl
  | .fixed_binary l n, names, ty, names', h => by
    simp only [TypeParser.parseType] at h
    split at h
    · cases h
    · simp only [Except.ok.injEq, Prod.mk.injEq] at h
      rw [← h.1]
      exact tryWrapNullable_noNestedNullable _ _ rfl
  | .fp32 n, names, ty, names', h => by
    simp only [TypeParser.parseType] at h
    split at h
    · cases h
    · simp only [Except.ok.injEq, Prod.mk.injEq] at h
      rw [← h.1]
      exact tryWrapNullable_noNestedNullable _ _ rfl
  | .fp64 n, names, ty, names', h => by
    simp only [TypeParser.parseType] at h
    split at h
    · cases h
    · simp only [Except.ok.injEq, Prod.mk.injEq] at h
      rw [← h.1]
      exact tryWrapNullable_noNestedNullable _ _ rfl
  | .timestamp n, names, ty, names', h => by
    simp only [TypeParser.parseType] at h
    split at h
    · cases h
    · simp only [Except.ok.injEq, Prod.mk.injEq] at h
      rw [← h.1]
      exact tryWrapNullable_noNestedNullable _ _ rfl
  | .date n, names, ty, names', h => by
    simp only [TypeParser.parseType] at h
    split at h
    · cases h
    · simp only [Except.ok.injEq, Prod.mk.injEq] at h
      rw [← h.1]
      exact tryWrapNullable_noNestedNullable _ _ rfl
  | .decimal s p n, names, ty, names', h => by
    simp only [TypeParser.parseType] at h
    split at h
    · cases h
    · split at h
      · cases h
      · split at h
        · cases h
        · rename_i ch hcd
          simp only [Except.ok.injEq, Prod.mk.injEq] at h
          rw [← h.1]
          apply tryWrapNullable_noNestedNullable
          unfold createDecimal at hcd
          repeat' split at hcd
          all_goals (cases hcd; try simp [DataType.noNestedNullable])
  | .nothing, names, ty, names', h => by
    simp only [TypeParser.parseType] at h
    split at h
    · cases h
    · simp only [Except.ok.injEq, Prod.mk.injEq] at h
      rw [← h.1]
      exact tryWrapNullable_noNestedNullable _ _ rfl
  | .other k, names, ty, names', h => by
    simp only [TypeParser.parseType] at h
    split at h <;> cases h

theorem parseStructFields_noNestedNullable :
    ∀ (types : List SubstraitType) (names : Option (List String)) (tys : List DataType)
      (ns : List String) (names' : Option (List String)),
      TypeParser.parseStructFields types names = .ok (tys, ns, names') →
      noNestedNullableList tys = true
  | [], names, tys, ns, names', h => by
    simp only [TypeParser.parseStructFields, Except.ok.injEq, Prod.mk.injEq] at h
    rw [← h.1]
    rfl
  | t :: rest, names, tys, ns, names', h => by
    rw [TypeParser.parseStructFields] at h
    cases hf : TypeParser.frontFieldName names with
    | error e => rw [hf] at h; cases h
    | ok front =>
      cases hp : TypeParser.parseType t names with
      | error e => rw [hf, hp] at h; cases h
      | ok p =>
        cases hps : TypeParser.parseStructFields rest p.2 with
        | error e => rw [hf, hp] at h; simp only [hps] at h; cases h
        | ok q =>
          rw [hf, hp] at h
          simp only [hps, Except.ok.injEq, Prod.mk.injEq] at h
          rw [← h.1]
          have h1 := parseType_noNestedNullable t names p.1 p.2 hp
          have h2 := parseStructFields_noNestedNullable rest p.2 q.1 q.2.1 q.2.2 hps
          simp [noNestedNullableList, h1, h2]

end

theorem parseType_popFieldName_error (d : SubstraitType) (names : Option (List String))
    (e : Error) (h : TypeParser.popFieldName names = .error e) :
    TypeParser.parseType d names = .error e := by
  rw [TypeParser.parseType]
  simp only [h]

theorem createDecimal_isNullable (p s : Nat) (T : DataType)
    (h : createDecimal p s = .ok T) : T.isNullable = false := by
  unfold createDecimal at h
  repeat' split at h
  all_goals (cases h; try rfl)

theorem tryWrapNullable_forms (T : DataType) (hT : T.isNullable = false) :
    TypeParser.tryWrapNullable .NULLABILITY_REQUIRED T = T ∧
    TypeParser.tryWrapNullable .NULLABILITY_UNSPECIFIED T = T ∧
    TypeParser.tryWrapNullable .NULLABILITY_NULLABLE T = .DataTypeNullable T := by
  simp [TypeParser.tryWrapNullable, hT]

/-- C8: for every descriptor tree on which `parseType` succeeds, with or
without a name list, no node of the resulting type tree is a `Nullable` whose
nested type is itself a `Nullable`. -/
theorem TypeParser.parseType_no_nested_nullable (d : SubstraitType)
    (names : Option (List String)) (ty : DataType) (names' : Option (List String))
    (h : TypeParser.parseType d names = .ok (ty, names')) :
    ty.noNestedNullable = true :=
  parseType_noNestedNullable d names ty names' h

/-- Witness for C8: the nested example descriptor translates to a nullable
tuple without a doubly wrapped node. -/
theorem TypeParser.parseType_no_nested_nullable_witness :
    TypeParser.parseType exampleDescriptor none = .ok (.DataTypeNullable exampleTuple, none) ∧
    (DataType.DataTypeNullable exampleTuple).noNestedNullable = true :=
  ⟨rfl, TypeParser.parseType_no_nested_nullable exampleDescriptor none
    (.DataTypeNullable exampleTuple) none rfl⟩

/-- C9: for every descriptor of a kind other than `nothing` on which
`parseType` succeeds, the root nullability flag affects only the outermost
wrapper: there is a non-nullable type `T` such that the descriptor with flag
`REQUIRED` or `UNSPECIFIED` translates to `T` and with flag `NULLABLE` to
`Nullable(T)`, consuming the same names. -/
theorem TypeParser.parseType_root_nullability (d : SubstraitType)
    (names : Option (List String)) (ty : DataType) (names' : Option (List String))
    (hkind : d.has_nothing = false)
    (h : TypeParser.parseType d names = .ok (ty, names')) :
    ∃ T : DataType, T.isNullable = false ∧
      TypeParser.parseType (d.setNullability .NULLABILITY_REQUIRED) names = .ok (T, names') ∧
      TypeParser.parseType (d.setNullability .NULLABILITY_UNSPECIFIED) names = .ok (T, names') ∧
      TypeParser.parseType (d.setNullability .NULLABILITY_NULLABLE) names =
        .ok (.DataTypeNullable T, names') := by
  cases hpop : TypeParser.popFieldName names with
  | error e => rw [parseType_popFieldName_error d names e hpop] at h; cases h
  | ok fn =>
    cases d with
    | nothing => simp [SubstraitType.has_nothing] at hkind
    | other k =>
      rw [TypeParser.parseType] at h
      simp only [hpop] at h
      cases h
    | bool_ n =>
      rw [TypeParser.parseType] at h
      simp only [hpop, Except.ok.injEq, Prod.mk.injEq] at h
      obtain ⟨h1, h2, h3⟩ := tryWrapNullable_forms .DataTypeBool rfl
      refine ⟨.DataTypeBool, rfl, ?_, ?_, ?_⟩ <;>
        (simp only [SubstraitType.setNullability]; rw [TypeParser.parseType];
         simp only [hpop, h1, h2, h3, h.2])
    | i8 n =>
      rw [TypeParser.parseType] at h
      simp only [hpop, Except.ok.injEq, Prod.mk.injEq] at h
      obtain ⟨h1, h2, h3⟩ := tryWrapNullable_forms .DataTypeInt8 rfl
      refine ⟨.DataTypeInt8, rfl, ?_, ?_, ?_⟩ <;>
        (simp only [SubstraitType.setNullability]; rw [TypeParser.parseType];
         simp only [hpop, h1, h2, h3, h.2])
    | i16 n =>
      rw [TypeParser.parseType] at h
      simp only [hpop, Except.ok.injEq, Prod.mk.injEq] at h
      obtain ⟨h1, h2, h3⟩ := tryWrapNullable_forms .DataTypeInt16 rfl
      refine ⟨.DataTypeInt16, rfl, ?_, ?_, ?_⟩ <;>
        (simp only [SubstraitType.setNullability]; rw [TypeParser.parseType];
         simp only [hpop, h1, h2, h3, h.2])
    | i32 n =>
      rw [TypeParser.parseType] at h
      simp only [hpop, Except.ok.injEq, Prod.mk.injEq] at h
      obtain ⟨h1, h2, h3⟩ := tryWrapNullable_forms .DataTypeInt32 rfl
      refine ⟨.DataTypeInt32, rfl, ?_, ?_, ?_⟩ <;>
        (simp only [SubstraitType.setNullability]; rw [TypeParser.parseType];
         simp only [hpop, h1, h2, h3, h.2])
    | i64 n =>
      rw [TypeParser.parseType] at h
      simp only [hpop, Except.ok.injEq, Prod.mk.injEq] at h
      obtain ⟨h1, h2, h3⟩ := tryWrapNullable_forms .DataTypeInt64 rfl
      refine ⟨.DataTypeInt64, rfl, ?_, ?_, ?_⟩ <;>
        (simp only [SubstraitType.setNullability]; rw [TypeParser.parseType];
         simp only [hpop, h1, h2, h3, h.2])
    | string n =>
      rw [TypeParser.parseType] at h
      simp only [hpop, Except.ok.injEq, Prod.mk.injEq] at h
      obtain ⟨h1, h2, h3⟩ := tryWrapNullable_forms .DataTypeString rfl
      refine ⟨.DataTypeString, rfl, ?_, ?_, ?_⟩ <;>
        (simp only [SubstraitType.setNullability]; rw [TypeParser.parseType];
         simp only [hpop, h1, h2, h3, h.2])
    | binary n =>
      rw [TypeParser.parseType] at h
      simp only [hpop, Except.ok.injEq, Prod.mk.injEq] at h
      obtain ⟨h1, h2, h3⟩ := tryWrapNullable_forms .DataTypeString rfl
      refine ⟨.DataTypeString, rfl, ?_, ?_, ?_⟩ <;>
        (simp only [SubstraitType.setNullability]; rw [TypeParser.parseType];
         simp only [hpop, h1, h2, h3, h.2])
    | fixed_char l n =>
      rw [TypeParser.parseType] at h
      simp only [hpop, Except.ok.injEq, Prod.mk.injEq] at h
      obtain ⟨h1, h2, h3⟩ := tryWrapNullable_forms (.DataTypeFixedString (toUInt64 l)) rfl
      refine ⟨(.DataTypeFixedString (toUInt64 l)), rfl, ?_, ?_, ?_⟩ <;>
        (simp only [SubstraitType.setNullability]; rw [TypeParser.parseType];
         simp only [hpop, h1, h2, h3, h.2])
    | fixed_binary l n =>
      rw [TypeParser.parseType] at h
      simp only [hpop, Except.ok.injEq, Prod.mk.injEq] at h
      obtain ⟨h1, h2, h3⟩ := tryWrapNullable_forms (.DataTypeFixedString (toUInt64 l)) rfl
      refine ⟨(.DataTypeFixedString (toUInt64 l)), rfl, ?_, ?_, ?_⟩ <;>
        (simp only [SubstraitType.setNullability]; rw [TypeParser.parseType];
         simp only [hpop, h1, h2, h3, h.2])
    | fp32 n =>
      rw [TypeParser.parseType] at h
      simp only [hpop, Except.ok.injEq, Prod.mk.injEq] at h
      obtain ⟨h1, h2, h3⟩ := tryWrapNullable_forms .DataTypeFloat32 rfl
      refine ⟨.DataTypeFloat32, rfl, ?_, ?_, ?_⟩ <;>
        (simp only [SubstraitType.setNullability]; rw [TypeParser.parseType];
         simp only [hpop, h1, h2, h3, h.2])
    | fp64 n =>
      rw [TypeParser.parseType] at h
      simp only [hpop, Except.ok.injEq, Prod.mk.injEq] at h
      obtain ⟨h1, h2, h3⟩ := tryWrapNullable_forms .DataTypeFloat64 rfl
      refine ⟨.DataTypeFloat64, rfl, ?_, ?_, ?_⟩ <;>
        (simp only [SubstraitType.setNullability]; rw [TypeParser.parseType];
         simp only [hpop, h1, h2, h3, h.2])
    | timestamp n =>
      rw [TypeParser.parseType] at h
      simp only [hpop, Except.ok.injEq, Prod.mk.injEq] at h
      obtain ⟨h1, h2, h3⟩ := tryWrapNullable_forms (.DataTypeDateTime64 6) rfl
      refine ⟨(.DataTypeDateTime64 6), rfl, ?_, ?_, ?_⟩ <;>
        (simp only [SubstraitType.setNullability]; rw [TypeParser.parseType];
         simp only [hpop, h1, h2, h3, h.2])
    | date n =>
      rw [TypeParser.parseType] at h
      simp only [hpop, Except.ok.injEq, Prod.mk.injEq] at h
      obtain ⟨h1, h2, h3⟩ := tryWrapNullable_forms .DataTypeDate32 rfl
      refine ⟨.DataTypeDate32, rfl, ?_, ?_, ?_⟩ <;>
        (simp only [SubstraitType.setNullability]; rw [TypeParser.parseType];
         simp only [hpop, h1, h2, h3, h.2])
    | decimal s p n =>
      rw [TypeParser.parseType] at h
      simp only [hpop] at h
      by_cases hmax : DataTypeDecimal128.maxPrecision < toUInt32 p
      · simp only [hmax, if_true] at h
        cases h
      · simp only [hmax, if_false] at h
        cases hcd : createDecimal (toUInt32 p) (toUInt32 s) with
        | error e => rw [hcd] at h; cases h
        | ok T =>
          rw [hcd] at h
          simp only [Except.ok.injEq, Prod.mk.injEq] at h
          obtain ⟨h1, h2, h3⟩ := tryWrapNullable_forms T (createDecimal_isNullable _ _ T hcd)
          refine ⟨T, createDecimal_isNullable _ _ T hcd, ?_, ?_, ?_⟩ <;>
            (simp only [SubstraitType.setNullability]; rw [TypeParser.parseType];
             simp only [hpop, hmax, if_false, hcd, h1, h2, h3, h.2])
    | struct_ types n =>
      rw [parseType_struct_eq] at h
      simp only [hpop] at h
      cases hps : TypeParser.parseStructFields types fn with
      | error e => rw [hps] at h; cases h
      | ok q =>
        rw [hps] at h
        simp only [Except.ok.injEq, Prod.mk.injEq] at h
        have hT : (if q.2.1.isEmpty = false then DataType.DataTypeTuple q.1 (some q.2.1)
            else DataType.DataTypeTuple q.1 none).isNullable = false := by
          split <;> rfl
        obtain ⟨h1, h2, h3⟩ := tryWrapNullable_forms _ hT
        refine ⟨_, hT, ?_, ?_, ?_⟩ <;>
          (simp only [SubstraitType.setNullability]; rw [parseType_struct_eq];
           simp only [hpop, hps, h1, h2, h3, h.2])
    | list type n =>
      rw [parseType_list_eq] at h
      simp only [hpop] at h
      cases hp : TypeParser.parseType type none with
      | error e => rw [hp] at h; cases h
      | ok q =>
        rw [hp] at h
        simp only [Except.ok.injEq, Prod.mk.injEq] at h
        obtain ⟨h1, h2, h3⟩ := tryWrapNullable_forms (.DataTypeArray q.1) rfl
        refine ⟨.DataTypeArray q.1, rfl, ?_, ?_, ?_⟩ <;>
          (simp only [SubstraitType.setNullability]; rw [parseType_list_eq];
           simp only [hpop, hp, h1, h2, h3, h.2])
    | map key value n =>
      rw [parseType_map_eq] at h
      simp only [hpop] at h
      by_cases hn : key.has_nothing = true
      · simp only [hn, if_true, Except.ok.injEq, Prod.mk.injEq] at h
        obtain ⟨h1, h2, h3⟩ :=
          tryWrapNullable_forms (.DataTypeMap .DataTypeNothing .DataTypeNothing) rfl
        refine ⟨.DataTypeMap .DataTypeNothing .DataTypeNothing, rfl, ?_, ?_, ?_⟩ <;>
          (simp only [SubstraitType.setNullability]; rw [parseType_map_eq];
           simp only [hpop, hn, if_true, h1, h2, h3, h.2])
      · have hn' : key.has_nothing = false := by simpa using hn
        simp only [hn', Bool.false_eq_true, if_false] at h
        cases hk : TypeParser.parseType key none with
        | error e => rw [hk] at h; cases h
        | ok pk =>
          cases hv : TypeParser.parseType value none with
          | error e => rw [hk, hv] at h; cases h
          | ok pv =>
            rw [hk, hv] at h
            simp only [Except.ok.injEq, Prod.mk.injEq] at h
            obtain ⟨h1, h2, h3⟩ := tryWrapNullable_forms (.DataTypeMap pk.1 pv.1) rfl
            refine ⟨.DataTypeMap pk.1 pv.1, rfl, ?_, ?_, ?_⟩ <;>
              (simp only [SubstraitType.setNullability]; rw [parseType_map_eq];
               simp only [hpop, hn', Bool.false_eq_true, if_false, hk, hv, h1, h2, h3, h.2])

/-- Witness for C9: the nullable example descriptor translates to `Nullable`
of the tuple that its required and unspecified variants translate to. -/
theorem TypeParser.parseType_root_nullability_witness :
    (exampleDescriptor.has_nothing = false ∧
      TypeParser.parseType exampleDescriptor none =
        .ok (.DataTypeNullable exampleTuple, none)) ∧
    ∃ T : DataType, T.isNullable = false ∧
      TypeParser.parseType (exampleDescriptor.setNullability .NULLABILITY_REQUIRED) none =
        .ok (T, none) ∧
      TypeParser.parseType (exampleDescriptor.setNullability .NULLABILITY_UNSPECIFIED) none =
        .ok (T, none) ∧
      TypeParser.parseType (exampleDescriptor.setNullability .NULLABILITY_NULLABLE) none =
        .ok (.DataTypeNullable T, none) :=
  ⟨⟨rfl, rfl⟩, TypeParser.parseType_root_nullability exampleDescriptor none
    (.DataTypeNullable exampleTuple) none rfl rfl⟩

mutual

theorem parseType_none_names :
    ∀ (t : SubstraitType) (ty : DataType) (names' : Option (List String)),
      TypeParser.parseType t none = .ok (ty, names') → names' = none
  | .struct_ types n, ty, names', h => by
    rw [parseType_struct_eq] at h
    simp only [TypeParser.popFieldName] at h
    cases hps : TypeParser.parseStructFields types none with
    | error e => rw [hps] at h; cases h
    | ok q =>
      rw [hps] at h
      simp only [Except.ok.injEq, Prod.mk.injEq] at h
      rw [← h.2]
      exact parseStructFields_none_names types q.1 q.2.1 q.2.2 hps
  | .list type n, ty, names', h => by
    rw [parseType_list_eq] at h
    simp only [TypeParser.popFieldName] at h
    cases hp : TypeParser.parseType type none with
    | error e => rw [hp] at h; cases h
    | ok q =>
      rw [hp] at h
      simp only [Except.ok.injEq, Prod.mk.injEq] at h
      exact h.2.symm
  | .map key value n, ty, names', h => by
    rw [parseType_map_eq] at h
    simp only [TypeParser.popFieldName] at h
    split at h
    · simp only [Except.ok.injEq, Prod.mk.injEq] at h
      exact h.2.symm
    · cases hk : TypeParser.parseType key none with
      | error e => rw [hk] at h; cases h
      | ok pk =>
        cases hv : TypeParser.parseType value none with
        | error e => rw [hk, hv] at h; cases h
        | ok pv =>
          rw [hk, hv] at h
          simp only [Except.ok.injEq, Prod.mk.injEq] at h
          exact h.2.symm
  | .decimal s p n, ty, names', h => by
    rw [TypeParser.parseType] at h
    simp only [TypeParser.popFieldName] at h
    split at h
    · cases h
    · split at h
      · cases h
      · simp only [Except.ok.injEq, Prod.mk.injEq] at h
        exact h.2.symm
  | .other k, ty, names', h => by
    rw [TypeParser.parseType] at h
    simp only [TypeParser.popFieldName] at h
    cases h
  | .bool_ n, ty, names', h => by
    rw [TypeParser.parseType] at h
    simp only [TypeParser.popFieldName, Except.ok.injEq, Prod.mk.injEq] at h
    exact h.2.symm
  | .i8 n, ty, names', h => by
    rw [TypeParser.parseType] at h
    simp only [TypeParser.popFieldName, Except.ok.injEq, Prod.mk.injEq] at h
    exact h.2.symm
  | .i16 n, ty, names', h => by
    rw [TypeParser.parseType] at h
    simp only [TypeParser.popFieldName, Except.ok.injEq, Prod.mk.injEq] at h
    exact h.2.symm
  | .i32 n, ty, names', h => by
    rw [TypeParser.parseType] at h
    simp only [TypeParser.popFieldName, Except.ok.injEq, Prod.mk.injEq] at h
    exact h.2.symm
  | .i64 n, ty, names', h => by
    rw [TypeParser.parseType] at h
    simp only [TypeParser.popFieldName, Except.ok.injEq, Prod.mk.injEq] at h
    exact h.2.symm
  | .string n, ty, names', h => by
    rw [TypeParser.parseType] at h
    simp only [TypeParser.popFieldName, Except.ok.injEq, Prod.mk.injEq] at h
    exact h.2.symm
  | .binary n, ty, names', h => by
    rw [TypeParser.parseType] at h
    simp only [TypeParser.popFieldName, Except.ok.injEq, Prod.mk.injEq] at h
    exact h.2.symm
  | .fixed_char l n, ty, names', h => by
    rw [TypeParser.parseType] at h
    simp only [TypeParser.popFieldName, Except.ok.injEq, Prod.mk.injEq] at h
    exact h.2.symm
  | .fixed_binary l n, ty, names', h => by
    rw [TypeParser.parseType] at h
    simp only [TypeParser.popFieldName, Except.ok.injEq, Prod.mk.injEq] at h
    exact h.2.symm
  | .fp32 n, ty, names', h => by
    rw [TypeParser.parseType] at h
    simp only [TypeParser.popFieldName, Except.ok.injEq, Prod.mk.injEq] at h
    exact h.2.symm
  | .fp64 n, ty, names', h => by
    rw [TypeParser.parseType] at h
    simp only [TypeParser.popFieldName, Except.ok.injEq, Prod.mk.injEq] at h
    exact h.2.symm
  | .timestamp n, ty, names', h => by
    rw [TypeParser.parseType] at h
    simp only [TypeParser.popFieldName, Except.ok.injEq, Prod.mk.injEq] at h
    exact h.2.symm
  | .date n, ty, names', h => by
    rw [TypeParser.parseType] at h
    simp only [TypeParser.popFieldName, Except.ok.injEq, Prod.mk.injEq] at h
    exact h.2.symm
  | .nothing, ty, names', h => by
    rw [TypeParser.parseType] at h
    simp only [TypeParser.popFieldName, Except.ok.injEq, Prod.mk.injEq] at h
    exact h.2.symm

theorem parseStructFields_none_names :
    ∀ (types : List SubstraitType) (tys : List DataType) (ns : List String)
      (names' : Option (List String)),
      TypeParser.parseStructFields types none = .ok (tys, ns, names') → names' = none
  | [], tys, ns, names', h => by
    simp only [TypeParser.parseStructFields, Except.ok.injEq, Prod.mk.injEq] at h
    exact h.2.2.symm
  | t :: rest, tys, ns, names', h => by
    rw [TypeParser.parseStructFields] at h
    simp only [TypeParser.frontFieldName] at h
    cases hp : TypeParser.parseType t none with
    | error e => rw [hp] at h; cases h
    | ok p =>
      have hnone : p.2 = none := parseType_none_names t p.1 p.2 hp
      cases hps : TypeParser.parseStructFields rest none with
      | error e => rw [hp] at h; simp only [hnone, hps] at h; cases h
      | ok q =>
        rw [hp] at h
        simp only [hnone, hps, Except.ok.injEq, Prod.mk.injEq] at h
        rw [← h.2.2]
        exact parseStructFields_none_names rest q.1 q.2.1 q.2.2 hps

end

theorem parseStructFields_children :
    ∀ (types : List SubstraitType) (names : Option (List String)) (tys : List DataType)
      (ns : List String) (names' : Option (List String)),
      TypeParser.parseStructFields types names = .ok (tys, ns, names') →
      tys.length = types.length ∧
      ∀ i : Nat, i < types.length →
        ∃ (child : SubstraitType) (t : DataType) (nm nm' : Option (List String)),
          types[i]? = some child ∧ tys[i]? = some t ∧ (names = none → nm = none) ∧
          TypeParser.parseType child nm = .ok (t, nm') := by
  intro types
  induction types with
  | nil =>
    intro names tys ns names' h
    simp only [TypeParser.parseStructFields, Except.ok.injEq, Prod.mk.injEq] at h
    rw [← h.1]
    exact ⟨rfl, fun i hi => absurd hi (Nat.not_lt_zero i)⟩
  | cons t rest ih =>
    intro names tys ns names' h
    rw [TypeParser.parseStructFields] at h
    cases hf : TypeParser.frontFieldName names with
    | error e => rw [hf] at h; cases h
    | ok front =>
      cases hp : TypeParser.parseType t names with
      | error e => rw [hf, hp] at h; cases h
      | ok p =>
        cases hps : TypeParser.parseStructFields rest p.2 with
        | error e => rw [hf, hp] at h; simp only [hps] at h; cases h
        | ok q =>
          rw [hf, hp] at h
          simp only [hps, Except.ok.injEq, Prod.mk.injEq] at h
          obtain ⟨hlen, hch⟩ := ih p.2 q.1 q.2.1 q.2.2 hps
          rw [← h.1]
          refine ⟨by simp [hlen], ?_⟩
          intro i hi
          cases i with
          | zero => exact ⟨t, p.1, names, p.2, by simp, by simp, fun hn => hn, hp⟩
          | succ j =>
            obtain ⟨child, tc, nm, nm', h1, h2, h3, h4⟩ :=
              hch j (by simpa using hi)
            refine ⟨child, tc, nm, nm', by simpa using h1, by simpa using h2, ?_, h4⟩
            intro hn
            apply h3
            subst hn
            exact parseType_none_names t p.1 p.2 hp

theorem tryWrapNullable_isNullable (n : Type_Nullability) (T : DataType)
    (hT : T.isNullable = false) :
    (TypeParser.tryWrapNullable n T).isNullable =
      decide (n = Type_Nullability.NULLABILITY_NULLABLE) := by
  cases n
  · simp [TypeParser.tryWrapNullable, hT]
  · have h : (DataType.DataTypeNullable T).isNullable = true := rfl
    simp [TypeParser.tryWrapNullable, hT, h]
  · simp [TypeParser.tryWrapNullable, hT]

/-- C10: nullability is not inherited from the parent. For every list, map
(with a key other than `nothing`) and struct descriptor that translates, each
child's translated type is what `parseType` returns for that child alone (for
struct fields, with the name list as it stands when the field is reached, which
is absent whenever the struct was given none); the result is wrapped exactly
when the parent's own flag is `NULLABLE`, whatever the children are; and with
any other parent flag the same children types are wrapped or not by that flag
alone. -/
theorem TypeParser.parseType_children_not_inherited :
    (∀ (type : SubstraitType) (n : Type_Nullability) (names : Option (List String))
        (ty : DataType) (names' : Option (List String)),
      TypeParser.parseType (.list type n) names = .ok (ty, names') →
      ∃ (te : DataType) (rest : Option (List String)),
        TypeParser.parseType type none = .ok (te, rest) ∧
        ty = TypeParser.tryWrapNullable n (.DataTypeArray te) ∧
        ty.isNullable = decide (n = Type_Nullability.NULLABILITY_NULLABLE) ∧
        ∀ n' : Type_Nullability, TypeParser.parseType (.list type n') names =
          .ok (TypeParser.tryWrapNullable n' (.DataTypeArray te), names')) ∧
    (∀ (key value : SubstraitType) (n : Type_Nullability) (names : Option (List String))
        (ty : DataType) (names' : Option (List String)),
      key.has_nothing = false →
      TypeParser.parseType (.map key value n) names = .ok (ty, names') →
      ∃ (tk tv : DataType) (rk rv : Option (List String)),
        TypeParser.parseType key none = .ok (tk, rk) ∧
        TypeParser.parseType value none = .ok (tv, rv) ∧
        ty = TypeParser.tryWrapNullable n (.DataTypeMap tk tv) ∧
        ty.isNullable = decide (n = Type_Nullability.NULLABILITY_NULLABLE) ∧
        ∀ n' : Type_Nullability, TypeParser.parseType (.map key value n') names =
          .ok (TypeParser.tryWrapNullable n' (.DataTypeMap tk tv), names')) ∧
    (∀ (types : List SubstraitType) (n : Type_Nullability) (names : Option (List String))
        (ty : DataType) (names' : Option (List String)),
      TypeParser.parseType (.struct_ types n) names = .ok (ty, names') →
      ∃ (tys : List DataType) (nms : Option (List String)),
        ty = TypeParser.tryWrapNullable n (.DataTypeTuple tys nms) ∧
        tys.length = types.length ∧
        ty.isNullable = decide (n = Type_Nullability.NULLABILITY_NULLABLE) ∧
        (∀ i : Nat, i < types.length →
          ∃ (child : SubstraitType) (t : DataType) (nm nm' : Option (List String)),
            types[i]? = some child ∧ tys[i]? = some t ∧ (names = none → nm = none) ∧
            TypeParser.parseType child nm = .ok (t, nm')) ∧
        ∀ n' : Type_Nullability, TypeParser.parseType (.struct_ types n') names =
          .ok (TypeParser.tryWrapNullable n' (.DataTypeTuple tys nms), names')) := by
  refine ⟨?_, ?_, ?_⟩
  · intro type n names ty names' h
    rw [parseType_list_eq] at h
    cases hpop : TypeParser.popFieldName names with
    | error e => rw [hpop] at h; cases h
    | ok fn =>
      cases hp : TypeParser.parseType type none with
      | error e => rw [hpop] at h; simp only [hp] at h; cases h
      | ok q =>
        rw [hpop] at h
        simp only [hp, Except.ok.injEq, Prod.mk.injEq] at h
        refine ⟨q.1, q.2, rfl, h.1.symm, ?_, ?_⟩
        · rw [← h.1]
          exact tryWrapNullable_isNullable n _ rfl
        · intro n'
          rw [parseType_list_eq]
          simp only [hpop, hp, h.2]
  · intro key value n names ty names' hkey h
    rw [parseType_map_eq] at h
    cases hpop : TypeParser.popFieldName names with
    | error e => rw [hpop] at h; cases h
    | ok fn =>
      rw [hpop] at h
      simp only [hkey, Bool.false_eq_true, if_false] at h
      cases hk : TypeParser.parseType key none with
      | error e => rw [hk] at h; cases h
      | ok pk =>
        cases hv : TypeParser.parseType value none with
        | error e => rw [hk, hv] at h; cases h
        | ok pv =>
          rw [hk, hv] at h
          simp only [Except.ok.injEq, Prod.mk.injEq] at h
          refine ⟨pk.1, pv.1, pk.2, pv.2, rfl, rfl, h.1.symm, ?_, ?_⟩
          · rw [← h.1]
            exact tryWrapNullable_isNullable n _ rfl
          · intro n'
            rw [parseType_map_eq]
            simp only [hpop, hkey, Bool.false_eq_true, if_false, hk, hv, h.2]
  · intro types n names ty names' h
    rw [parseType_struct_eq] at h
    cases hpop : TypeParser.popFieldName names with
    | error e => rw [hpop] at h; cases h
    | ok fn =>
      cases hps : TypeParser.parseStructFields types fn with
      | error e => rw [hpop] at h; simp only [hps] at h; cases h
      | ok q =>
        rw [hpop] at h
        simp only [hps, Except.ok.injEq, Prod.mk.injEq] at h
        obtain ⟨hlen, hch⟩ := parseStructFields_children types fn q.1 q.2.1 q.2.2 hps
        have hfn : names = none → fn = none := by
          intro hn
          subst hn
          simp only [TypeParser.popFieldName, Except.ok.injEq] at hpop
          exact hpop.symm
        refine ⟨q.1, if q.2.1.isEmpty = false then some q.2.1 else none, ?_, hlen, ?_, ?_, ?_⟩
        · rw [← h.1]
          split <;> rfl
        · rw [← h.1]
          apply tryWrapNullable_isNullable
          split <;> rfl
        · intro i hi
          obtain ⟨child, t, nm, nm', h1, h2, h3, h4⟩ := hch i hi
          exact ⟨child, t, nm, nm', h1, h2, fun hn => h3 (hfn hn), h4⟩
        · intro n'
          rw [parseType_struct_eq]
          simp only [hpop, hps, h.2]
          split <;> rfl

/-- Instance of C10 at the example descriptor: its three fields translate as
they do alone, and the tuple is wrapped because the struct itself is nullable. -/
theorem TypeParser.parseType_children_not_inherited_witness :
    TypeParser.parseType exampleDescriptor none = .ok (.DataTypeNullable exampleTuple, none) ∧
    ∃ (tys : List DataType) (nms : Option (List String)),
      DataType.DataTypeNullable exampleTuple =
        TypeParser.tryWrapNullable .NULLABILITY_NULLABLE (.DataTypeTuple tys nms) ∧
      tys.length = exampleFields.length ∧
      (DataType.DataTypeNullable exampleTuple).isNullable =
        decide (Type_Nullability.NULLABILITY_NULLABLE = Type_Nullability.NULLABILITY_NULLABLE) ∧
      (∀ i : Nat, i < exampleFields.length →
        ∃ (child : SubstraitType) (t : DataType) (nm nm' : Option (List String)),
          exampleFields[i]? = some child ∧
          tys[i]? = some t ∧ ((none : Option (List String)) = none → nm = none) ∧
          TypeParser.parseType child nm = .ok (t, nm')) ∧
      ∀ n' : Type_Nullability,
        TypeParser.parseType (.struct_ exampleFields n') none =
          .ok (TypeParser.tryWrapNullable n' (.DataTypeTuple tys nms), none) :=
  ⟨rfl, TypeParser.parseType_children_not_inherited.2.2 exampleFields .NULLABILITY_NULLABLE none
    (.DataTypeNullable exampleTuple) none rfl⟩


/-! ## Names and structure of the translated type: proofs -/

mutual

theorem eraseNames_of_allPositional :
    ∀ t : DataType, t.allPositional = true → t.eraseNames = t
  | .DataTypeTuple elems names, h => by
    simp only [DataType.allPositional, Bool.and_eq_true, Option.isNone_iff_eq_none] at h
    simp only [DataType.eraseNames, eraseNamesList_of_allPositionalList elems h.2, h.1]
  | .DataTypeArray nested, h => by
    simp only [DataType.allPositional] at h
    simp only [DataType.eraseNames, eraseNames_of_allPositional nested h]
  | .DataTypeMap key value, h => by
    simp only [DataType.allPositional, Bool.and_eq_true] at h
    simp only [DataType.eraseNames, eraseNames_of_allPositional key h.1,
      eraseNames_of_allPositional value h.2]
  | .DataTypeNullable nested, h => by
    simp only [DataType.allPositional] at h
    simp only [DataType.eraseNames, eraseNames_of_allPositional nested h]
  | .DataTypeAggregateFunction f args, h => by
    simp only [DataType.allPositional] at h
    simp only [DataType.eraseNames, eraseNamesList_of_allPositionalList args h]
  | .DataTypeBool, _ => by simp only [DataType.eraseNames]
  | .DataTypeInt8, _ => by simp only [DataType.eraseNames]
  | .DataTypeInt16, _ => by simp only [DataType.eraseNames]
  | .DataTypeInt32, _ => by simp only [DataType.eraseNames]
  | .DataTypeInt64, _ => by simp only [DataType.eraseNames]
  | .DataTypeFloat32, _ => by simp only [DataType.eraseNames]
  | .DataTypeFloat64, _ => by simp only [DataType.eraseNames]
  | .DataTypeString, _ => by simp only [DataType.eraseNames]
  | .DataTypeDate32, _ => by simp only [DataType.eraseNames]
  | .DataTypeNothing, _ => by simp only [DataType.eraseNames]
  | .DataTypeFixedString n, _ => by simp only [DataType.eraseNames]
  | .DataTypeDateTime64 s, _ => by simp only [DataType.eraseNames]
  | .DataTypeDecimal32 p s, _ => by simp only [DataType.eraseNames]
  | .DataTypeDecimal64 p s, _ => by simp only [DataType.eraseNames]
  | .DataTypeDecimal128 p s, _ => by simp only [DataType.eraseNames]
  | .DataTypeDecimal256 p s, _ => by simp only [DataType.eraseNames]

theorem eraseNamesList_of_allPositionalList :
    ∀ ts : List DataType, allPositionalList ts = true → eraseNamesList ts = ts
  | [], _ => by simp only [eraseNamesList]
  | t :: ts, h => by
    simp only [allPositionalList, Bool.and_eq_true] at h
    simp only [eraseNamesList, eraseNames_of_allPositional t h.1,
      eraseNamesList_of_allPositionalList ts h.2]

end

theorem tryWrapNullable_allPositional (n : Type_Nullability) (t : DataType)
    (h : t.allPositional = true) : (TypeParser.tryWrapNullable n t).allPositional = true := by
  unfold TypeParser.tryWrapNullable
  split
  · simpa [DataType.allPositional] using h
  · exact h

theorem isNullable_eraseNames (t : DataType) : t.eraseNames.isNullable = t.isNullable := by
  cases t <;> simp [DataType.eraseNames, DataType.isNullable]

theorem eraseNames_tryWrapNullable (n : Type_Nullability) (t : DataType) :
    (TypeParser.tryWrapNullable n t).eraseNames = TypeParser.tryWrapNullable n t.eraseNames := by
  unfold TypeParser.tryWrapNullable
  rw [isNullable_eraseNames]
  split
  · simp only [DataType.eraseNames]
  · rfl

theorem createDecimal_allPositional (p s : Nat) (T : DataType)
    (h : createDecimal p s = .ok T) : T.allPositional = true := by
  unfold createDecimal at h
  repeat' split at h
  all_goals (cases h; try simp [DataType.allPositional])

mutual

theorem parseType_none_allPositional :
    ∀ (t : SubstraitType) (ty : DataType) (names' : Option (List String)),
      TypeParser.parseType t none = .ok (ty, names') → ty.allPositional = true
  | .struct_ types n, ty, names', h => by
    rw [parseType_struct_eq] at h
    simp only [TypeParser.popFieldName] at h
    cases hps : TypeParser.parseStructFields types none with
    | error e => rw [hps] at h; cases h
    | ok q =>
      rw [hps] at h
      simp only [Except.ok.injEq, Prod.mk.injEq] at h
      obtain ⟨hpos, hns⟩ := parseStructFields_none_allPositional types q.1 q.2.1 q.2.2 hps
      rw [← h.1]
      apply tryWrapNullable_allPositional
      simp [hns, DataType.allPositional, hpos]
  | .list type n, ty, names', h => by
    rw [parseType_list_eq] at h
    simp only [TypeParser.popFieldName] at h
    cases hp : TypeParser.parseType type none with
    | error e => rw [hp] at h; cases h
    | ok q =>
      rw [hp] at h
      simp only [Except.ok.injEq, Prod.mk.injEq] at h
      rw [← h.1]
      apply tryWrapNullable_allPositional
      simpa [DataType.allPositional] using parseType_none_allPositional type q.1 q.2 hp
  | .map key value n, ty, names', h => by
    rw [parseType_map_eq] at h
    simp only [TypeParser.popFieldName] at h
    split at h
    · simp only [Except.ok.injEq, Prod.mk.injEq] at h
      rw [← h.1]
      apply tryWrapNullable_allPositional
      simp [DataType.allPositional]
    · cases hk : TypeParser.parseType key none with
      | error e => rw [hk] at h; cases h
      | ok pk =>
        cases hv : TypeParser.parseType value none with
        | error e => rw [hk, hv] at h; cases h
        | ok pv =>
          rw [hk, hv] at h
          simp only [Except.ok.injEq, Prod.mk.injEq] at h
          rw [← h.1]
          apply tryWrapNullable_allPositional
          have h1 := parseType_none_allPositional key pk.1 pk.2 hk
          have h2 := parseType_none_allPositional value pv.1 pv.2 hv
          simp [DataType.allPositional, h1, h2]
  | .decimal s p n, ty, names', h => by
    rw [TypeParser.parseType] at h
    simp only [TypeParser.popFieldName] at h
    split at h
    · cases h
    · cases hcd : createDecimal (toUInt32 p) (toUInt32 s) with
      | error e => rw [hcd] at h; cases h
      | ok T =>
        rw [hcd] at h
        simp only [Except.ok.injEq, Prod.mk.injEq] at h
        rw [← h.1]
        exact tryWrapNullable_allPositional _ _ (createDecimal_allPositional _ _ T hcd)
  | .other k, ty, names', h => by
    rw [TypeParser.parseType] at h
    simp only [TypeParser.popFieldName] at h
    cases h
  | .bool_ n, ty, names', h => by
    rw [TypeParser.parseType] at h
    simp only [TypeParser.popFieldName, Except.ok.injEq, Prod.mk.injEq] at h
    rw [← h.1]
    exact tryWrapNullable_allPositional _ _ (by simp [DataType.allPositional])
  | .i8 n, ty, names', h => by
    rw [TypeParser.parseType] at h
    simp only [TypeParser.popFieldName, Except.ok.injEq, Prod.mk.injEq] at h
    rw [← h.1]
    exact tryWrapNullable_allPositional _ _ (by simp [DataType.allPositional])
  | .i16 n, ty, names', h => by
    rw [TypeParser.parseType] at h
    simp only [TypeParser.popFieldName, Except.ok.injEq, Prod.mk.injEq] at h
    rw [← h.1]
    exact tryWrapNullable_allPositional _ _ (by simp [DataType.allPositional])
  | .i32 n, ty, names', h => by
    rw [TypeParser.parseType] at h
    simp only [TypeParser.popFieldName, Except.ok.injEq, Prod.mk.injEq] at h
    rw [← h.1]
    exact tryWrapNullable_allPositional _ _ (by simp [DataType.allPositional])
  | .i64 n, ty, names', h => by
    rw [TypeParser.parseType] at h
    simp only [TypeParser.popFieldName, Except.ok.injEq, Prod.mk.injEq] at h
    rw [← h.1]
    exact tryWrapNullable_allPositional _ _ (by simp [DataType.allPositional])
  | .string n, ty, names', h => by
    rw [TypeParser.parseType] at h
    simp only [TypeParser.popFieldName, Except.ok.injEq, Prod.mk.injEq] at h
    rw [← h.1]
    exact tryWrapNullable_allPositional _ _ (by simp [DataType.allPositional])
  | .binary n, ty, names', h => by
    rw [TypeParser.parseType] at h
    simp only [TypeParser.popFieldName, Except.ok.injEq, Prod.mk.injEq] at h
    rw [← h.1]
    exact tryWrapNullable_allPositional _ _ (by simp [DataType.allPositional])
  | .fixed_char l n, ty, names', h => by
    rw [TypeParser.parseType] at h
    simp only [TypeParser.popFieldName, Except.ok.injEq, Prod.mk.injEq] at h
    rw [← h.1]
    exact tryWrapNullable_allPositional _ _ (by simp [DataType.allPositional])
  | .fixed_binary l n, ty, names', h => by
    rw [TypeParser.parseType] at h
    simp only [TypeParser.popFieldName, Except.ok.injEq, Prod.mk.injEq] at h
    rw [← h.1]
    exact tryWrapNullable_allPositional _ _ (by simp [DataType.allPositional])
  | .fp32 n, ty, names', h => by
    rw [TypeParser.parseType] at h
    simp only [TypeParser.popFieldName, Except.ok.injEq, Prod.mk.injEq] at h
    rw [← h.1]
    exact tryWrapNullable_allPositional _ _ (by simp [DataType.allPositional])
  | .fp64 n, ty, names', h => by
    rw [TypeParser.parseType] at h
    simp only [TypeParser.popFieldName, Except.ok.injEq, Prod.mk.injEq] at h
    rw [← h.1]
    exact tryWrapNullable_allPositional _ _ (by simp [DataType.allPositional])
  | .timestamp n, ty, names', h => by
    rw [TypeParser.parseType] at h
    simp only [TypeParser.popFieldName, Except.ok.injEq, Prod.mk.injEq] at h
    rw [← h.1]
    exact tryWrapNullable_allPositional _ _ (by simp [DataType.allPositional])
  | .date n, ty, names', h => by
    rw [TypeParser.parseType] at h
    simp only [TypeParser.popFieldName, Except.ok.injEq, Prod.mk.injEq] at h
    rw [← h.1]
    exact tryWrapNullable_allPositional _ _ (by simp [DataType.allPositional])
  | .nothing, ty, names', h => by
    rw [TypeParser.parseType] at h
    simp only [TypeParser.popFieldName, Except.ok.injEq, Prod.mk.injEq] at h
    rw [← h.1]
    exact tryWrapNullable_allPositional _ _ (by simp [DataType.allPositional])

theorem parseStructFields_none_allPositional :
    ∀ (types : List SubstraitType) (tys : List DataType) (ns : List String)
      (names' : Option (List String)),
      TypeParser.parseStructFields types none = .ok (tys, ns, names') →
      allPositionalList tys = true ∧ ns = []
  | [], tys, ns, names', h => by
    simp only [TypeParser.parseStructFields, Except.ok.injEq, Prod.mk.injEq] at h
    rw [← h.1, ← h.2.1]
    exact ⟨rfl, rfl⟩
  | t :: rest, tys, ns, names', h => by
    rw [TypeParser.parseStructFields] at h
    simp only [TypeParser.frontFieldName] at h
    cases hp : TypeParser.parseType t none with
    | error e => rw [hp] at h; cases h
    | ok p =>
      have hnone : p.2 = none := parseType_none_names t p.1 p.2 hp
      cases hps : TypeParser.parseStructFields rest none with
      | error e => rw [hp] at h; simp only [hnone, hps] at h; cases h
      | ok q =>
        rw [hp] at h
        simp only [hnone, hps, Except.ok.injEq, Prod.mk.injEq] at h
        obtain ⟨hpos, hns⟩ := parseStructFields_none_allPositional rest q.1 q.2.1 q.2.2 hps
        have h1 := parseType_none_allPositional t p.1 p.2 hp
        rw [← h.1, ← h.2.1]
        exact ⟨by simp [allPositionalList, h1, hpos], by simp [hns]⟩

end

theorem nameCount_pos (d : SubstraitType) : 1 ≤ d.nameCount := by
  cases d <;> simp [SubstraitType.nameCount]

theorem nameCount_of_not_struct (d : SubstraitType)
    (hd : ∀ ts n, d ≠ SubstraitType.struct_ ts n) : d.nameCount = 1 := by
  cases d <;> first | rfl | exact absurd rfl (hd _ _)

theorem parseType_names_of_not_struct (d : SubstraitType)
    (hd : ∀ ts n, d ≠ SubstraitType.struct_ ts n) (x : String) (rest : List String) :
    TypeParser.parseType d (some (x :: rest)) =
      match TypeParser.parseType d none with
      | .ok (t, _) => .ok (t, some rest)
      | .error e => .error e := by
  cases d with
  | struct_ ts n => exact absurd rfl (hd ts n)
  | list type n =>
    rw [parseType_list_eq, parseType_list_eq]
    simp only [TypeParser.popFieldName]
    cases TypeParser.parseType type none <;> rfl
  | map key value n =>
    rw [parseType_map_eq, parseType_map_eq]
    simp only [TypeParser.popFieldName]
    split
    · rfl
    · cases TypeParser.parseType key none with
      | error e => rfl
      | ok pk => cases TypeParser.parseType value none <;> rfl
  | decimal s p n =>
    rw [TypeParser.parseType, TypeParser.parseType]
    simp only [TypeParser.popFieldName]
    split
    · rfl
    · cases createDecimal (toUInt32 p) (toUInt32 s) <;> rfl
  | bool_ n => simp only [TypeParser.parseType, TypeParser.popFieldName]
  | i8 n => simp only [TypeParser.parseType, TypeParser.popFieldName]
  | i16 n => simp only [TypeParser.parseType, TypeParser.popFieldName]
  | i32 n => simp only [TypeParser.parseType, TypeParser.popFieldName]
  | i64 n => simp only [TypeParser.parseType, TypeParser.popFieldName]
  | string n => simp only [TypeParser.parseType, TypeParser.popFieldName]
  | binary n => simp only [TypeParser.parseType, TypeParser.popFieldName]
  | fixed_char l n => simp only [TypeParser.parseType, TypeParser.popFieldName]
  | fixed_binary l n => simp only [TypeParser.parseType, TypeParser.popFieldName]
  | fp32 n => simp only [TypeParser.parseType, TypeParser.popFieldName]
  | fp64 n => simp only [TypeParser.parseType, TypeParser.popFieldName]
  | timestamp n => simp only [TypeParser.parseType, TypeParser.popFieldName]
  | date n => simp only [TypeParser.parseType, TypeParser.popFieldName]
  | nothing => simp only [TypeParser.parseType, TypeParser.popFieldName]
  | other k => simp only [TypeParser.parseType, TypeParser.popFieldName]

theorem parseType_names_agree_of_not_struct (d : SubstraitType)
    (hd : ∀ ts n, d ≠ SubstraitType.struct_ ts n) (names : List String)
    (hlen : d.nameCount ≤ names.length) :
    (∀ (t0 : DataType) (r0 : Option (List String)),
      TypeParser.parseType d none = .ok (t0, r0) →
      ∃ t, TypeParser.parseType d (some names) = .ok (t, some (names.drop d.nameCount)) ∧
        t.eraseNames = t0) ∧
    (∀ e, TypeParser.parseType d none = .error e →
      TypeParser.parseType d (some names) = .error e) := by
  rw [nameCount_of_not_struct d hd] at hlen ⊢
  cases names with
  | nil => simp at hlen
  | cons x rest =>
    rw [parseType_names_of_not_struct d hd x rest]
    constructor
    · intro t0 r0 h0
      rw [h0]
      exact ⟨t0, rfl, eraseNames_of_allPositional t0 (parseType_none_allPositional d t0 r0 h0)⟩
    · intro e h0
      rw [h0]

theorem nameCountList_take_succ (t : SubstraitType) (ts : List SubstraitType) (i : Nat) :
    nameCountList ((t :: ts).take (i + 1)) = t.nameCount + nameCountList (ts.take i) := by
  simp [List.take_succ_cons, nameCountList]

mutual

theorem parseType_names_agree :
    ∀ (d : SubstraitType) (names : List String), d.nameCount ≤ names.length →
      (∀ (t0 : DataType) (r0 : Option (List String)),
        TypeParser.parseType d none = .ok (t0, r0) →
        ∃ t, TypeParser.parseType d (some names) = .ok (t, some (names.drop d.nameCount)) ∧
          t.eraseNames = t0) ∧
      (∀ e, TypeParser.parseType d none = .error e →
        TypeParser.parseType d (some names) = .error e)
  | .struct_ ts n, names, hlen => by
    simp only [SubstraitType.nameCount] at hlen ⊢
    cases names with
    | nil => simp at hlen
    | cons x rest =>
      have hrest : nameCountList ts ≤ rest.length := by
        simp only [List.length_cons] at hlen
        omega
      obtain ⟨hok, herr⟩ := parseStructFields_names_agree ts rest hrest
      rw [parseType_struct_eq, parseType_struct_eq]
      simp only [TypeParser.popFieldName]
      constructor
      · intro t0 r0 h0
        cases hps : TypeParser.parseStructFields ts none with
        | error e => rw [hps] at h0; cases h0
        | ok q =>
          rw [hps] at h0
          simp only [Except.ok.injEq, Prod.mk.injEq] at h0
          obtain ⟨_, hns⟩ := parseStructFields_none_allPositional ts q.1 q.2.1 q.2.2 hps
          obtain ⟨tys, ns, hp, her, _, _⟩ := hok q.1 q.2.1 q.2.2 hps
          rw [hp]
          refine ⟨TypeParser.tryWrapNullable n
            (if ns.isEmpty = false then DataType.DataTypeTuple tys (some ns)
              else DataType.DataTypeTuple tys none), ?_, ?_⟩
          · simp only [Except.ok.injEq, Prod.mk.injEq, true_and]
            rw [Nat.add_comm, List.drop_succ_cons]
          · rw [← h0.1, eraseNames_tryWrapNullable, hns]
            congr 1
            split <;> simp [DataType.eraseNames, her]
      · intro e h0
        cases hps : TypeParser.parseStructFields ts none with
        | error e' =>
          rw [hps] at h0
          simp only [Except.error.injEq] at h0
          rw [herr e' hps, h0]
        | ok q => rw [hps] at h0; cases h0
  | .bool_ n, names, hlen =>
    parseType_names_agree_of_not_struct _ (by intro ts n h; cases h) names hlen
  | .i8 n, names, hlen =>
    parseType_names_agree_of_not_struct _ (by intro ts n h; cases h) names hlen
  | .i16 n, names, hlen =>
    parseType_names_agree_of_not_struct _ (by intro ts n h; cases h) names hlen
  | .i32 n, names, hlen =>
    parseType_names_agree_of_not_struct _ (by intro ts n h; cases h) names hlen
  | .i64 n, names, hlen =>
    parseType_names_agree_of_not_struct _ (by intro ts n h; cases h) names hlen
  | .string n, names, hlen =>
    parseType_names_agree_of_not_struct _ (by intro ts n h; cases h) names hlen
  | .binary n, names, hlen =>
    parseType_names_agree_of_not_struct _ (by intro ts n h; cases h) names hlen
  | .fixed_char l n, names, hlen =>
    parseType_names_agree_of_not_struct _ (by intro ts n h; cases h) names hlen
  | .fixed_binary l n, names, hlen =>
    parseType_names_agree_of_not_struct _ (by intro ts n h; cases h) names hlen
  | .fp32 n, names, hlen =>
    parseType_names_agree_of_not_struct _ (by intro ts n h; cases h) names hlen
  | .fp64 n, names, hlen =>
    parseType_names_agree_of_not_struct _ (by intro ts n h; cases h) names hlen
  | .timestamp n, names, hlen =>
    parseType_names_agree_of_not_struct _ (by intro ts n h; cases h) names hlen
  | .date n, names, hlen =>
    parseType_names_agree_of_not_struct _ (by intro ts n h; cases h) names hlen
  | .decimal s p n, names, hlen =>
    parseType_names_agree_of_not_struct _ (by intro ts n h; cases h) names hlen
  | .list type n, names, hlen =>
    parseType_names_agree_of_not_struct _ (by intro ts n h; cases h) names hlen
  | .map key value n, names, hlen =>
    parseType_names_agree_of_not_struct _ (by intro ts n h; cases h) names hlen
  | .nothing, names, hlen =>
    parseType_names_agree_of_not_struct _ (by intro ts n h; cases h) names hlen
  | .other k, names, hlen =>
    parseType_names_agree_of_not_struct _ (by intro ts n h; cases h) names hlen

theorem parseStructFields_names_agree :
    ∀ (ts : List SubstraitType) (names : List String), nameCountList ts ≤ names.length →
      (∀ (tys0 : List DataType) (ns0 : List String) (r0 : Option (List String)),
        TypeParser.parseStructFields ts none = .ok (tys0, ns0, r0) →
        ∃ tys ns, TypeParser.parseStructFields ts (some names) =
            .ok (tys, ns, some (names.drop (nameCountList ts))) ∧
          eraseNamesList tys = tys0 ∧ ns.length = ts.length ∧
          ∀ i : Nat, i < ts.length → ns[i]? = names[nameCountList (ts.take i)]?) ∧
      (∀ e, TypeParser.parseStructFields ts none = .error e →
        TypeParser.parseStructFields ts (some names) = .error e)
  | [], names, _ => by
    constructor
    · intro tys0 ns0 r0 h0
      simp only [TypeParser.parseStructFields, Except.ok.injEq, Prod.mk.injEq] at h0
      refine ⟨[], [], ?_, ?_, rfl, ?_⟩
      · simp [TypeParser.parseStructFields, nameCountList]
      · rw [← h0.1]; rfl
      · intro i hi; simp at hi
    · intro e h0
      simp [TypeParser.parseStructFields] at h0
  | t :: ts, names, hlen => by
    simp only [nameCountList] at hlen
    have hpos := nameCount_pos t
    cases names with
    | nil => simp at hlen; omega
    | cons x rest =>
      obtain ⟨hok, herr⟩ := parseType_names_agree t (x :: rest) (by omega)
      have hdrop : nameCountList ts ≤ ((x :: rest).drop t.nameCount).length := by
        simp only [List.length_drop]
        omega
      obtain ⟨hoks, herrs⟩ :=
        parseStructFields_names_agree ts ((x :: rest).drop t.nameCount) hdrop
      rw [TypeParser.parseStructFields]
      conv =>
        rhs
        rw [TypeParser.parseStructFields]
      conv =>
        lhs
        intro tys0 ns0 r0
        rw [TypeParser.parseStructFields]
      simp only [TypeParser.frontFieldName]
      constructor
      · intro tys0 ns0 r0 h0
        cases hp : TypeParser.parseType t none with
        | error e => rw [hp] at h0; cases h0
        | ok p =>
          have hnone : p.2 = none := parseType_none_names t p.1 p.2 hp
          obtain ⟨ty, hty, hte⟩ := hok p.1 p.2 hp
          cases hps : TypeParser.parseStructFields ts none with
          | error e => rw [hp] at h0; simp only [hnone, hps] at h0; cases h0
          | ok q =>
            rw [hp] at h0
            simp only [hnone, hps, Except.ok.injEq, Prod.mk.injEq] at h0
            obtain ⟨tys, ns, hp2, her, hnl, hidx⟩ := hoks q.1 q.2.1 q.2.2 hps
            refine ⟨ty :: tys, x :: ns, ?_, ?_, ?_, ?_⟩
            · rw [hty]
              simp only [hp2, Option.toList, List.singleton_append, Except.ok.injEq,
                Prod.mk.injEq, true_and]
              rw [List.drop_drop, nameCountList, Nat.add_comm]
            · rw [← h0.1]
              simp [eraseNamesList, hte, her]
            · simp [hnl]
            · intro i hi
              cases i with
              | zero => simp [nameCountList]
              | succ j =>
                have hj : j < ts.length := by simpa using hi
                rw [nameCountList_take_succ, List.getElem?_cons_succ, hidx j hj,
                  List.getElem?_drop]
      · intro e h0
        cases hp : TypeParser.parseType t none with
        | error e' =>
          rw [hp] at h0
          simp only [Except.error.injEq] at h0
          rw [herr e' hp, h0]
        | ok p =>
          have hnone : p.2 = none := parseType_none_names t p.1 p.2 hp
          obtain ⟨ty, hty, _⟩ := hok p.1 p.2 hp
          cases hps : TypeParser.parseStructFields ts none with
          | error e' =>
            rw [hp] at h0
            simp only [hnone, hps, Except.error.injEq] at h0
            rw [hty]
            simp only [herrs e' hps, h0]
          | ok q => rw [hp] at h0; simp only [hnone, hps] at h0; cases h0

end

/-- C11: the translated type's structure is a function of the descriptor
alone. For every descriptor and every name list holding at least the names the
descriptor uses, translation with the names succeeds exactly when translation
without names does, with the same error otherwise, and the two results are the
same type tree once tuple element names are erased (the translation without
names carries no names to erase); and equal descriptors translate equally. -/
theorem TypeParser.parseType_structure_from_descriptor (d : SubstraitType)
    (names : List String) (hlen : d.nameCount ≤ names.length) :
    (∀ (t0 : DataType) (r0 : Option (List String)),
      TypeParser.parseType d none = .ok (t0, r0) →
      ∃ t, TypeParser.parseType d (some names) = .ok (t, some (names.drop d.nameCount)) ∧
        t.eraseNames = t0 ∧ t0.eraseNames = t0) ∧
    (∀ (t : DataType) (r : Option (List String)),
      TypeParser.parseType d (some names) = .ok (t, r) →
      TypeParser.parseType d none = .ok (t.eraseNames, none)) ∧
    (∀ e, TypeParser.parseType d none = .error e →
      TypeParser.parseType d (some names) = .error e) ∧
    (∀ d' : SubstraitType, d' = d →
      TypeParser.parseType d' none = TypeParser.parseType d none) := by
  obtain ⟨hok, herr⟩ := parseType_names_agree d names hlen
  refine ⟨?_, ?_, herr, ?_⟩
  · intro t0 r0 h0
    obtain ⟨t, ht, hte⟩ := hok t0 r0 h0
    exact ⟨t, ht, hte,
      eraseNames_of_allPositional t0 (parseType_none_allPositional d t0 r0 h0)⟩
  · intro t r h
    cases h0 : TypeParser.parseType d none with
    | error e => rw [herr e h0] at h; cases h
    | ok p =>
      obtain ⟨t', ht', hte⟩ := hok p.1 p.2 h0
      rw [ht'] at h
      simp only [Except.ok.injEq, Prod.mk.injEq] at h
      have hnone : p.2 = none := parseType_none_names d p.1 p.2 h0
      rw [← h.1, hte, ← hnone]
  · intro d' hd
    rw [hd]

/-- Witness for C11: the example struct translates with five names to a named
tuple whose erasure is the positional tuple it translates to without names, and
one name is left over. -/
theorem TypeParser.parseType_structure_from_descriptor_witness :
    (exampleNamedDescriptor.nameCount ≤ exampleNames.length ∧
      TypeParser.parseType exampleNamedDescriptor none = .ok (examplePositionalTuple, none) ∧
      TypeParser.parseType exampleNamedDescriptor (some exampleNames) =
        .ok (exampleNamedTuple, some ["extra"])) ∧
    ∃ t, TypeParser.parseType exampleNamedDescriptor (some exampleNames) =
        .ok (t, some (exampleNames.drop exampleNamedDescriptor.nameCount)) ∧
      t.eraseNames = examplePositionalTuple ∧
      examplePositionalTuple.eraseNames = examplePositionalTuple :=
  ⟨⟨by decide, rfl, rfl⟩,
    (TypeParser.parseType_structure_from_descriptor exampleNamedDescriptor exampleNames
      (by decide)).1 examplePositionalTuple none rfl⟩

theorem parseType_decimal_eq (scale precision : Int) (n : Type_Nullability)
    (names fn : Option (List String)) (hpop : TypeParser.popFieldName names = .ok fn) :
    TypeParser.parseType (.decimal scale precision n) names =
      if DataTypeDecimal128.maxPrecision < toUInt32 precision then .error Error.UNKNOWN_TYPE
      else
        match createDecimal (toUInt32 precision) (toUInt32 scale) with
        | .error e => .error e
        | .ok ch_type => .ok (TypeParser.tryWrapNullable n ch_type, fn) := by
  rw [TypeParser.parseType]
  simp only [hpop]

/-- C12: the decimal boundary. A decimal descriptor whose precision is the
maximum `DataTypeDecimal128::maxPrecision() = 38` and whose scale does not
exceed it translates (to the 128-bit decimal, wrapped per its flag), and every
decimal descriptor with precision 39 or more fails with `UNKNOWN_TYPE`,
whatever the scale and nullability. Precision and scale are the `UInt32`
values the code reads from the descriptor. -/
theorem TypeParser.parseType_decimal_boundary (scale precision : Int)
    (n : Type_Nullability) (names fn : Option (List String))
    (hpop : TypeParser.popFieldName names = .ok fn) :
    DataTypeDecimal128.maxPrecision = 38 ∧
    (toUInt32 precision = DataTypeDecimal128.maxPrecision →
      toUInt32 scale ≤ toUInt32 precision →
      TypeParser.parseType (.decimal scale precision n) names =
        .ok (TypeParser.tryWrapNullable n (.DataTypeDecimal128 38 (toUInt32 scale)), fn)) ∧
    (39 ≤ toUInt32 precision →
      TypeParser.parseType (.decimal scale precision n) names = .error Error.UNKNOWN_TYPE) ∧
    (39 ≤ precision → precision < 2 ^ 31 →
      TypeParser.parseType (.decimal scale precision n) names = .error Error.UNKNOWN_TYPE) := by
  have hgen : 39 ≤ toUInt32 precision →
      TypeParser.parseType (.decimal scale precision n) names = .error Error.UNKNOWN_TYPE := by
    intro h39
    rw [parseType_decimal_eq scale precision n names fn hpop]
    have : DataTypeDecimal128.maxPrecision < toUInt32 precision := by
      unfold DataTypeDecimal128.maxPrecision
      omega
    simp only [this, if_true]
  refine ⟨rfl, ?_, hgen, ?_⟩
  · intro hp hs
    rw [parseType_decimal_eq scale precision n names fn hpop]
    unfold DataTypeDecimal128.maxPrecision at hp ⊢
    rw [hp] at hs ⊢
    have h1 : ¬ (38 < 38) := by omega
    have h2 : toUInt32 scale ≤ 38 := hs
    simp only [h1, if_false, createDecimal]
    have h3 : ¬ (38 < toUInt32 scale) := by omega
    simp [h3]
  · intro h39 hlt
    apply hgen
    unfold toUInt32
    omega

/-- Witness for C12: `decimal(38, 10)` translates to the 128-bit decimal. -/
theorem TypeParser.parseType_decimal_boundary_witness :
    TypeParser.popFieldName none = .ok none ∧
    TypeParser.parseType (.decimal 10 38 .NULLABILITY_REQUIRED) none =
      .ok (.DataTypeDecimal128 38 10, none) ∧
    TypeParser.parseType (.decimal 10 39 .NULLABILITY_REQUIRED) none =
      .error Error.UNKNOWN_TYPE :=
  ⟨rfl,
    (TypeParser.parseType_decimal_boundary 10 38 .NULLABILITY_REQUIRED none none rfl).2.1
      rfl (by decide),
    (TypeParser.parseType_decimal_boundary 10 39 .NULLABILITY_REQUIRED none none rfl).2.2.1
      (by decide)⟩

/-- C13: for every decimal descriptor with `1 <= precision <= 38` and
`scale <= precision`, `parseType` yields the narrowest decimal representation
that holds the precision - 32-bit for precision up to 9, 64-bit for 10 to 18,
128-bit for 19 to 38 - carrying exactly the requested precision and scale,
wrapped per the descriptor's flag. -/
theorem TypeParser.parseType_decimal_width (scale precision : Int)
    (n : Type_Nullability) (names fn : Option (List String))
    (hpop : TypeParser.popFieldName names = .ok fn)
    (hp1 : 1 ≤ toUInt32 precision) (hp38 : toUInt32 precision ≤ 38)
    (hs : toUInt32 scale ≤ toUInt32 precision) :
    (toUInt32 precision ≤ 9 →
      TypeParser.parseType (.decimal scale precision n) names =
        .ok (TypeParser.tryWrapNullable n
          (.DataTypeDecimal32 (toUInt32 precision) (toUInt32 scale)), fn)) ∧
    (10 ≤ toUInt32 precision → toUInt32 precision ≤ 18 →
      TypeParser.parseType (.decimal scale precision n) names =
        .ok (TypeParser.tryWrapNullable n
          (.DataTypeDecimal64 (toUInt32 precision) (toUInt32 scale)), fn)) ∧
    (19 ≤ toUInt32 precision →
      TypeParser.parseType (.decimal scale precision n) names =
        .ok (TypeParser.tryWrapNullable n
          (.DataTypeDecimal128 (toUInt32 precision) (toUInt32 scale)), fn)) := by
  have hmax : ¬ (DataTypeDecimal128.maxPrecision < toUInt32 precision) := by
    unfold DataTypeDecimal128.maxPrecision
    omega
  have hrange : ¬ (toUInt32 precision < 1 ∨ 76 < toUInt32 precision) := by omega
  have hscale : ¬ (toUInt32 precision < toUInt32 scale) := by omega
  rw [parseType_decimal_eq scale precision n names fn hpop]
  simp only [hmax, if_false, createDecimal, hrange, hscale]
  refine ⟨?_, ?_, ?_⟩
  · intro h9
    simp only [h9, if_true]
  · intro h10 h18
    have h9 : ¬ (toUInt32 precision ≤ 9) := by omega
    simp only [h9, if_false, h18, if_true]
  · intro h19
    have h9 : ¬ (toUInt32 precision ≤ 9) := by omega
    have h18 : ¬ (toUInt32 precision ≤ 18) := by omega
    simp only [h9, if_false, h18, hp38, if_true]

/-- Witness for C13: `decimal(12, 3)` translates to the 64-bit decimal. -/
theorem TypeParser.parseType_decimal_width_witness :
    (TypeParser.popFieldName none = .ok none ∧ 1 ≤ toUInt32 12 ∧ toUInt32 12 ≤ 38 ∧
      toUInt32 3 ≤ toUInt32 12 ∧ 10 ≤ toUInt32 12 ∧ toUInt32 12 ≤ 18) ∧
    TypeParser.parseType (.decimal 3 12 .NULLABILITY_NULLABLE) none =
      .ok (TypeParser.tryWrapNullable .NULLABILITY_NULLABLE
        (.DataTypeDecimal64 (toUInt32 12) (toUInt32 3)), none) :=
  ⟨⟨rfl, by decide, by decide, by decide, by decide, by decide⟩,
    (TypeParser.parseType_decimal_width 3 12 .NULLABILITY_NULLABLE none none rfl
      (by decide) (by decide) (by decide)).2.1 (by decide) (by decide)⟩
theorem parseType_other_eq (k : UnhandledKind) (names fn : Option (List String))
    (hpop : TypeParser.popFieldName names = .ok fn) :
    TypeParser.parseType (.other k) names = .error Error.UNKNOWN_TYPE := by
  rw [TypeParser.parseType]
  simp only [hpop]

theorem createDecimal_ok (p s : Nat) : ∃ T, createDecimal p s = .ok T := by
  unfold createDecimal
  split
  · exact ⟨_, rfl⟩
  · split
    · exact ⟨_, rfl⟩
    · split
      · exact ⟨_, rfl⟩
      · exact ⟨_, rfl⟩

mutual

theorem parseType_none_error :
    ∀ (d : SubstraitType) (e : Error),
      TypeParser.parseType d none = .error e → e = Error.UNKNOWN_TYPE
  | .struct_ types n, e, h => by
    rw [parseType_struct_eq] at h
    simp only [TypeParser.popFieldName] at h
    cases hps : TypeParser.parseStructFields types none with
    | error e' =>
      rw [hps] at h
      cases h
      exact parseStructFields_none_error types e hps
    | ok q => rw [hps] at h; cases h
  | .list type n, e, h => by
    rw [parseType_list_eq] at h
    simp only [TypeParser.popFieldName] at h
    cases hp : TypeParser.parseType type none with
    | error e' =>
      rw [hp] at h
      cases h
      exact parseType_none_error type e hp
    | ok q => rw [hp] at h; cases h
  | .map key value n, e, h => by
    rw [parseType_map_eq] at h
    simp only [TypeParser.popFieldName] at h
    split at h
    · cases h
    · cases hk : TypeParser.parseType key none with
      | error e' =>
        rw [hk] at h
        cases h
        exact parseType_none_error key e hk
      | ok pk =>
        cases hv : TypeParser.parseType value none with
        | error e' =>
          rw [hk, hv] at h
          cases h
          exact parseType_none_error value e hv
        | ok pv => rw [hk, hv] at h; cases h
  | .decimal s p n, e, h => by
    rw [TypeParser.parseType] at h
    simp only [TypeParser.popFieldName] at h
    split at h
    · cases h; rfl
    · obtain ⟨T, hT⟩ := createDecimal_ok (toUInt32 p) (toUInt32 s)
      rw [hT] at h
      cases h
  | .other k, e, h => by
    rw [TypeParser.parseType] at h
    simp only [TypeParser.popFieldName] at h
    cases h
    rfl
  | .nothing, e, h => by
    rw [TypeParser.parseType] at h
    simp only [TypeParser.popFieldName] at h
    cases h
  | .bool_ n, e, h => by
    rw [TypeParser.parseType] at h
    simp only [TypeParser.popFieldName] at h
    cases h
  | .i8 n, e, h => by
    rw [TypeParser.parseType] at h
    simp only [TypeParser.popFieldName] at h
    cases h
  | .i16 n, e, h => by
    rw [TypeParser.parseType] at h
    simp only [TypeParser.popFieldName] at h
    cases h
  | .i32 n, e, h => by
    rw [TypeParser.parseType] at h
    simp only [TypeParser.popFieldName] at h
    cases h
  | .i64 n, e, h => by
    rw [TypeParser.parseType] at h
    simp only [TypeParser.popFieldName] at h
    cases h
  | .string n, e, h => by
    rw [TypeParser.parseType] at h
    simp only [TypeParser.popFieldName] at h
    cases h
  | .binary n, e, h => by
    rw [TypeParser.parseType] at h
    simp only [TypeParser.popFieldName] at h
    cases h
  | .fp32 n, e, h => by
    rw [TypeParser.parseType] at h
    simp only [TypeParser.popFieldName] at h
    cases h
  | .fp64 n, e, h => by
    rw [TypeParser.parseType] at h
    simp only [TypeParser.popFieldName] at h
    cases h
  | .timestamp n, e, h => by
    rw [TypeParser.parseType] at h
    simp only [TypeParser.popFieldName] at h
    cases h
  | .date n, e, h => by
    rw [TypeParser.parseType] at h
    simp only [TypeParser.popFieldName] at h
    cases h
  | .fixed_char l n, e, h => by
    rw [TypeParser.parseType] at h
    simp only [TypeParser.popFieldName] at h
    cases h
  | .fixed_binary l n, e, h => by
    rw [TypeParser.parseType] at h
    simp only [TypeParser.popFieldName] at h
    cases h

theorem parseStructFields_none_error :
    ∀ (types : List SubstraitType) (e : Error),
      TypeParser.parseStructFields types none = .error e → e = Error.UNKNOWN_TYPE
  | [], e, h => by
    rw [TypeParser.parseStructFields] at h
    cases h
  | t :: rest, e, h => by
    rw [TypeParser.parseStructFields] at h
    simp only [TypeParser.frontFieldName] at h
    cases hp : TypeParser.parseType t none with
    | error e' =>
      rw [hp] at h
      cases h
      exact parseType_none_error t e hp
    | ok q =>
      obtain ⟨ty, nm⟩ := q
      have hq : nm = none := parseType_none_names t ty nm hp
      subst hq
      rw [hp] at h
      simp only at h
      cases hr : TypeParser.parseStructFields rest none with
      | error e' =>
        rw [hr] at h
        cases h
        exact parseStructFields_none_error rest e hr
      | ok q2 => rw [hr] at h; cases h

end

mutual

theorem parseType_containsUnhandled :
    ∀ (d : SubstraitType), d.containsUnhandled = true →
      TypeParser.parseType d none = .error Error.UNKNOWN_TYPE
  | .other k, _ => parseType_other_eq k none none rfl
  | .list type n, h => by
    simp only [SubstraitType.containsUnhandled] at h
    rw [parseType_list_eq]
    simp only [TypeParser.popFieldName, parseType_containsUnhandled type h]
  | .map key value n, h => by
    simp only [SubstraitType.containsUnhandled, Bool.and_eq_true, Bool.not_eq_true',
      Bool.or_eq_true] at h
    obtain ⟨hkn, hkv⟩ := h
    rw [parseType_map_eq]
    simp only [TypeParser.popFieldName, hkn, Bool.false_eq_true, if_false]
    cases hk : TypeParser.parseType key none with
    | error e => rw [parseType_none_error key e hk]
    | ok pk =>
      rcases hkv with hkc | hvc
      · rw [parseType_containsUnhandled key hkc] at hk
        cases hk
      · simp only [parseType_containsUnhandled value hvc]
  | .struct_ types n, h => by
    simp only [SubstraitType.containsUnhandled] at h
    rw [parseType_struct_eq]
    simp only [TypeParser.popFieldName, parseStructFields_containsUnhandled types h]
  | .decimal s p n, h => by simp [SubstraitType.containsUnhandled] at h
  | .nothing, h => by simp [SubstraitType.containsUnhandled] at h
  | .bool_ n, h => by simp [SubstraitType.containsUnhandled] at h
  | .i8 n, h => by simp [SubstraitType.containsUnhandled] at h
  | .i16 n, h => by simp [SubstraitType.containsUnhandled] at h
  | .i32 n, h => by simp [SubstraitType.containsUnhandled] at h
  | .i64 n, h => by simp [SubstraitType.containsUnhandled] at h
  | .string n, h => by simp [SubstraitType.containsUnhandled] at h
  | .binary n, h => by simp [SubstraitType.containsUnhandled] at h
  | .fp32 n, h => by simp [SubstraitType.containsUnhandled] at h
  | .fp64 n, h => by simp [SubstraitType.containsUnhandled] at h
  | .timestamp n, h => by simp [SubstraitType.containsUnhandled] at h
  | .date n, h => by simp [SubstraitType.containsUnhandled] at h
  | .fixed_char l n, h => by simp [SubstraitType.containsUnhandled] at h
  | .fixed_binary l n, h => by simp [SubstraitType.containsUnhandled] at h

theorem parseStructFields_containsUnhandled :
    ∀ (types : List SubstraitType), containsUnhandledList types = true →
      TypeParser.parseStructFields types none = .error Error.UNKNOWN_TYPE
  | [], h => by simp [containsUnhandledList] at h
  | t :: rest, h => by
    simp only [containsUnhandledList, Bool.or_eq_true] at h
    rw [TypeParser.parseStructFields]
    simp only [TypeParser.frontFieldName]
    cases hp : TypeParser.parseType t none with
    | error e => rw [parseType_none_error t e hp]
    | ok q =>
      obtain ⟨ty, nm⟩ := q
      have hq : nm = none := parseType_none_names t ty nm hp
      subst hq
      rcases h with ht | hr
      · rw [parseType_containsUnhandled t ht] at hp
        cases hp
      · simp only [parseStructFields_containsUnhandled rest hr]

end

theorem containsUnhandledList_of_getElem? :
    ∀ (fs : List SubstraitType) (i : Nat) (f : SubstraitType),
      fs[i]? = some f → f.containsUnhandled = true → containsUnhandledList fs = true := by
  intro fs
  induction fs with
  | nil => intro i f h; simp at h
  | cons t rest ih =>
    intro i f h hf
    simp only [containsUnhandledList, Bool.or_eq_true]
    cases i with
    | zero =>
      simp only [List.getElem?_cons_zero, Option.some.injEq] at h
      subst h
      exact Or.inl hf
    | succ j =>
      simp only [List.getElem?_cons_succ] at h
      exact Or.inr (ih j f h hf)

/-- C14: a descriptor of a kind `parseType` has no branch for fails with
`UNKNOWN_TYPE`, and so does every descriptor that holds such a kind as a list
element, as a struct field, or as the key or value of a map whose key is not
`nothing`, directly or further down: without a name list, and with any name
list that holds the names the descriptor uses. -/
theorem TypeParser.parseType_unhandled_kind (d : SubstraitType)
    (hd : d.containsUnhandled = true) :
    TypeParser.parseType d none = .error Error.UNKNOWN_TYPE ∧
    (∀ names : List String, d.nameCount ≤ names.length →
      TypeParser.parseType d (some names) = .error Error.UNKNOWN_TYPE) ∧
    (∀ (k : UnhandledKind) (names fn : Option (List String)),
      TypeParser.popFieldName names = .ok fn →
      TypeParser.parseType (.other k) names = .error Error.UNKNOWN_TYPE) ∧
    (∀ k : UnhandledKind, (SubstraitType.other k).containsUnhandled = true) ∧
    (∀ (element : SubstraitType) (n : Type_Nullability),
      element.containsUnhandled = true →
      (SubstraitType.list element n).containsUnhandled = true) ∧
    (∀ (key value : SubstraitType) (n : Type_Nullability), key.has_nothing = false →
      (key.containsUnhandled = true ∨ value.containsUnhandled = true) →
      (SubstraitType.map key value n).containsUnhandled = true) ∧
    (∀ (fs : List SubstraitType) (n : Type_Nullability) (i : Nat) (f : SubstraitType),
      fs[i]? = some f → f.containsUnhandled = true →
      (SubstraitType.struct_ fs n).containsUnhandled = true) := by
  have hnone := parseType_containsUnhandled d hd
  refine ⟨hnone, ?_, parseType_other_eq, ?_, ?_, ?_, ?_⟩
  · intro names hlen
    exact (parseType_names_agree d names hlen).2 _ hnone
  · intro k; rfl
  · intro element n h
    simp only [SubstraitType.containsUnhandled, h]
  · intro key value n hk h
    simp only [SubstraitType.containsUnhandled, hk, Bool.not_false, Bool.true_and,
      Bool.or_eq_true]
    exact h
  · intro fs n i f hi hf
    simp only [SubstraitType.containsUnhandled]
    exact containsUnhandledList_of_getElem? fs i f hi hf

/-- Witness for C14: a struct whose second field is a list of the unhandled
kind `time` fails with `UNKNOWN_TYPE`, with and without names. -/
theorem TypeParser.parseType_unhandled_kind_witness :
    (SubstraitType.struct_
        [.i32 .NULLABILITY_REQUIRED, .list (.other .time) .NULLABILITY_NULLABLE]
        .NULLABILITY_REQUIRED).containsUnhandled = true ∧
    TypeParser.parseType
        (.struct_ [.i32 .NULLABILITY_REQUIRED, .list (.other .time) .NULLABILITY_NULLABLE]
          .NULLABILITY_REQUIRED) none = .error Error.UNKNOWN_TYPE ∧
    TypeParser.parseType
        (.struct_ [.i32 .NULLABILITY_REQUIRED, .list (.other .time) .NULLABILITY_NULLABLE]
          .NULLABILITY_REQUIRED) (some ["s", "a", "b"]) = .error Error.UNKNOWN_TYPE :=
  ⟨rfl,
    (TypeParser.parseType_unhandled_kind
      (.struct_ [.i32 .NULLABILITY_REQUIRED, .list (.other .time) .NULLABILITY_NULLABLE]
        .NULLABILITY_REQUIRED) rfl).1,
    (TypeParser.parseType_unhandled_kind
      (.struct_ [.i32 .NULLABILITY_REQUIRED, .list (.other .time) .NULLABILITY_NULLABLE]
        .NULLABILITY_REQUIRED) rfl).2.1 ["s", "a", "b"] (by decide)⟩

theorem removeNullable_tryWrapNullable (n : Type_Nullability) (T : DataType)
    (hT : T.isNullable = false) : removeNullable (TypeParser.tryWrapNullable n T) = T := by
  unfold TypeParser.tryWrapNullable
  split
  · rfl
  · cases T <;> first | rfl | simp [DataType.isNullable] at hT

/-- C15: for every struct descriptor with at least one field, translated with a
name list that holds enough names, the resulting tuple is named, it has one
name per field, and the name of field `i` is the name that stood at the front
of the list when translation of field `i` began: the name at index
`1 + (names used by fields 0..i-1)`, the struct's own name coming first. When
no name list is supplied, every tuple of the translated type, at every nesting
level, is positional. -/
theorem TypeParser.parseType_struct_names (fs : List SubstraitType)
    (n : Type_Nullability) (names : List String) (ty : DataType)
    (rest : Option (List String))
    (hk : 1 ≤ fs.length)
    (hlen : (SubstraitType.struct_ fs n).nameCount ≤ names.length)
    (h : TypeParser.parseType (.struct_ fs n) (some names) = .ok (ty, rest)) :
    (∃ (tys : List DataType) (ns : List String),
      removeNullable ty = .DataTypeTuple tys (some ns) ∧
      tys.length = fs.length ∧ ns.length = fs.length ∧
      ∀ i : Nat, i < fs.length → ns[i]? = names[1 + nameCountList (fs.take i)]?) ∧
    (∀ (d : SubstraitType) (t : DataType) (r : Option (List String)),
      TypeParser.parseType d none = .ok (t, r) → t.allPositional = true) := by
  refine ⟨?_, parseType_none_allPositional⟩
  simp only [SubstraitType.nameCount] at hlen
  cases names with
  | nil => simp at hlen
  | cons x tail =>
    have htail : nameCountList fs ≤ tail.length := by
      simp only [List.length_cons] at hlen
      omega
    obtain ⟨hok, herr⟩ := parseStructFields_names_agree fs tail htail
    rw [parseType_struct_eq] at h
    simp only [TypeParser.popFieldName] at h
    cases hps : TypeParser.parseStructFields fs none with
    | error e => rw [herr e hps] at h; cases h
    | ok q =>
      obtain ⟨tys, ns, hp, her, hnl, hidx⟩ := hok q.1 q.2.1 q.2.2 hps
      obtain ⟨hlen', _⟩ := parseStructFields_children fs (some tail) tys ns _ hp
      rw [hp] at h
      simp only [Except.ok.injEq, Prod.mk.injEq] at h
      have hne : ns.isEmpty = false := by
        cases ns with
        | nil => simp at hnl; omega
        | cons a b => rfl
      simp only [hne, if_true] at h
      refine ⟨tys, ns, ?_, hlen', hnl, ?_⟩
      · rw [← h.1]
        exact removeNullable_tryWrapNullable n _ rfl
      · intro i hi
        rw [hidx i hi, Nat.add_comm, List.getElem?_cons_succ]

/-- Witness for C15: the example struct with names `s, a, b, c, extra` becomes
a tuple named `a, b`, the names at indices 1 and 2. -/
theorem TypeParser.parseType_struct_names_witness :
    (1 ≤ exampleNamedFields.length ∧
      exampleNamedDescriptor.nameCount ≤ exampleNames.length ∧
      TypeParser.parseType exampleNamedDescriptor (some exampleNames) =
        .ok (exampleNamedTuple, some ["extra"])) ∧
    removeNullable exampleNamedTuple =
      .DataTypeTuple [.DataTypeNullable .DataTypeInt32,
        .DataTypeTuple [.DataTypeString] (some ["c"])] (some ["a", "b"]) ∧
    (∃ (tys : List DataType) (ns : List String),
      removeNullable exampleNamedTuple = .DataTypeTuple tys (some ns) ∧
      tys.length = exampleNamedFields.length ∧ ns.length = exampleNamedFields.length ∧
      ∀ i : Nat, i < exampleNamedFields.length →
        ns[i]? = exampleNames[1 + nameCountList (exampleNamedFields.take i)]?) :=
  ⟨⟨by decide, by decide, rfl⟩, rfl,
    (TypeParser.parseType_struct_names exampleNamedFields .NULLABILITY_REQUIRED exampleNames
      exampleNamedTuple (some ["extra"]) (by decide) (by decide) rfl).1⟩

theorem parseType_names_consumed_of_not_struct (d : SubstraitType)
    (hd : ∀ ts n, d ≠ SubstraitType.struct_ ts n) (names : List String) (t : DataType)
    (r : Option (List String))
    (h : TypeParser.parseType d (some names) = .ok (t, r)) :
    d.nameCount ≤ names.length ∧ r = some (names.drop d.nameCount) := by
  rw [nameCount_of_not_struct d hd]
  cases names with
  | nil =>
    rw [parseType_popFieldName_error d (some []) Error.ASSERTION_FAILED rfl] at h
    cases h
  | cons x rest =>
    rw [parseType_names_of_not_struct d hd x rest] at h
    cases h0 : TypeParser.parseType d none with
    | error e => rw [h0] at h; cases h
    | ok p =>
      rw [h0] at h
      simp only [Except.ok.injEq, Prod.mk.injEq] at h
      exact ⟨by simp, by rw [← h.2]; rfl⟩

mutual

theorem parseType_names_consumed :
    ∀ (d : SubstraitType) (names : List String) (t : DataType) (r : Option (List String)),
      TypeParser.parseType d (some names) = .ok (t, r) →
      d.nameCount ≤ names.length ∧ r = some (names.drop d.nameCount)
  | .struct_ fs n, names, t, r, h => by
    simp only [SubstraitType.nameCount]
    cases names with
    | nil =>
      rw [parseType_popFieldName_error _ (some []) Error.ASSERTION_FAILED rfl] at h
      cases h
    | cons x rest =>
      rw [parseType_struct_eq] at h
      simp only [TypeParser.popFieldName] at h
      cases hps : TypeParser.parseStructFields fs (some rest) with
      | error e => rw [hps] at h; cases h
      | ok q =>
        rw [hps] at h
        simp only [Except.ok.injEq, Prod.mk.injEq] at h
        obtain ⟨hl, hr⟩ := parseStructFields_names_consumed fs rest q.1 q.2.1 q.2.2 hps
        refine ⟨by simp only [List.length_cons]; omega, ?_⟩
        rw [← h.2, hr, Nat.add_comm, List.drop_succ_cons]
  | .bool_ n, names, t, r, h =>
    parseType_names_consumed_of_not_struct _ (by intro ts n h; cases h) names t r h
  | .i8 n, names, t, r, h =>
    parseType_names_consumed_of_not_struct _ (by intro ts n h; cases h) names t r h
  | .i16 n, names, t, r, h =>
    parseType_names_consumed_of_not_struct _ (by intro ts n h; cases h) names t r h
  | .i32 n, names, t, r, h =>
    parseType_names_consumed_of_not_struct _ (by intro ts n h; cases h) names t r h
  | .i64 n, names, t, r, h =>
    parseType_names_consumed_of_not_struct _ (by intro ts n h; cases h) names t r h
  | .string n, names, t, r, h =>
    parseType_names_consumed_of_not_struct _ (by intro ts n h; cases h) names t r h
  | .binary n, names, t, r, h =>
    parseType_names_consumed_of_not_struct _ (by intro ts n h; cases h) names t r h
  | .fixed_char l n, names, t, r, h =>
    parseType_names_consumed_of_not_struct _ (by intro ts n h; cases h) names t r h
  | .fixed_binary l n, names, t, r, h =>
    parseType_names_consumed_of_not_struct _ (by intro ts n h; cases h) names t r h
  | .fp32 n, names, t, r, h =>
    parseType_names_consumed_of_not_struct _ (by intro ts n h; cases h) names t r h
  | .fp64 n, names, t, r, h =>
    parseType_names_consumed_of_not_struct _ (by intro ts n h; cases h) names t r h
  | .timestamp n, names, t, r, h =>
    parseType_names_consumed_of_not_struct _ (by intro ts n h; cases h) names t r h
  | .date n, names, t, r, h =>
    parseType_names_consumed_of_not_struct _ (by intro ts n h; cases h) names t r h
  | .decimal s p n, names, t, r, h =>
    parseType_names_consumed_of_not_struct _ (by intro ts n h; cases h) names t r h
  | .list type n, names, t, r, h =>
    parseType_names_consumed_of_not_struct _ (by intro ts n h; cases h) names t r h
  | .map key value n, names, t, r, h =>
    parseType_names_consumed_of_not_struct _ (by intro ts n h; cases h) names t r h
  | .nothing, names, t, r, h =>
    parseType_names_consumed_of_not_struct _ (by intro ts n h; cases h) names t r h
  | .other k, names, t, r, h =>
    parseType_names_consumed_of_not_struct _ (by intro ts n h; cases h) names t r h

theorem parseStructFields_names_consumed :
    ∀ (fs : List SubstraitType) (names : List String) (tys : List DataType)
      (ns : List String) (r : Option (List String)),
      TypeParser.parseStructFields fs (some names) = .ok (tys, ns, r) →
      nameCountList fs ≤ names.length ∧ r = some (names.drop (nameCountList fs))
  | [], names, tys, ns, r, h => by
    simp only [TypeParser.parseStructFields, Except.ok.injEq, Prod.mk.injEq] at h
    exact ⟨by simp [nameCountList], by rw [← h.2.2]; simp [nameCountList]⟩
  | f :: fs, names, tys, ns, r, h => by
    rw [TypeParser.parseStructFields] at h
    cases hf : TypeParser.frontFieldName (some names) with
    | error e => rw [hf] at h; cases h
    | ok front =>
      cases hp : TypeParser.parseType f (some names) with
      | error e => rw [hf, hp] at h; cases h
      | ok p =>
        obtain ⟨hl, hr⟩ := parseType_names_consumed f names p.1 p.2 hp
        cases hps : TypeParser.parseStructFields fs p.2 with
        | error e => rw [hf, hp] at h; simp only [hps] at h; cases h
        | ok q =>
          rw [hf, hp] at h
          simp only [hps, Except.ok.injEq, Prod.mk.injEq] at h
          rw [hr] at hps
          obtain ⟨hl2, hr2⟩ :=
            parseStructFields_names_consumed fs (names.drop f.nameCount) q.1 q.2.1 q.2.2 hps
          simp only [List.length_drop] at hl2
          refine ⟨by simp only [nameCountList]; omega, ?_⟩
          rw [← h.2.2, hr2, List.drop_drop, nameCountList, Nat.add_comm]

end

/-! ## Block construction: proofs -/

theorem buildColumns_columns (registry : FunctionRegistry) :
    ∀ (types : List SubstraitType) (names : List String) (cols : List ColumnWithTypeAndName),
      TypeParser.buildColumns registry types names = .ok cols →
      cols.length = types.length ∧
      ∀ i : Nat, i < types.length →
        ∃ (type : SubstraitType) (name : String) (ty : DataType)
          (r : Option (List String)) (col : ColumnWithTypeAndName),
          types[i]? = some type ∧
          names[nameCountList (types.take i)]? = some name ∧
          cols[i]? = some col ∧
          TypeParser.parseType type (some (names.drop (nameCountList (types.take i)))) =
            .ok (ty, r) ∧
          col.name = name ∧
          TypeParser.resolveColumnType registry name ty = .ok col.type := by
  intro types
  induction types with
  | nil =>
    intro names cols h
    simp only [TypeParser.buildColumns, Except.ok.injEq] at h
    subst h
    exact ⟨rfl, fun i hi => absurd hi (Nat.not_lt_zero i)⟩
  | cons type rest ih =>
    intro names cols h
    cases names with
    | nil => simp [TypeParser.buildColumns] at h
    | cons name tail =>
      simp only [TypeParser.buildColumns] at h
      cases hp : TypeParser.parseType type (some (name :: tail)) with
      | error e => rw [hp] at h; cases h
      | ok p =>
        rw [hp] at h
        simp only at h
        cases hr : TypeParser.resolveColumnType registry name p.1 with
        | error e => rw [hr] at h; cases h
        | ok data_type =>
          rw [hr] at h
          simp only at h
          cases hb : TypeParser.buildColumns registry rest (p.2.getD []) with
          | error e => rw [hb] at h; cases h
          | ok internal_cols =>
            rw [hb] at h
            simp only [Except.ok.injEq] at h
            subst h
            obtain ⟨_, hdrop⟩ := parseType_names_consumed type (name :: tail) p.1 p.2 hp
            rw [hdrop] at hb
            simp only [Option.getD_some] at hb
            obtain ⟨hlen, hcols⟩ := ih _ _ hb
            refine ⟨by simp [hlen], ?_⟩
            intro i hi
            cases i with
            | zero =>
              exact ⟨type, name, p.1, p.2, ⟨data_type, name⟩, by simp, by simp [nameCountList],
                by simp, by simpa [nameCountList] using hp, rfl, hr⟩
            | succ j =>
              obtain ⟨ty', name', t', r', col, h1, h2, h3, h4, h5, h6⟩ :=
                hcols j (by simpa using hi)
              refine ⟨ty', name', t', r', col, by simpa using h1, ?_, by simpa using h3, ?_,
                h5, h6⟩
              · rw [nameCountList_take_succ, ← h2, List.getElem?_drop]
              · rw [nameCountList_take_succ, ← h4, List.drop_drop, Nat.add_comm]

/-- C16: in `buildBlockFromNamedStruct`, a top-level column whose name splits
on `#` into fewer than four segments gets exactly the type `parseType` returns
for its descriptor; a column whose name has at least four segments and whose
translated type, nullable removed, is a tuple gets the state type the registry
returns for the function named by the fourth segment with the tuple's element
types as arguments; and in a built block column `i` keeps the name that stood
at the front of the name list when its descriptor was translated. -/
theorem TypeParser.buildBlockFromNamedStruct_columns (registry : FunctionRegistry)
    (struct_ : NamedStruct) (block : Block)
    (h : TypeParser.buildBlockFromNamedStruct registry struct_ = .ok block) :
    (∀ (name : String) (ty : DataType), (registry.StringTokenizer name).length < 4 →
      TypeParser.resolveColumnType registry name ty = .ok ty) ∧
    (∀ (name function_name agg_function_name : String) (ty : DataType)
        (elems : List DataType) (nms : Option (List String)) (parser : FunctionParser),
      4 ≤ (registry.StringTokenizer name).length →
      removeNullable ty = .DataTypeTuple elems nms →
      (registry.StringTokenizer name)[3]? = some function_name →
      registry.getFunctionParser function_name = .ok parser →
      parser.getCHFunctionName elems = .ok agg_function_name →
      TypeParser.resolveColumnType registry name ty =
        registry.getStateType agg_function_name elems parser.getDefaultFunctionParameters) ∧
    block.length = struct_.types.length ∧
    (∀ i : Nat, i < struct_.types.length →
      ∃ (type : SubstraitType) (name : String) (ty : DataType)
        (r : Option (List String)) (col : ColumnWithTypeAndName),
        struct_.types[i]? = some type ∧
        struct_.names[nameCountList (struct_.types.take i)]? = some name ∧
        block[i]? = some col ∧
        TypeParser.parseType type
          (some (struct_.names.drop (nameCountList (struct_.types.take i)))) = .ok (ty, r) ∧
        col.name = name ∧
        TypeParser.resolveColumnType registry name ty = .ok col.type) := by
  refine ⟨?_, ?_, ?_⟩
  · intro name ty hlt
    have : ¬ (4 ≤ (registry.StringTokenizer name).length) := by omega
    simp only [TypeParser.resolveColumnType, this, if_false]
  · intro name function_name agg_function_name ty elems nms parser h4 htuple hname hparser hagg
    simp only [TypeParser.resolveColumnType, h4, if_true, htuple, hname, hparser, hagg]
  · exact buildColumns_columns registry struct_.types struct_.names block h

/-- Witness for C16: the example named struct yields a block whose plain column
`x` is the translated `Int64` and whose four-segment column holds the state
type of `sum` over the struct's element types, both under their own names. -/
theorem TypeParser.buildBlockFromNamedStruct_columns_witness :
    TypeParser.buildBlockFromNamedStruct exampleRegistry exampleNamedStruct =
      .ok exampleBlock ∧
    TypeParser.resolveColumnType exampleRegistry "x" .DataTypeInt64 = .ok .DataTypeInt64 ∧
    TypeParser.resolveColumnType exampleRegistry "sum#Partial#0#sum"
        (.DataTypeTuple [.DataTypeNullable .DataTypeFloat64] (some ["v"])) =
      exampleRegistry.getStateType "sum" [.DataTypeNullable .DataTypeFloat64] [] ∧
    exampleBlock.length = exampleNamedStruct.types.length :=
  ⟨rfl,
    (TypeParser.buildBlockFromNamedStruct_columns exampleRegistry exampleNamedStruct
      exampleBlock rfl).1 "x" .DataTypeInt64 (by decide),
    (TypeParser.buildBlockFromNamedStruct_columns exampleRegistry exampleNamedStruct
      exampleBlock rfl).2.1 "sum#Partial#0#sum" "sum" "sum"
      (.DataTypeTuple [.DataTypeNullable .DataTypeFloat64] (some ["v"]))
      [.DataTypeNullable .DataTypeFloat64] (some ["v"])
      { getCHFunctionName := fun _ => .ok "sum", getDefaultFunctionParameters := [] }
      (by decide) rfl rfl rfl rfl,
    (TypeParser.buildBlockFromNamedStruct_columns exampleRegistry exampleNamedStruct
      exampleBlock rfl).2.2.1⟩

/-! ## Streamed conversion: proofs -/

theorem appendRows_of_holdsRows
    (append : SparkRowToCHColumnHelper → Memory → Int → Int →
      Except Error SparkRowToCHColumnHelper)
    (rows_buf : Memory) :
    ∀ (lens : List Nat) (fuel : Nat) (pos : Int) (helper : SparkRowToCHColumnHelper),
      holdsRows rows_buf pos lens → lens.length < fuel →
      SparkRowToCHColumn.appendRows append rows_buf fuel pos
          (toInt32 (readLE rows_buf pos 4)) helper =
        some (applyCalls append rows_buf (rowPointers pos lens) helper) := by
  intro lens
  induction lens with
  | nil =>
    intro fuel pos helper hrows hfuel
    cases fuel with
    | zero => simp at hfuel
    | succ f =>
      simp only [holdsRows] at hrows
      have hneg : ¬ (0 ≤ toInt32 (readLE rows_buf pos 4)) := by omega
      simp only [SparkRowToCHColumn.appendRows, hneg, if_false, rowPointers, applyCalls]
  | cons len rest ih =>
    intro fuel pos helper hrows hfuel
    cases fuel with
    | zero => simp at hfuel
    | succ f =>
      simp only [holdsRows] at hrows
      obtain ⟨hlen, hrest⟩ := hrows
      have hnonneg : 0 ≤ toInt32 (readLE rows_buf pos 4) := by omega
      simp only [SparkRowToCHColumn.appendRows, hnonneg, if_true, rowPointers, applyCalls,
        hlen]
      cases append helper rows_buf (pos + 4) (len : Int) with
      | error e => rfl
      | ok helper' =>
        exact ih f (pos + 4 + len) helper' hrest (by simpa using hfuel)

theorem convertLoop_of_holdsRows
    (append : SparkRowToCHColumnHelper → Memory → Int → Int →
      Except Error SparkRowToCHColumnHelper)
    (fuel : Nat) :
    ∀ (bufs : List (Memory × List Nat)) (helper : SparkRowToCHColumnHelper),
      (∀ p ∈ bufs, holdsRows p.1 0 p.2 ∧ p.2.length < fuel) →
      SparkRowToCHColumn.convertLoop append fuel (bufs.map Prod.fst) helper =
        some (applyBuffers append bufs helper) := by
  intro bufs
  induction bufs with
  | nil => intro helper _; rfl
  | cons p rest ih =>
    intro helper hall
    obtain ⟨hrows, hfuel⟩ := hall p (List.mem_cons_self _ _)
    have hrest : ∀ q ∈ rest, holdsRows q.1 0 q.2 ∧ q.2.length < fuel :=
      fun q hq => hall q (List.mem_cons_of_mem _ hq)
    simp only [List.map_cons, SparkRowToCHColumn.convertLoop,
      appendRows_of_holdsRows append p.1 p.2 fuel 0 helper hrows hfuel, applyBuffers]
    cases applyCalls append p.1 (rowPointers 0 p.2) helper with
    | error e => rfl
    | ok helper' => exact ih helper' hrest

theorem rowPointers_getElem? :
    ∀ (lens : List Nat) (pos : Int) (i : Nat) (len : Nat), lens[i]? = some len →
      (rowPointers pos lens)[i]? =
        some (pos + ((4 * (i + 1) + (lens.take i).sum : Nat) : Int), (len : Int)) := by
  intro lens
  induction lens with
  | nil => intro pos i len h; simp at h
  | cons l rest ih =>
    intro pos i len h
    cases i with
    | zero =>
      simp only [List.getElem?_cons_zero, Option.some.injEq] at h
      subst h
      simp [rowPointers]
    | succ j =>
      simp only [List.getElem?_cons_succ] at h
      simp only [rowPointers, List.getElem?_cons_succ, ih (pos + 4 + l) j len h,
        List.take_succ_cons, List.sum_cons, Option.some.injEq, Prod.mk.injEq, and_true]
      push_cast
      omega

theorem rowPointers_length : ∀ (lens : List Nat) (pos : Int),
    (rowPointers pos lens).length = lens.length := by
  intro lens
  induction lens with
  | nil => intro pos; rfl
  | cons l rest ih => intro pos; simp [rowPointers, ih]

theorem applyCalls_recording_rows (rows_buf : Memory) :
    ∀ (calls : List (Int × Int)) (helper : SparkRowToCHColumnHelper),
      ∃ helper', applyCalls recordingMethods.appendSparkRowToCHColumn rows_buf calls helper =
          .ok helper' ∧ helper'.rows = helper.rows + calls.length := by
  intro calls
  induction calls with
  | nil => intro helper; exact ⟨helper, rfl, rfl⟩
  | cons c rest ih =>
    intro helper
    obtain ⟨helper', h1, h2⟩ := ih
      { helper with
        rows := helper.rows + 1
        mutable_columns := [Field.Int64 c.1, Field.Int64 c.2] :: helper.mutable_columns }
    refine ⟨helper', ?_, ?_⟩
    · simp only [applyCalls, recordingMethods]
      exact h1
    · rw [h2]
      simp only [List.length_cons]
      omega

theorem applyBuffers_recording_rows :
    ∀ (bufs : List (Memory × List Nat)) (helper : SparkRowToCHColumnHelper),
      ∃ helper', applyBuffers recordingMethods.appendSparkRowToCHColumn bufs helper =
          .ok helper' ∧
        helper'.rows = helper.rows + (bufs.map (fun p => p.2.length)).sum := by
  intro bufs
  induction bufs with
  | nil => intro helper; exact ⟨helper, rfl, rfl⟩
  | cons p rest ih =>
    intro helper
    obtain ⟨h1, e1, r1⟩ := applyCalls_recording_rows p.1 (rowPointers 0 p.2) helper
    obtain ⟨h2, e2, r2⟩ := ih h1
    refine ⟨h2, ?_, ?_⟩
    · simp only [applyBuffers, e1]
      exact e2
    · rw [r2, r1, rowPointers_length]
      simp only [List.map_cons, List.sum_cons]
      omega

/-- C17: for every sequence of row buffers, each holding `k_j` rows
`(4-byte native-order length L >= 0, L bytes)` followed by a negative length,
the streamed conversion (given enough loop fuel for the longest buffer) makes
exactly the calls `appendSparkRowToCHColumn(helper, buffer + offset, L_i)` for
the rows in buffer and row order, call `i` of a buffer receiving the offset
`4*(i+1) + L_0 + ... + L_(i-1)` and the length `L_i`, a length of 0 included;
with an `append` that counts its invocations the count is the sum of the
`k_j`. -/
theorem SparkRowToCHColumn.convertLoop_calls
    (append : SparkRowToCHColumnHelper → Memory → Int → Int →
      Except Error SparkRowToCHColumnHelper)
    (fuel : Nat) (bufs : List (Memory × List Nat)) (helper : SparkRowToCHColumnHelper)
    (hwf : ∀ p ∈ bufs, holdsRows p.1 0 p.2 ∧ p.2.length < fuel) :
    SparkRowToCHColumn.convertLoop append fuel (bufs.map Prod.fst) helper =
      some (applyBuffers append bufs helper) ∧
    (∀ (β : Type) (ParseFromString : String → Option SubstraitType)
        (methods : ConversionMethods β) (names types : List String),
      methods.appendSparkRowToCHColumn = append →
      SparkRowToCHColumnHelper.construct ParseFromString names types = .ok helper →
      SparkRowToCHColumn.convertSparkRowItrToCHColumn ParseFromString methods fuel
          (bufs.map Prod.fst) names types =
        some (match applyBuffers append bufs helper with
          | .error e => .error e
          | .ok helper' => .ok (methods.getBlock helper'))) ∧
    (∀ (lens : List Nat) (i len : Nat), lens[i]? = some len →
      (rowPointers 0 lens)[i]? =
        some (((4 * (i + 1) + (lens.take i).sum : Nat) : Int), (len : Int))) ∧
    (∀ lens : List Nat, (rowPointers 0 lens).length = lens.length) ∧
    (∃ helper', SparkRowToCHColumn.convertLoop recordingMethods.appendSparkRowToCHColumn fuel
          (bufs.map Prod.fst) helper = some (.ok helper') ∧
        helper'.rows = helper.rows + (bufs.map (fun p => p.2.length)).sum) := by
  have hloop := convertLoop_of_holdsRows append fuel bufs helper hwf
  refine ⟨hloop, ?_, ?_, ?_, ?_⟩
  · intro β ParseFromString methods names types hm hc
    simp only [SparkRowToCHColumn.convertSparkRowItrToCHColumn, hc, hm, hloop]
    cases applyBuffers append bufs helper <;> rfl
  · intro lens i len h
    simpa using rowPointers_getElem? lens 0 i len h
  · intro lens
    exact rowPointers_length lens 0
  · obtain ⟨helper', h1, h2⟩ := applyBuffers_recording_rows bufs helper
    refine ⟨helper', ?_, h2⟩
    rw [convertLoop_of_holdsRows recordingMethods.appendSparkRowToCHColumn fuel bufs helper hwf,
      h1]

theorem exampleBuffers_hold :
    ∀ p ∈ [(exampleBuffer1, [12]), (exampleBuffer2, [0])],
      holdsRows p.1 0 p.2 ∧ p.2.length < 2 := by
  intro p hp
  simp only [List.mem_cons, List.mem_singleton, List.not_mem_nil, or_false] at hp
  rcases hp with h | h
  · subst h
    refine ⟨⟨by decide, ?_⟩, by decide⟩
    show toInt32 (readLE exampleBuffer1 (0 + 4 + ((12 : Nat) : Int)) 4) < 0
    decide
  · subst h
    refine ⟨⟨by decide, ?_⟩, by decide⟩
    show toInt32 (readLE exampleBuffer2 (0 + 4 + ((0 : Nat) : Int)) 4) < 0
    decide

/-- Witness for C17: the buffers `[len=12,row0][len=-1]` and `[len=0][len=-1]`
give exactly two calls, `(offset 4, length 12)` on the first buffer and
`(offset 4, length 0)` on the second, and two rows. -/
theorem SparkRowToCHColumn.convertLoop_calls_witness :
    (∀ p ∈ [(exampleBuffer1, [12]), (exampleBuffer2, [0])],
      holdsRows p.1 0 p.2 ∧ p.2.length < 2) ∧
    SparkRowToCHColumn.convertLoop recordingMethods.appendSparkRowToCHColumn 2
        [exampleBuffer1, exampleBuffer2] exampleHelper =
      some (.ok { exampleHelper with
        rows := 2
        mutable_columns :=
          [[Field.Int64 4, Field.Int64 0], [Field.Int64 4, Field.Int64 12], [], []] }) ∧
    SparkRowToCHColumn.convertLoop recordingMethods.appendSparkRowToCHColumn 2
        ([(exampleBuffer1, [12]), (exampleBuffer2, [0])].map Prod.fst) exampleHelper =
      some (applyBuffers recordingMethods.appendSparkRowToCHColumn
        [(exampleBuffer1, [12]), (exampleBuffer2, [0])] exampleHelper) :=
  ⟨exampleBuffers_hold, rfl,
    (SparkRowToCHColumn.convertLoop_calls recordingMethods.appendSparkRowToCHColumn 2
      [(exampleBuffer1, [12]), (exampleBuffer2, [0])] exampleHelper exampleBuffers_hold).1⟩

theorem helper_constructLoop_first_failure (ParseFromString : String → Option SubstraitType) :
    ∀ (names types : List String) (i : Nat) (s : String) (e : Error),
      names.length = types.length →
      types[i]? = some s →
      (∀ j : Nat, j < i → ∃ (sj : String) (ty : DataType),
        types[j]? = some sj ∧ SparkRowToCHColumnHelper.parseType ParseFromString sj = .ok ty) →
      SparkRowToCHColumnHelper.parseType ParseFromString s = .error e →
      SparkRowToCHColumnHelper.constructLoop ParseFromString names types = .error e := by
  intro names
  induction names with
  | nil =>
    intro types i s e hlen hs
    cases types with
    | nil => simp at hs
    | cons t ts => simp at hlen
  | cons name names ih =>
    intro types i s e hlen hs hprev hfail
    cases types with
    | nil => simp at hlen
    | cons t ts =>
      simp only [List.length_cons, Nat.add_right_cancel_iff] at hlen
      cases i with
      | zero =>
        simp only [List.getElem?_cons_zero, Option.some.injEq] at hs
        subst hs
        simp only [SparkRowToCHColumnHelper.constructLoop, hfail]
      | succ j =>
        simp only [List.getElem?_cons_succ] at hs
        obtain ⟨s0, ty0, h0, hok0⟩ := hprev 0 (by omega)
        simp only [List.getElem?_cons_zero, Option.some.injEq] at h0
        subst h0
        have hrest := ih ts j s e hlen hs
          (fun j' hj' => by
            obtain ⟨sj, ty, h1, h2⟩ := hprev (j' + 1) (by omega)
            exact ⟨sj, ty, by simpa using h1, h2⟩) hfail
        simp only [SparkRowToCHColumnHelper.constructLoop, hok0, hrest]

/-- C18 (as amended): if one of the serialized type strings fails to
translate, `convertSparkRowItrToCHColumn` fails with the error of the first
such string - `CANNOT_PARSE_PROTOBUF_SCHEMA` when that string cannot be parsed
as a type descriptor, `UNKNOWN_TYPE` when it parses to a descriptor of an
unhandled kind - whatever the row-buffer source holds and whatever `append`
would do: the helper's constructor fails before the source is asked for a
buffer, so no row is read or appended. -/
theorem SparkRowToCHColumn.convert_fails_before_rows
    (ParseFromString : String → Option SubstraitType) (names types : List String)
    (i : Nat) (s : String) (e : Error)
    (hlen : names.length = types.length)
    (hs : types[i]? = some s)
    (hprev : ∀ j : Nat, j < i → ∃ (sj : String) (ty : DataType),
      types[j]? = some sj ∧ SparkRowToCHColumnHelper.parseType ParseFromString sj = .ok ty)
    (hfail : SparkRowToCHColumnHelper.parseType ParseFromString s = .error e) :
    SparkRowToCHColumnHelper.construct ParseFromString names types = .error e ∧
    (∀ (β : Type) (methods : ConversionMethods β) (fuel : Nat) (java_iter : List Memory),
      SparkRowToCHColumn.convertSparkRowItrToCHColumn ParseFromString methods fuel java_iter
        names types = some (.error e)) ∧
    (ParseFromString s = none → e = Error.CANNOT_PARSE_PROTOBUF_SCHEMA) ∧
    (∀ k : UnhandledKind, ParseFromString s = some (.other k) → e = Error.UNKNOWN_TYPE) := by
  have hc : SparkRowToCHColumnHelper.construct ParseFromString names types = .error e := by
    simp only [SparkRowToCHColumnHelper.construct, hlen, if_true,
      helper_constructLoop_first_failure ParseFromString names types i s e hlen hs hprev hfail]
  refine ⟨hc, ?_, ?_, ?_⟩
  · intro β methods fuel java_iter
    simp only [SparkRowToCHColumn.convertSparkRowItrToCHColumn, hc]
  · intro hnone
    simp only [SparkRowToCHColumnHelper.parseType, hnone, Except.error.injEq] at hfail
    exact hfail.symm
  · intro k hk
    simp only [SparkRowToCHColumnHelper.parseType, hk,
      parseType_other_eq k none none rfl, Except.error.injEq] at hfail
    exact hfail.symm

/-- Witness for C18: with the type strings `i64` and `garbage`, the second of
which cannot be parsed, the conversion fails with
`CANNOT_PARSE_PROTOBUF_SCHEMA` although a buffer is waiting. -/
theorem SparkRowToCHColumn.convert_fails_before_rows_witness :
    (["a", "b"].length = ["i64", "garbage"].length ∧
      ["i64", "garbage"][1]? = some "garbage" ∧
      SparkRowToCHColumnHelper.parseType exampleParseFromString "i64" = .ok .DataTypeInt64 ∧
      SparkRowToCHColumnHelper.parseType exampleParseFromString "garbage" =
        .error Error.CANNOT_PARSE_PROTOBUF_SCHEMA) ∧
    SparkRowToCHColumn.convertSparkRowItrToCHColumn exampleParseFromString recordingMethods 2
      [exampleBuffer1] ["a", "b"] ["i64", "garbage"] =
      some (.error Error.CANNOT_PARSE_PROTOBUF_SCHEMA) :=
  ⟨⟨rfl, rfl, rfl, rfl⟩,
    (SparkRowToCHColumn.convert_fails_before_rows exampleParseFromString ["a", "b"]
      ["i64", "garbage"] 1 "garbage" Error.CANNOT_PARSE_PROTOBUF_SCHEMA rfl rfl
      (fun j hj => ⟨"i64", .DataTypeInt64, by
        have : j = 0 := by omega
        subst this
        rfl, rfl⟩) rfl).2.1 SparkRowToCHColumnHelper recordingMethods 2 [exampleBuffer1]⟩

/-- Counterexample to C18 as stated: with the type strings `time` and
`garbage` one string cannot be parsed as a type descriptor, yet the call fails
with `UNKNOWN_TYPE`, the error of the first string, not with
`CANNOT_PARSE_PROTOBUF_SCHEMA`. -/
theorem SparkRowToCHColumn.convert_first_error_wins :
    exampleParseFromString "garbage" = none ∧
    SparkRowToCHColumn.convertSparkRowItrToCHColumn exampleParseFromString recordingMethods 2
      [exampleBuffer1] ["a", "b"] ["time", "garbage"] = some (.error Error.UNKNOWN_TYPE) ∧
    Error.UNKNOWN_TYPE ≠ Error.CANNOT_PARSE_PROTOBUF_SCHEMA :=
  ⟨rfl, rfl, by decide⟩

theorem helper_constructLoop_ok (ParseFromString : String → Option SubstraitType) :
    ∀ (names types : List String), names.length = types.length →
      (∀ i : Nat, i < types.length → ∃ (s : String) (ty : DataType),
        types[i]? = some s ∧ SparkRowToCHColumnHelper.parseType ParseFromString s = .ok ty) →
      ∃ data_types : List DataType,
        SparkRowToCHColumnHelper.constructLoop ParseFromString names types = .ok data_types ∧
        data_types.length = names.length ∧
        ∀ i : Nat, i < names.length → ∃ (s : String) (ty : DataType),
          types[i]? = some s ∧ SparkRowToCHColumnHelper.parseType ParseFromString s = .ok ty ∧
          data_types[i]? = some ty := by
  intro names
  induction names with
  | nil =>
    intro types _ _
    exact ⟨[], rfl, rfl, fun i hi => absurd hi (Nat.not_lt_zero i)⟩
  | cons name names ih =>
    intro types hlen hall
    cases types with
    | nil => simp at hlen
    | cons t ts =>
      simp only [List.length_cons, Nat.add_right_cancel_iff] at hlen
      obtain ⟨s0, ty0, h0, hok0⟩ := hall 0 (by simp)
      simp only [List.getElem?_cons_zero, Option.some.injEq] at h0
      subst h0
      obtain ⟨dts, hdts, hl, hidx⟩ := ih ts hlen (fun i hi => by
        obtain ⟨s, ty, h1, h2⟩ := hall (i + 1) (by simpa using hi)
        exact ⟨s, ty, by simpa using h1, h2⟩)
      refine ⟨ty0 :: dts, ?_, by simp [hl], ?_⟩
      · simp only [SparkRowToCHColumnHelper.constructLoop, hok0, hdts]
      · intro i hi
        cases i with
        | zero => exact ⟨t, ty0, by simp, hok0, by simp⟩
        | succ j =>
          obtain ⟨s, ty, h1, h2, h3⟩ := hidx j (by simpa using hi)
          exact ⟨s, ty, by simpa using h1, h2, by simpa using h3⟩

theorem convertLoop_append
    (append : SparkRowToCHColumnHelper → Memory → Int → Int →
      Except Error SparkRowToCHColumnHelper)
    (fuel : Nat) :
    ∀ (bufs1 bufs2 : List Memory) (helper : SparkRowToCHColumnHelper),
      SparkRowToCHColumn.convertLoop append fuel (bufs1 ++ bufs2) helper =
        match SparkRowToCHColumn.convertLoop append fuel bufs1 helper with
        | some (.ok helper') => SparkRowToCHColumn.convertLoop append fuel bufs2 helper'
        | some (.error e) => some (.error e)
        | none => none := by
  intro bufs1
  induction bufs1 with
  | nil => intro bufs2 helper; rfl
  | cons b rest ih =>
    intro bufs2 helper
    simp only [List.cons_append, SparkRowToCHColumn.convertLoop]
    cases SparkRowToCHColumn.appendRows append b fuel 0 (toInt32 (readLE b 0 4)) helper with
    | none => rfl
    | some res =>
      cases res with
      | error e => rfl
      | ok helper' => exact ih bufs2 helper'

/-- With an `append` that adds one row on every call, the calls for a list of
rows succeed and add as many rows as there are calls. -/
theorem applyCalls_counting
    (append : SparkRowToCHColumnHelper → Memory → Int → Int →
      Except Error SparkRowToCHColumnHelper)
    (hcount : ∀ (h : SparkRowToCHColumnHelper) (b : Memory) (o l : Int),
      ∃ h', append h b o l = .ok h' ∧ h'.rows = h.rows + 1)
    (rows_buf : Memory) :
    ∀ (calls : List (Int × Int)) (helper : SparkRowToCHColumnHelper),
      ∃ helper', applyCalls append rows_buf calls helper = .ok helper' ∧
        helper'.rows = helper.rows + calls.length := by
  intro calls
  induction calls with
  | nil => intro helper; exact ⟨helper, rfl, rfl⟩
  | cons c rest ih =>
    intro helper
    obtain ⟨h1, e1, r1⟩ := hcount helper rows_buf c.1 c.2
    obtain ⟨h2, e2, r2⟩ := ih h1
    refine ⟨h2, ?_, ?_⟩
    · obtain ⟨o, l⟩ := c
      simp only [applyCalls, e1]
      exact e2
    · rw [r2, r1, List.length_cons]
      omega

theorem applyBuffers_counting
    (append : SparkRowToCHColumnHelper → Memory → Int → Int →
      Except Error SparkRowToCHColumnHelper)
    (hcount : ∀ (h : SparkRowToCHColumnHelper) (b : Memory) (o l : Int),
      ∃ h', append h b o l = .ok h' ∧ h'.rows = h.rows + 1) :
    ∀ (bufs : List (Memory × List Nat)) (helper : SparkRowToCHColumnHelper),
      ∃ helper', applyBuffers append bufs helper = .ok helper' ∧
        helper'.rows = helper.rows + (bufs.map (fun p => p.2.length)).sum := by
  intro bufs
  induction bufs with
  | nil => intro helper; exact ⟨helper, rfl, rfl⟩
  | cons p rest ih =>
    intro helper
    obtain ⟨h1, e1, r1⟩ := applyCalls_counting append hcount p.1 (rowPointers 0 p.2) helper
    obtain ⟨h2, e2, r2⟩ := ih h1
    refine ⟨h2, ?_, ?_⟩
    · obtain ⟨b, lens⟩ := p
      simp only [applyBuffers, e1]
      exact e2
    · rw [r2, r1, rowPointers_length]
      simp only [List.map_cons, List.sum_cons]
      omega

/-- C19: for equally long name and type-string lists whose types all
translate, the helper's constructor succeeds and the fresh helper has
`rows = 0`, a header with exactly `names.size()` columns, column `i` named
`names[i]` and typed `parseType(types[i])`, and one empty column builder per
header column; `resetMutableColumns` gives `rows = 0` and one empty builder per
header column from any state, leaving the header alone. The streamed
conversion constructs this helper once and runs its loop on it: for row
buffers that each end in a negative length, the outcome is the block of the
helper reached by the `append` calls of all rows of all buffers, chained in
order from the fresh helper, each call receiving the helper the previous call
returned, also across a buffer boundary; so with an `append` that adds one
row per call the final helper counts the rows of all buffers. -/
theorem SparkRowToCHColumnHelper.construct_fresh
    (ParseFromString : String → Option SubstraitType) (names types : List String)
    (hlen : names.length = types.length)
    (hall : ∀ i : Nat, i < types.length → ∃ (s : String) (ty : DataType),
      types[i]? = some s ∧ SparkRowToCHColumnHelper.parseType ParseFromString s = .ok ty) :
    ∃ helper : SparkRowToCHColumnHelper,
      SparkRowToCHColumnHelper.construct ParseFromString names types = .ok helper ∧
      helper.rows = 0 ∧
      helper.header.length = names.length ∧
      (∀ i : Nat, i < names.length →
        ∃ (name s : String) (ty : DataType) (col : ColumnWithTypeAndName),
          names[i]? = some name ∧ types[i]? = some s ∧
          SparkRowToCHColumnHelper.parseType ParseFromString s = .ok ty ∧
          helper.header[i]? = some col ∧ col.name = name ∧ col.type = ty) ∧
      helper.mutable_columns.length = helper.header.length ∧
      (∀ column ∈ helper.mutable_columns, column = []) ∧
      (∀ state : SparkRowToCHColumnHelper,
        state.resetMutableColumns.rows = 0 ∧
        state.resetMutableColumns.mutable_columns.length = state.header.length ∧
        (∀ column ∈ state.resetMutableColumns.mutable_columns, column = []) ∧
        state.resetMutableColumns.header = state.header) ∧
      (∀ (β : Type) (methods : ConversionMethods β) (fuel : Nat) (java_iter : List Memory),
        SparkRowToCHColumn.convertSparkRowItrToCHColumn ParseFromString methods fuel java_iter
            names types =
          match SparkRowToCHColumn.convertLoop methods.appendSparkRowToCHColumn fuel
              java_iter helper with
          | some (.ok helper') => some (.ok (methods.getBlock helper'))
          | some (.error e) => some (.error e)
          | none => none) ∧
      (∀ (append : SparkRowToCHColumnHelper → Memory → Int → Int →
            Except Error SparkRowToCHColumnHelper)
          (fuel : Nat) (bufs1 bufs2 : List Memory) (state : SparkRowToCHColumnHelper),
        SparkRowToCHColumn.convertLoop append fuel (bufs1 ++ bufs2) state =
          match SparkRowToCHColumn.convertLoop append fuel bufs1 state with
          | some (.ok state') => SparkRowToCHColumn.convertLoop append fuel bufs2 state'
          | some (.error e) => some (.error e)
          | none => none) ∧
      (∀ (β : Type) (methods : ConversionMethods β) (fuel : Nat)
          (bufs : List (Memory × List Nat)),
        (∀ p ∈ bufs, holdsRows p.1 0 p.2 ∧ p.2.length < fuel) →
        SparkRowToCHColumn.convertSparkRowItrToCHColumn ParseFromString methods fuel
            (bufs.map Prod.fst) names types =
          some (match applyBuffers methods.appendSparkRowToCHColumn bufs helper with
            | .error e => .error e
            | .ok helper' => .ok (methods.getBlock helper'))) ∧
      (∀ (append : SparkRowToCHColumnHelper → Memory → Int → Int →
            Except Error SparkRowToCHColumnHelper)
          (fuel : Nat) (b1 b2 : Memory) (lens1 lens2 : List Nat)
          (state : SparkRowToCHColumnHelper),
        holdsRows b1 0 lens1 → lens1.length < fuel →
        holdsRows b2 0 lens2 → lens2.length < fuel →
        SparkRowToCHColumn.convertLoop append fuel [b1, b2] state =
          some (match applyCalls append b1 (rowPointers 0 lens1) state with
            | .error e => .error e
            | .ok state1 => applyCalls append b2 (rowPointers 0 lens2) state1)) ∧
      (∀ (append : SparkRowToCHColumnHelper → Memory → Int → Int →
            Except Error SparkRowToCHColumnHelper)
          (fuel : Nat) (bufs : List (Memory × List Nat)),
        (∀ (h : SparkRowToCHColumnHelper) (b : Memory) (o l : Int),
          ∃ h', append h b o l = .ok h' ∧ h'.rows = h.rows + 1) →
        (∀ p ∈ bufs, holdsRows p.1 0 p.2 ∧ p.2.length < fuel) →
        ∃ final : SparkRowToCHColumnHelper,
          SparkRowToCHColumn.convertLoop append fuel (bufs.map Prod.fst) helper =
            some (.ok final) ∧
          final.rows = (bufs.map (fun p => p.2.length)).sum) := by
  obtain ⟨dts, hdts, hl, hidx⟩ := helper_constructLoop_ok ParseFromString names types hlen hall
  have hreset : ∀ state : SparkRowToCHColumnHelper,
      state.resetMutableColumns.rows = 0 ∧
      state.resetMutableColumns.mutable_columns.length = state.header.length ∧
      (∀ column ∈ state.resetMutableColumns.mutable_columns, column = []) ∧
      state.resetMutableColumns.header = state.header := by
    intro state
    refine ⟨rfl, by simp [SparkRowToCHColumnHelper.resetMutableColumns], ?_, rfl⟩
    intro column hc
    simp only [SparkRowToCHColumnHelper.resetMutableColumns, List.mem_map] at hc
    obtain ⟨_, _, h⟩ := hc
    exact h.symm
  have hc : SparkRowToCHColumnHelper.construct ParseFromString names types =
      .ok (SparkRowToCHColumnHelper.resetMutableColumns
        { data_types := dts
          header := List.zipWith (fun data_type name => ⟨data_type, name⟩) dts names
          mutable_columns := []
          rows := 0 }) := by
    simp only [SparkRowToCHColumnHelper.construct, hlen, if_true, hdts]
  refine ⟨_, hc, (hreset _).1, ?_, ?_, ?_, (hreset _).2.2.1, hreset, ?_,
    convertLoop_append, ?_, ?_, ?_⟩
  · simp [SparkRowToCHColumnHelper.resetMutableColumns, hl]
  · intro i hi
    obtain ⟨s, ty, h1, h2, h3⟩ := hidx i hi
    have hn : names[i]? = some names[i] := List.getElem?_eq_getElem hi
    refine ⟨names[i], s, ty, ⟨ty, names[i]⟩, hn, h1, h2, ?_, rfl, rfl⟩
    simp [SparkRowToCHColumnHelper.resetMutableColumns, List.getElem?_zipWith, h3, hn]
  · rw [(hreset _).2.1]
    rfl
  · intro β methods fuel java_iter
    simp only [SparkRowToCHColumn.convertSparkRowItrToCHColumn, hc]
    cases SparkRowToCHColumn.convertLoop methods.appendSparkRowToCHColumn fuel java_iter _ with
    | none => rfl
    | some res => cases res <;> rfl
  · intro β methods fuel bufs hall'
    simp only [SparkRowToCHColumn.convertSparkRowItrToCHColumn, hc]
    rw [convertLoop_of_holdsRows methods.appendSparkRowToCHColumn fuel bufs _ hall']
    cases applyBuffers methods.appendSparkRowToCHColumn bufs _ <;> rfl
  · intro append fuel b1 b2 lens1 lens2 state hr1 hf1 hr2 hf2
    have h2 := convertLoop_of_holdsRows append fuel [(b1, lens1), (b2, lens2)] state (by
      intro p hp
      simp only [List.mem_cons, List.mem_singleton, List.not_mem_nil, or_false] at hp
      rcases hp with h | h
      · subst h; exact ⟨hr1, hf1⟩
      · subst h; exact ⟨hr2, hf2⟩)
    simp only [List.map_cons, List.map_nil] at h2
    rw [h2]
    simp only [applyBuffers]
    cases applyCalls append b1 (rowPointers 0 lens1) state with
    | error e => rfl
    | ok state1 =>
      simp only
      cases applyCalls append b2 (rowPointers 0 lens2) state1 <;> rfl
  · intro append fuel bufs hcount hall'
    obtain ⟨final, hfin, hrows⟩ := applyBuffers_counting append hcount bufs
      (SparkRowToCHColumnHelper.resetMutableColumns
        { data_types := dts
          header := List.zipWith (fun data_type name => ⟨data_type, name⟩) dts names
          mutable_columns := []
          rows := 0 })
    refine ⟨final, ?_, ?_⟩
    · rw [convertLoop_of_holdsRows append fuel bufs _ hall', hfin]
    · rw [hrows]
      simp [SparkRowToCHColumnHelper.resetMutableColumns]

/-- Witness for C19: the names `a, b` with the type strings `i64, string?`
give the example helper: no rows, two header columns, two empty builders; and
the conversion of the buffers `[len=12,row0][len=-1]` and `[len=0][len=-1]`
ends with both rows in the one helper. -/
theorem SparkRowToCHColumnHelper.construct_fresh_witness :
    (["a", "b"].length = ["i64", "string?"].length ∧
      SparkRowToCHColumnHelper.construct exampleParseFromString ["a", "b"]
        ["i64", "string?"] = .ok exampleHelper ∧
      exampleHelper.mutable_columns = [[], []]) ∧
    SparkRowToCHColumn.convertSparkRowItrToCHColumn exampleParseFromString recordingMethods 2
        [exampleBuffer1, exampleBuffer2] ["a", "b"] ["i64", "string?"] =
      some (.ok { exampleHelper with
        rows := 2
        mutable_columns :=
          [[Field.Int64 4, Field.Int64 0], [Field.Int64 4, Field.Int64 12], [], []] }) ∧
    ∃ helper : SparkRowToCHColumnHelper,
      SparkRowToCHColumnHelper.construct exampleParseFromString ["a", "b"]
        ["i64", "string?"] = .ok helper ∧
      helper.rows = 0 ∧ helper.header.length = ["a", "b"].length :=
  ⟨⟨rfl, rfl, rfl⟩, rfl,
    (SparkRowToCHColumnHelper.construct_fresh exampleParseFromString ["a", "b"]
      ["i64", "string?"] rfl (fun i hi => by
        have hcases : i = 0 ∨ i = 1 := by
          simp only [List.length_cons, List.length_nil] at hi
          omega
        rcases hcases with h | h
        · subst h; exact ⟨"i64", .DataTypeInt64, rfl, rfl⟩
        · subst h; exact ⟨"string?", .DataTypeNullable .DataTypeString, rfl, rfl⟩)).elim
      (fun helper h => ⟨helper, h.1, h.2.1, h.2.2.1⟩)⟩

/-! ## Ordinals outside the schema: proofs -/

theorem assertIndexIsValid_of_le (r : SparkRowReader) (index : Nat)
    (h : r.num_fields ≤ index) :
    SparkRowReader.assertIndexIsValid r index = .error Error.ASSERTION_FAILED := by
  have : ¬ (index < r.num_fields) := by omega
  simp only [SparkRowReader.assertIndexIsValid, this, if_false]

/-- C20 (as amended): for every `SparkRowReader` with `n` fields and every
ordinal `>= n`, each field accessor violates its `assert(index < num_fields)`:
the outcome is the failed assertion (an abort in a debug build, no defined
behaviour otherwise), which is not an exception carrying an error code, and no
`IndexOutOfRange` error exists in the code. -/
theorem SparkRowReader.accessors_out_of_range (calculator : BackingDataLengthCalculator)
    (m : DataReaderMethods) (r : SparkRowReader) (ordinal : Nat)
    (h : r.num_fields ≤ ordinal) :
    Error.ASSERTION_FAILED.isException = false ∧
    SparkRowReader.getField calculator m r ordinal = .error Error.ASSERTION_FAILED ∧
    SparkRowReader.getStringRef calculator m r ordinal = .error Error.ASSERTION_FAILED ∧
    SparkRowReader.isNullAt r ordinal = .error Error.ASSERTION_FAILED ∧
    SparkRowReader.getByte r ordinal = .error Error.ASSERTION_FAILED ∧
    SparkRowReader.getUnsignedByte r ordinal = .error Error.ASSERTION_FAILED ∧
    SparkRowReader.getShort r ordinal = .error Error.ASSERTION_FAILED ∧
    SparkRowReader.getUnsignedShort r ordinal = .error Error.ASSERTION_FAILED ∧
    SparkRowReader.getInt r ordinal = .error Error.ASSERTION_FAILED ∧
    SparkRowReader.getUnsignedInt r ordinal = .error Error.ASSERTION_FAILED ∧
    SparkRowReader.getLong r ordinal = .error Error.ASSERTION_FAILED ∧
    SparkRowReader.getString r ordinal = .error Error.ASSERTION_FAILED ∧
    SparkRowReader.getStringSize r ordinal = .error Error.ASSERTION_FAILED ∧
    SparkRowReader.supportRawData r ordinal = .error Error.ASSERTION_FAILED ∧
    SparkRowReader.isBigEndianInSparkRow r ordinal = .error Error.ASSERTION_FAILED ∧
    SparkRowReader.getRawDataForFixedNumber r ordinal = .error Error.ASSERTION_FAILED ∧
    (∀ o : Int, toUInt64 o = ordinal →
      SparkRowReader.getFixedLengthDataReader r o = .error Error.ASSERTION_FAILED ∧
      SparkRowReader.getVariableLengthDataReader r o = .error Error.ASSERTION_FAILED) := by
  have ha := assertIndexIsValid_of_le r ordinal h
  refine ⟨rfl, ?_, ?_, ?_, ?_, ?_, ?_, ?_, ?_, ?_, ?_, ?_, ?_, ?_, ?_, ?_, ?_⟩
  · simp only [SparkRowReader.getField, ha]
  · simp only [SparkRowReader.getStringRef, ha]
  · simp only [SparkRowReader.isNullAt, ha]
  · simp only [SparkRowReader.getByte, SparkRowReader.readSlot, ha]
  · simp only [SparkRowReader.getUnsignedByte, SparkRowReader.readSlot, ha]
  · simp only [SparkRowReader.getShort, SparkRowReader.readSlot, ha]
  · simp only [SparkRowReader.getUnsignedShort, SparkRowReader.readSlot, ha]
  · simp only [SparkRowReader.getInt, SparkRowReader.readSlot, ha]
  · simp only [SparkRowReader.getUnsignedInt, SparkRowReader.readSlot, ha]
  · simp only [SparkRowReader.getLong, SparkRowReader.readSlot, ha]
  · simp only [SparkRowReader.getString, ha]
  · simp only [SparkRowReader.getStringSize, ha]
  · simp only [SparkRowReader.supportRawData, ha]
  · simp only [SparkRowReader.isBigEndianInSparkRow, ha]
  · simp only [SparkRowReader.getRawDataForFixedNumber, ha]
  · intro o ho
    simp only [SparkRowReader.getFixedLengthDataReader,
      SparkRowReader.getVariableLengthDataReader, ho, ha, and_self]

/-- Witness for C20 as amended: ordinal 3 of the three-field example reader. -/
theorem SparkRowReader.accessors_out_of_range_witness :
    (exampleReader.pointTo exampleRow 40).num_fields ≤ 3 ∧
    SparkRowReader.getLong (exampleReader.pointTo exampleRow 40) 3 =
      .error Error.ASSERTION_FAILED :=
  ⟨by decide,
    (SparkRowReader.accessors_out_of_range specCalculator failingMethods
      (exampleReader.pointTo exampleRow 40) 3 (by decide)).2.2.2.2.2.2.2.2.2.2.1⟩

/-- Counterexample to C20 as stated: at ordinal 3 of the three-field example
reader `getField` and `isNullAt` end in the failed assertion, which is not an
exception with an error code. -/
theorem SparkRowReader.accessors_no_index_error :
    (exampleReader.pointTo exampleRow 40).num_fields = 3 ∧
    SparkRowReader.getField specCalculator failingMethods
      (exampleReader.pointTo exampleRow 40) 3 = .error Error.ASSERTION_FAILED ∧
    SparkRowReader.isNullAt (exampleReader.pointTo exampleRow 40) 3 =
      .error Error.ASSERTION_FAILED ∧
    Error.ASSERTION_FAILED.isException = false :=
  ⟨rfl, rfl, rfl, rfl⟩

/-! ## The reader vectors of a constructed `SparkRowReader`: proofs -/

/-- The vectors the constructor's loop fills, as maps over the types it visits:
a fixed-length reader for a fixed-length type, otherwise a variable-length
reader, and the row memory untouched. -/
theorem constructLoop_readers (calculator : BackingDataLengthCalculator) :
    ∀ (types : List DataType) (ordinal : Nat) (r r' : SparkRowReader),
      SparkRowReader.constructLoop calculator types ordinal r = .ok r' →
      r'.buffer = r.buffer ∧
      r'.support_raw_datas = r.support_raw_datas ++
        types.map (fun t => calculator.isDataTypeSupportRawData (removeNullable t)) ∧
      r'.fixed_length_data_readers = r.fixed_length_data_readers ++
        types.map (fun t =>
          if calculator.isFixedLengthDataType (removeNullable t) = true
          then some (FixedLengthDataReader.mk t) else none) ∧
      r'.variable_length_data_readers = r.variable_length_data_readers ++
        types.map (fun t =>
          if calculator.isFixedLengthDataType (removeNullable t) = true
          then none else some (VariableLengthDataReader.mk t)) ∧
      ∀ t ∈ types, calculator.isFixedLengthDataType (removeNullable t) = true ∨
        calculator.isVariableLengthDataType (removeNullable t) = true := by
  intro types
  induction types with
  | nil =>
    intro ordinal r r' h
    simp only [SparkRowReader.constructLoop, Except.ok.injEq] at h
    subst h
    simp
  | cons ty rest ih =>
    intro ordinal r r' h
    simp only [SparkRowReader.constructLoop] at h
    by_cases hf : calculator.isFixedLengthDataType (removeNullable ty) = true
    · rw [if_pos hf] at h
      obtain ⟨hb, hs, hfx, hv, hall⟩ := ih _ _ _ h
      refine ⟨hb, ?_, ?_, ?_, ?_⟩
      · rw [hs]; simp
      · rw [hfx]; simp [hf]
      · rw [hv]; simp [hf]
      · intro t ht
        rcases List.mem_cons.mp ht with rfl | ht
        · exact Or.inl hf
        · exact hall t ht
    · rw [if_neg hf] at h
      by_cases hvl : calculator.isVariableLengthDataType (removeNullable ty) = true
      · rw [if_pos hvl] at h
        obtain ⟨hb, hs, hfx, hv, hall⟩ := ih _ _ _ h
        refine ⟨hb, ?_, ?_, ?_, ?_⟩
        · rw [hs]; simp
        · rw [hfx]; simp [hf]
        · rw [hv]; simp [hf]
        · intro t ht
          rcases List.mem_cons.mp ht with rfl | ht
          · exact Or.inr hvl
          · exact hall t ht
      · rw [if_neg hvl] at h
        cases h

/-- The loop's only failure is `UNKNOWN_TYPE`, and it fails as soon as one of
the types is neither fixed-length nor variable-length. -/
theorem constructLoop_error (calculator : BackingDataLengthCalculator) :
    ∀ (types : List DataType) (ordinal : Nat) (r : SparkRowReader),
      (∃ t ∈ types, calculator.isFixedLengthDataType (removeNullable t) = false ∧
        calculator.isVariableLengthDataType (removeNullable t) = false) →
      SparkRowReader.constructLoop calculator types ordinal r = .error Error.UNKNOWN_TYPE := by
  intro types
  induction types with
  | nil => intro ordinal r h; obtain ⟨t, ht, _⟩ := h; cases ht
  | cons ty rest ih =>
    intro ordinal r h
    simp only [SparkRowReader.constructLoop]
    by_cases hf : calculator.isFixedLengthDataType (removeNullable ty) = true
    · rw [if_pos hf]
      apply ih
      obtain ⟨t, ht, h1, h2⟩ := h
      rcases List.mem_cons.mp ht with rfl | ht
      · rw [hf] at h1; cases h1
      · exact ⟨t, ht, h1, h2⟩
    · rw [if_neg hf]
      by_cases hvl : calculator.isVariableLengthDataType (removeNullable ty) = true
      · rw [if_pos hvl]
        apply ih
        obtain ⟨t, ht, h1, h2⟩ := h
        rcases List.mem_cons.mp ht with rfl | ht
        · rw [hvl] at h2; cases h2
        · exact ⟨t, ht, h1, h2⟩
      · rw [if_neg hvl]

/-- What a constructed reader holds at a valid ordinal. -/
theorem construct_readers (calculator : BackingDataLengthCalculator)
    (field_types : List DataType) (r : SparkRowReader)
    (h : SparkRowReader.construct calculator field_types = .ok r)
    (i : Nat) (t : DataType) (ht : field_types[i]? = some t) :
    i < r.num_fields ∧
    r.support_raw_datas[i]? = some (calculator.isDataTypeSupportRawData (removeNullable t)) ∧
    r.fixed_length_data_readers[i]? = some
      (if calculator.isFixedLengthDataType (removeNullable t) = true
        then some (FixedLengthDataReader.mk t) else none) ∧
    r.variable_length_data_readers[i]? = some
      (if calculator.isFixedLengthDataType (removeNullable t) = true
        then none else some (VariableLengthDataReader.mk t)) ∧
    (calculator.isFixedLengthDataType (removeNullable t) = true ∨
      calculator.isVariableLengthDataType (removeNullable t) = true) ∧
    (∃ off, r.field_offsets[i]? = some off) := by
  obtain ⟨_, hn, ho⟩ := construct_layout calculator field_types r h
  unfold SparkRowReader.construct at h
  obtain ⟨_, hs, hfx, hv, hall⟩ := constructLoop_readers calculator _ _ _ _ h
  have hi : i < field_types.length := by
    rcases Nat.lt_or_ge i field_types.length with hlt | hge
    · exact hlt
    · rw [List.getElem?_eq_none hge] at ht; cases ht
  refine ⟨by rw [hn]; exact hi, ?_, ?_, ?_, ?_, ?_⟩
  · rw [hs]; simp [List.getElem?_map, ht]
  · rw [hfx]; simp [List.getElem?_map, ht]
  · rw [hv]; simp [List.getElem?_map, ht]
  · exact hall t (by
      rw [List.getElem?_eq_getElem hi] at ht
      cases ht
      exact List.getElem_mem _)
  · rw [ho, List.getElem?_map, List.getElem?_range hi]
    exact ⟨_, rfl⟩

/-! ## The two decoding paths: proofs -/

theorem construct_exampleArrayReader :
    SparkRowReader.construct specCalculator exampleArrayTypes = .ok exampleArrayReader := rfl

theorem getField_fixed (calculator : BackingDataLengthCalculator) (m : DataReaderMethods)
    (r : SparkRowReader) (buffer : Memory) (ordinal : Nat) (off : Int)
    (rd : FixedLengthDataReader) (v : Option VariableLengthDataReader)
    (hb : r.buffer = some buffer) (hi : ordinal < r.num_fields)
    (hn : isBitSet buffer ordinal = false)
    (hf : r.fixed_length_data_readers[ordinal]? = some (some rd))
    (hv : r.variable_length_data_readers[ordinal]? = some v)
    (ho : r.field_offsets[ordinal]? = some off) :
    SparkRowReader.getField calculator m r ordinal = m.fixedRead rd buffer off := by
  simp [SparkRowReader.getField, SparkRowReader.isNullAt, SparkRowReader.assertIndexIsValid,
    SparkRowReader.getFieldOffset, hb, hi, hn, hf, hv, ho]

theorem getField_variable (calculator : BackingDataLengthCalculator) (m : DataReaderMethods)
    (r : SparkRowReader) (buffer : Memory) (ordinal : Nat)
    (rd : VariableLengthDataReader)
    (hb : r.buffer = some buffer) (hi : ordinal < r.num_fields)
    (hn : isBitSet buffer ordinal = false)
    (hf : r.fixed_length_data_readers[ordinal]? = some none)
    (hv : r.variable_length_data_readers[ordinal]? = some (some rd)) :
    SparkRowReader.getField calculator m r ordinal =
      m.variableRead rd buffer
        (calculator.extractOffset (SparkRowReader.slotWord r buffer ordinal))
        (toUInt64 (calculator.extractSize (SparkRowReader.slotWord r buffer ordinal))) := by
  simp [SparkRowReader.getField, SparkRowReader.isNullAt, SparkRowReader.assertIndexIsValid,
    hb, hi, hn, hf, hv]

theorem getStringRef_not_raw (calculator : BackingDataLengthCalculator) (m : DataReaderMethods)
    (r : SparkRowReader) (ordinal : Nat)
    (hi : ordinal < r.num_fields) (hs : r.support_raw_datas[ordinal]? = some false) :
    SparkRowReader.getStringRef calculator m r ordinal = .error Error.UNKNOWN_TYPE := by
  simp [SparkRowReader.getStringRef, SparkRowReader.assertIndexIsValid, hi, hs]

theorem getStringRef_null (calculator : BackingDataLengthCalculator) (m : DataReaderMethods)
    (r : SparkRowReader) (buffer : Memory) (ordinal : Nat)
    (hb : r.buffer = some buffer) (hi : ordinal < r.num_fields)
    (hs : r.support_raw_datas[ordinal]? = some true)
    (hn : isBitSet buffer ordinal = true) :
    SparkRowReader.getStringRef calculator m r ordinal = .ok { data := none, size := 0 } := by
  simp [SparkRowReader.getStringRef, SparkRowReader.isNullAt,
    SparkRowReader.assertIndexIsValid, hb, hi, hs, hn]

theorem getStringRef_fixed (calculator : BackingDataLengthCalculator) (m : DataReaderMethods)
    (r : SparkRowReader) (buffer : Memory) (ordinal : Nat) (off : Int)
    (rd : FixedLengthDataReader) (v : Option VariableLengthDataReader)
    (hb : r.buffer = some buffer) (hi : ordinal < r.num_fields)
    (hs : r.support_raw_datas[ordinal]? = some true)
    (hn : isBitSet buffer ordinal = false)
    (hf : r.fixed_length_data_readers[ordinal]? = some (some rd))
    (hv : r.variable_length_data_readers[ordinal]? = some v)
    (ho : r.field_offsets[ordinal]? = some off) :
    SparkRowReader.getStringRef calculator m r ordinal = m.fixedUnsafeRead rd buffer off := by
  simp [SparkRowReader.getStringRef, SparkRowReader.isNullAt,
    SparkRowReader.assertIndexIsValid, SparkRowReader.getFieldOffset, hb, hi, hs, hn, hf, hv, ho]

theorem getStringRef_variable (calculator : BackingDataLengthCalculator)
    (m : DataReaderMethods) (r : SparkRowReader) (buffer : Memory) (ordinal : Nat)
    (rd : VariableLengthDataReader)
    (hb : r.buffer = some buffer) (hi : ordinal < r.num_fields)
    (hs : r.support_raw_datas[ordinal]? = some true)
    (hn : isBitSet buffer ordinal = false)
    (hf : r.fixed_length_data_readers[ordinal]? = some none)
    (hv : r.variable_length_data_readers[ordinal]? = some (some rd)) :
    SparkRowReader.getStringRef calculator m r ordinal =
      m.variableReadUnalignedBytes rd buffer
        (calculator.extractOffset (SparkRowReader.slotWord r buffer ordinal))
        (toUInt64 (calculator.extractSize (SparkRowReader.slotWord r buffer ordinal))) := by
  simp [SparkRowReader.getStringRef, SparkRowReader.isNullAt,
    SparkRowReader.assertIndexIsValid, hb, hi, hs, hn, hf, hv]

theorem isNullAt_pointTo (r : SparkRowReader) (buffer : Memory) (len : Int) (ordinal : Nat)
    (hi : ordinal < r.num_fields) :
    SparkRowReader.isNullAt (r.pointTo buffer len) ordinal = .ok (isBitSet buffer ordinal) := by
  simp [SparkRowReader.isNullAt, SparkRowReader.assertIndexIsValid, SparkRowReader.pointTo, hi]

theorem slotWord_pointTo (r : SparkRowReader) (buffer b : Memory) (len : Int) (ordinal : Nat) :
    SparkRowReader.slotWord (r.pointTo buffer len) b ordinal =
      SparkRowReader.slotWord r b ordinal := rfl

/-! ## The row length and the decoded pair: proofs -/

/-- C21 (amended): the row length given to `pointTo` is stored and never read.
For every reader, row, pair of lengths and non-null variable-length field,
`getField` hands the offset and the size decoded from the slot to the
variable-length reader as they are; `getStringRef` does the same when the
field's type supports raw data and throws `UNKNOWN_TYPE` when it does not;
`getString` returns the span made of the two `int32_t` halves; and each of the
three gives the same outcome for both lengths: no comparison with the row
length is made and no accessor fails because of the pair. -/
theorem SparkRowReader.offset_size_unchecked (calculator : BackingDataLengthCalculator)
    (m : DataReaderMethods) (r : SparkRowReader) (buffer : Memory) (l1 l2 : Int)
    (ordinal : Nat) (off : Int) (rd : VariableLengthDataReader) (raw : Bool)
    (hi : ordinal < r.num_fields)
    (hn : SparkRowReader.isNullAt (r.pointTo buffer l1) ordinal = .ok false)
    (hs : r.support_raw_datas[ordinal]? = some raw)
    (hf : r.fixed_length_data_readers[ordinal]? = some none)
    (hv : r.variable_length_data_readers[ordinal]? = some (some rd))
    (ho : r.field_offsets[ordinal]? = some off) :
    (SparkRowReader.getField calculator m (r.pointTo buffer l1) ordinal =
        m.variableRead rd buffer
          (calculator.extractOffset (SparkRowReader.slotWord r buffer ordinal))
          (toUInt64 (calculator.extractSize (SparkRowReader.slotWord r buffer ordinal))) ∧
      SparkRowReader.getStringRef calculator m (r.pointTo buffer l1) ordinal =
        (if raw = true then
          m.variableReadUnalignedBytes rd buffer
            (calculator.extractOffset (SparkRowReader.slotWord r buffer ordinal))
            (toUInt64 (calculator.extractSize (SparkRowReader.slotWord r buffer ordinal)))
        else .error Error.UNKNOWN_TYPE) ∧
      SparkRowReader.getString (r.pointTo buffer l1) ordinal =
        .ok { data := some (toInt32 (toInt64 (readLE buffer off 8) / 2 ^ 32)),
              size := toUInt64 (toInt32 (toInt64 (readLE buffer off 8))) }) ∧
    SparkRowReader.getField calculator m (r.pointTo buffer l2) ordinal =
      SparkRowReader.getField calculator m (r.pointTo buffer l1) ordinal ∧
    SparkRowReader.getStringRef calculator m (r.pointTo buffer l2) ordinal =
      SparkRowReader.getStringRef calculator m (r.pointTo buffer l1) ordinal ∧
    SparkRowReader.getString (r.pointTo buffer l2) ordinal =
      SparkRowReader.getString (r.pointTo buffer l1) ordinal := by
  have hbit : isBitSet buffer ordinal = false := by
    rw [isNullAt_pointTo r buffer l1 ordinal hi] at hn
    exact Except.ok.inj hn
  have hgf : ∀ l : Int, SparkRowReader.getField calculator m (r.pointTo buffer l) ordinal =
      m.variableRead rd buffer
        (calculator.extractOffset (SparkRowReader.slotWord r buffer ordinal))
        (toUInt64 (calculator.extractSize (SparkRowReader.slotWord r buffer ordinal))) :=
    fun l => getField_variable calculator m (r.pointTo buffer l) buffer ordinal rd rfl hi hbit hf hv
  have hgr : ∀ l : Int, SparkRowReader.getStringRef calculator m (r.pointTo buffer l) ordinal =
      (if raw = true then
        m.variableReadUnalignedBytes rd buffer
          (calculator.extractOffset (SparkRowReader.slotWord r buffer ordinal))
          (toUInt64 (calculator.extractSize (SparkRowReader.slotWord r buffer ordinal)))
      else .error Error.UNKNOWN_TYPE) := by
    intro l
    cases raw with
    | true =>
      simp only [if_true]
      exact getStringRef_variable calculator m (r.pointTo buffer l) buffer ordinal rd rfl hi hs
        hbit hf hv
    | false =>
      simp only [Bool.false_eq_true, if_false]
      exact getStringRef_not_raw calculator m (r.pointTo buffer l) ordinal hi hs
  have hgs : ∀ l : Int, SparkRowReader.getString (r.pointTo buffer l) ordinal =
      .ok { data := some (toInt32 (toInt64 (readLE buffer off 8) / 2 ^ 32)),
            size := toUInt64 (toInt32 (toInt64 (readLE buffer off 8))) } := by
    intro l
    have hl : SparkRowReader.getLong (r.pointTo buffer l) ordinal =
        .ok (toInt64 (readLE buffer off 8)) :=
      readSlot_eq (r.pointTo buffer l) buffer ordinal off 8 (fun v => toInt64 v) rfl hi ho
    have hv : SparkRowReader.assertIndexIsValid (r.pointTo buffer l) ordinal = .ok () := by
      simp [SparkRowReader.assertIndexIsValid, SparkRowReader.pointTo, hi]
    simp only [SparkRowReader.getString, hv, hl]
  exact ⟨⟨hgf l1, hgr l1, hgs l1⟩, by rw [hgf l1, hgf l2], by rw [hgr l1, hgr l2],
    by rw [hgs l1, hgs l2]⟩

/-- Witness for C21 (amended): field 1 of the example row, with the row length
given as 40 and as 33. -/
theorem SparkRowReader.offset_size_unchecked_witness :
    (1 < exampleReader.num_fields ∧
      SparkRowReader.isNullAt (exampleReader.pointTo exampleRow 40) 1 = .ok false) ∧
    SparkRowReader.getField specCalculator echoMethods (exampleReader.pointTo exampleRow 33) 1 =
      SparkRowReader.getField specCalculator echoMethods (exampleReader.pointTo exampleRow 40) 1 :=
  ⟨⟨by decide, rfl⟩,
    (SparkRowReader.offset_size_unchecked specCalculator echoMethods exampleReader exampleRow
      40 33 1 16 ⟨.DataTypeString⟩ true (by decide) rfl rfl rfl rfl rfl).2.1⟩

/-- Counterexample to C21: the slot of field 1 of the example row decodes to
offset 32 and size 5, so the referenced bytes end at 37; with the row length
given as 33 the three accessors return the span, or call the reader with the
pair, and none of them fails. -/
theorem SparkRowReader.offset_size_beyond_length :
    (exampleReader.pointTo exampleRow 33).length = 33 ∧
    SparkRowReader.isNullAt (exampleReader.pointTo exampleRow 33) 1 = .ok false ∧
    (33 : Int) < 32 + 5 ∧
    SparkRowReader.getString (exampleReader.pointTo exampleRow 33) 1 =
      .ok { data := some 32, size := 5 } ∧
    SparkRowReader.getStringRef specCalculator echoMethods
        (exampleReader.pointTo exampleRow 33) 1 = .ok { data := some 32, size := 5 } ∧
    SparkRowReader.getField specCalculator echoMethods
        (exampleReader.pointTo exampleRow 33) 1 =
      .ok (Field.Tuple [Field.Int64 32, Field.UInt64 5]) :=
  ⟨rfl, rfl, by decide, rfl, rfl, rfl⟩

/-- The slot word of a variable-length field is read at the planned offset. -/
theorem slotWord_eq (r : SparkRowReader) (buffer : Memory) (i : Nat)
    (hi : i ≤ DataTypes.max_size) :
    SparkRowReader.slotWord r buffer i =
      toInt64 (readLE buffer (r.bit_set_width_in_bytes + 8 * (i : Int)) 8) := by
  have hmax : DataTypes.max_size = 576460752303423487 := by decide
  rw [hmax] at hi
  unfold SparkRowReader.slotWord
  have h : (i * 8 % 2 ^ 64 : Nat) = i * 8 := Nat.mod_eq_of_lt (by omega)
  rw [h]
  push_cast
  rw [mul_comm]

/-- C22 (amended): for every successfully constructed reader and every field
whose type supports raw data, `getStringRef` and `getField` use the same
addresses. The slot is at `bit_set_width_in_bytes + 8 * ordinal` from the row
start, which is `field_offsets[ordinal]`; for a non-null fixed-length field
both pass that address to the fixed-length reader; for a non-null
variable-length field both pass the offset and size decoded from the word in
that slot to the variable-length reader; for a null field `getStringRef`
returns the empty span whatever the reader methods are, so none of them is
called. -/
theorem SparkRowReader.getStringRef_same_slot (calculator : BackingDataLengthCalculator)
    (m : DataReaderMethods) (field_types : List DataType) (r : SparkRowReader)
    (buffer : Memory) (len : Int) (i : Nat) (t : DataType)
    (hmax : field_types.length ≤ DataTypes.max_size)
    (h : SparkRowReader.construct calculator field_types = .ok r)
    (ht : field_types[i]? = some t)
    (hraw : calculator.isDataTypeSupportRawData (removeNullable t) = true) :
    r.field_offsets[i]? = some (r.bit_set_width_in_bytes + 8 * (i : Int)) ∧
    (SparkRowReader.isNullAt (r.pointTo buffer len) i = .ok true →
      SparkRowReader.getStringRef calculator m (r.pointTo buffer len) i =
        .ok { data := none, size := 0 }) ∧
    (SparkRowReader.isNullAt (r.pointTo buffer len) i = .ok false →
      (calculator.isFixedLengthDataType (removeNullable t) = true →
        SparkRowReader.getField calculator m (r.pointTo buffer len) i =
          m.fixedRead ⟨t⟩ buffer (r.bit_set_width_in_bytes + 8 * (i : Int)) ∧
        SparkRowReader.getStringRef calculator m (r.pointTo buffer len) i =
          m.fixedUnsafeRead ⟨t⟩ buffer (r.bit_set_width_in_bytes + 8 * (i : Int))) ∧
      (calculator.isFixedLengthDataType (removeNullable t) = false →
        SparkRowReader.getField calculator m (r.pointTo buffer len) i =
          m.variableRead ⟨t⟩ buffer
            (calculator.extractOffset
              (toInt64 (readLE buffer (r.bit_set_width_in_bytes + 8 * (i : Int)) 8)))
            (toUInt64 (calculator.extractSize
              (toInt64 (readLE buffer (r.bit_set_width_in_bytes + 8 * (i : Int)) 8)))) ∧
        SparkRowReader.getStringRef calculator m (r.pointTo buffer len) i =
          m.variableReadUnalignedBytes ⟨t⟩ buffer
            (calculator.extractOffset
              (toInt64 (readLE buffer (r.bit_set_width_in_bytes + 8 * (i : Int)) 8)))
            (toUInt64 (calculator.extractSize
              (toInt64 (readLE buffer (r.bit_set_width_in_bytes + 8 * (i : Int)) 8)))))) := by
  obtain ⟨hi, hs, hfx, hv, _, _⟩ := construct_readers calculator field_types r h i t ht
  have hil : i < field_types.length := by
    rcases Nat.lt_or_ge i field_types.length with hlt | hge
    · exact hlt
    · rw [List.getElem?_eq_none hge] at ht; cases ht
  have ho := construct_field_offset calculator field_types r hmax h i hil
  rw [hraw] at hs
  have hsw := slotWord_eq r buffer i (Nat.le_trans (Nat.le_of_lt hil) hmax)
  refine ⟨ho, ?_, ?_⟩
  · intro hn
    rw [isNullAt_pointTo r buffer len i hi] at hn
    exact getStringRef_null calculator m (r.pointTo buffer len) buffer i rfl hi hs
      (Except.ok.inj hn)
  · intro hn
    rw [isNullAt_pointTo r buffer len i hi] at hn
    have hbit := Except.ok.inj hn
    constructor
    · intro hfl
      rw [if_pos hfl] at hfx hv
      exact ⟨getField_fixed calculator m (r.pointTo buffer len) buffer i _ _ _ rfl hi hbit
          hfx hv ho,
        getStringRef_fixed calculator m (r.pointTo buffer len) buffer i _ _ _ rfl hi hs hbit
          hfx hv ho⟩
    · intro hfl
      have hfl' : ¬ calculator.isFixedLengthDataType (removeNullable t) = true := by
        rw [hfl]; exact Bool.false_ne_true
      rw [if_neg hfl'] at hfx hv
      rw [← hsw]
      exact ⟨getField_variable calculator m (r.pointTo buffer len) buffer i _ rfl hi hbit
          hfx hv,
        getStringRef_variable calculator m (r.pointTo buffer len) buffer i _ rfl hi hs hbit
          hfx hv⟩

/-- Witness for C22 (amended): the string field of the example reader. -/
theorem SparkRowReader.getStringRef_same_slot_witness :
    (exampleTypes.length ≤ DataTypes.max_size ∧
      SparkRowReader.construct specCalculator exampleTypes = .ok exampleReader ∧
      exampleTypes[1]? = some .DataTypeString ∧
      specCalculator.isDataTypeSupportRawData (removeNullable .DataTypeString) = true) ∧
    exampleReader.field_offsets[1]? = some (exampleReader.bit_set_width_in_bytes + 8 * ((1 : Nat) : Int)) :=
  ⟨⟨by decide, construct_exampleReader, rfl, rfl⟩,
    (SparkRowReader.getStringRef_same_slot specCalculator echoMethods exampleTypes exampleReader
      exampleRow 40 1 .DataTypeString (by decide) construct_exampleReader rfl rfl).1⟩

/-- Counterexample to C22: the only field of the array reader is null in the
row whose first bitmap byte is 1, and `getStringRef` throws `UNKNOWN_TYPE`
instead of returning the empty span. -/
theorem SparkRowReader.getStringRef_null_not_raw :
    SparkRowReader.construct specCalculator exampleArrayTypes = .ok exampleArrayReader ∧
    SparkRowReader.isNullAt (exampleArrayReader.pointTo exampleNullRow 16) 0 = .ok true ∧
    SparkRowReader.getStringRef specCalculator echoMethods
      (exampleArrayReader.pointTo exampleNullRow 16) 0 = .error Error.UNKNOWN_TYPE ∧
    SparkRowReader.getField specCalculator echoMethods
      (exampleArrayReader.pointTo exampleNullRow 16) 0 = .ok Field.Null :=
  ⟨rfl, rfl, rfl, rfl⟩

/-- C23: every successfully constructed reader holds at each ordinal exactly
one of a fixed-length reader and a variable-length reader, made for the field's
type; construction fails with `UNKNOWN_TYPE` when some type is neither
fixed-length nor variable-length; so `getField` on a row and valid ordinal is
`Null`, the fixed-length reader's result or the variable-length reader's result,
and it raises `UNKNOWN_TYPE` only if the reader called does. -/
theorem SparkRowReader.exactly_one_reader (calculator : BackingDataLengthCalculator)
    (m : DataReaderMethods) (field_types : List DataType) (r : SparkRowReader)
    (buffer : Memory) (len : Int) (i : Nat) (t : DataType)
    (h : SparkRowReader.construct calculator field_types = .ok r)
    (ht : field_types[i]? = some t) :
    ((r.fixed_length_data_readers[i]? = some (some ⟨t⟩) ∧
        r.variable_length_data_readers[i]? = some none) ∨
      (r.fixed_length_data_readers[i]? = some none ∧
        r.variable_length_data_readers[i]? = some (some ⟨t⟩))) ∧
    (∀ types : List DataType,
      (∃ u ∈ types, calculator.isFixedLengthDataType (removeNullable u) = false ∧
        calculator.isVariableLengthDataType (removeNullable u) = false) →
      SparkRowReader.construct calculator types = .error Error.UNKNOWN_TYPE) ∧
    (SparkRowReader.getField calculator m (r.pointTo buffer len) i = .ok Field.Null ∨
      (∃ off, SparkRowReader.getField calculator m (r.pointTo buffer len) i =
        m.fixedRead ⟨t⟩ buffer off) ∨
      (∃ off size, SparkRowReader.getField calculator m (r.pointTo buffer len) i =
        m.variableRead ⟨t⟩ buffer off size)) ∧
    ((∀ rd b p, m.fixedRead rd b p ≠ .error Error.UNKNOWN_TYPE) →
      (∀ rd b p s, m.variableRead rd b p s ≠ .error Error.UNKNOWN_TYPE) →
      SparkRowReader.getField calculator m (r.pointTo buffer len) i ≠
        .error Error.UNKNOWN_TYPE) := by
  obtain ⟨hi, _, hfx, hv, _, off, ho⟩ := construct_readers calculator field_types r h i t ht
  have hone : (r.fixed_length_data_readers[i]? = some (some ⟨t⟩) ∧
        r.variable_length_data_readers[i]? = some none) ∨
      (r.fixed_length_data_readers[i]? = some none ∧
        r.variable_length_data_readers[i]? = some (some ⟨t⟩)) := by
    by_cases hfl : calculator.isFixedLengthDataType (removeNullable t) = true
    · rw [if_pos hfl] at hfx hv; exact Or.inl ⟨hfx, hv⟩
    · rw [if_neg hfl] at hfx hv; exact Or.inr ⟨hfx, hv⟩
  have hforms : SparkRowReader.getField calculator m (r.pointTo buffer len) i = .ok Field.Null ∨
      (∃ off, SparkRowReader.getField calculator m (r.pointTo buffer len) i =
        m.fixedRead ⟨t⟩ buffer off) ∨
      (∃ off size, SparkRowReader.getField calculator m (r.pointTo buffer len) i =
        m.variableRead ⟨t⟩ buffer off size) := by
    cases hbit : isBitSet buffer i with
    | true =>
      left
      simp [SparkRowReader.getField, SparkRowReader.isNullAt,
        SparkRowReader.assertIndexIsValid, SparkRowReader.pointTo, hi, hbit]
    | false =>
      right
      rcases hone with ⟨h1, h2⟩ | ⟨h1, h2⟩
      · exact Or.inl ⟨off, getField_fixed calculator m (r.pointTo buffer len) buffer i off _ _
          rfl hi hbit h1 h2 ho⟩
      · exact Or.inr ⟨_, _, getField_variable calculator m (r.pointTo buffer len) buffer i _
          rfl hi hbit h1 h2⟩
  refine ⟨hone, ?_, hforms, ?_⟩
  · intro types hex
    exact constructLoop_error calculator types 0 _ hex
  · intro hm1 hm2
    rcases hforms with h0 | ⟨o, h1⟩ | ⟨o, s, h2⟩
    · rw [h0]; intro hc; cases hc
    · rw [h1]; exact hm1 _ _ _
    · rw [h2]; exact hm2 _ _ _ _

/-- Witness for C23: the string field of the example reader holds a
variable-length reader and no fixed-length reader. -/
theorem SparkRowReader.exactly_one_reader_witness :
    (SparkRowReader.construct specCalculator exampleTypes = .ok exampleReader ∧
      exampleTypes[1]? = some .DataTypeString) ∧
    ((exampleReader.fixed_length_data_readers[1]? = some (some ⟨.DataTypeString⟩) ∧
        exampleReader.variable_length_data_readers[1]? = some none) ∨
      (exampleReader.fixed_length_data_readers[1]? = some none ∧
        exampleReader.variable_length_data_readers[1]? = some (some ⟨.DataTypeString⟩))) :=
  ⟨⟨construct_exampleReader, rfl⟩,
    (SparkRowReader.exactly_one_reader specCalculator echoMethods exampleTypes exampleReader
      exampleRow 40 1 .DataTypeString construct_exampleReader rfl).1⟩

/-- C26: for every successfully constructed reader, row and valid ordinal,
`getStringRef` throws `UNKNOWN_TYPE` whatever the reader methods are exactly
when the field's type does not support raw data, and with reader methods that
do not throw `UNKNOWN_TYPE` themselves it throws `UNKNOWN_TYPE` exactly then;
the check comes before the null check: a null field of a type without raw
support throws, a null field of a raw-capable type gives the empty span. -/
theorem SparkRowReader.getStringRef_unknown_type (calculator : BackingDataLengthCalculator)
    (m : DataReaderMethods) (field_types : List DataType) (r : SparkRowReader)
    (buffer : Memory) (len : Int) (i : Nat) (t : DataType)
    (h : SparkRowReader.construct calculator field_types = .ok r)
    (ht : field_types[i]? = some t) :
    ((∀ m' : DataReaderMethods,
        SparkRowReader.getStringRef calculator m' (r.pointTo buffer len) i =
          .error Error.UNKNOWN_TYPE) ↔
      calculator.isDataTypeSupportRawData (removeNullable t) = false) ∧
    ((∀ rd b p, m.fixedUnsafeRead rd b p ≠ .error Error.UNKNOWN_TYPE) →
      (∀ rd b p s, m.variableReadUnalignedBytes rd b p s ≠ .error Error.UNKNOWN_TYPE) →
      (SparkRowReader.getStringRef calculator m (r.pointTo buffer len) i =
          .error Error.UNKNOWN_TYPE ↔
        calculator.isDataTypeSupportRawData (removeNullable t) = false)) ∧
    (SparkRowReader.isNullAt (r.pointTo buffer len) i = .ok true →
      (calculator.isDataTypeSupportRawData (removeNullable t) = false →
        SparkRowReader.getStringRef calculator m (r.pointTo buffer len) i =
          .error Error.UNKNOWN_TYPE) ∧
      (calculator.isDataTypeSupportRawData (removeNullable t) = true →
        SparkRowReader.getStringRef calculator m (r.pointTo buffer len) i =
          .ok { data := none, size := 0 })) := by
  obtain ⟨hi, hs, hfx, hv, _, off, ho⟩ := construct_readers calculator field_types r h i t ht
  have hnot : calculator.isDataTypeSupportRawData (removeNullable t) = false →
      ∀ m' : DataReaderMethods,
        SparkRowReader.getStringRef calculator m' (r.pointTo buffer len) i =
          .error Error.UNKNOWN_TYPE := by
    intro hr m'
    rw [hr] at hs
    exact getStringRef_not_raw calculator m' (r.pointTo buffer len) i hi hs
  have hraw : calculator.isDataTypeSupportRawData (removeNullable t) = true →
      ∀ m' : DataReaderMethods,
        (∀ rd b p, m'.fixedUnsafeRead rd b p ≠ .error Error.UNKNOWN_TYPE) →
        (∀ rd b p s, m'.variableReadUnalignedBytes rd b p s ≠ .error Error.UNKNOWN_TYPE) →
        SparkRowReader.getStringRef calculator m' (r.pointTo buffer len) i ≠
          .error Error.UNKNOWN_TYPE := by
    intro hr m' hm1 hm2
    rw [hr] at hs
    cases hbit : isBitSet buffer i with
    | true =>
      rw [getStringRef_null calculator m' (r.pointTo buffer len) buffer i rfl hi hs hbit]
      intro hc; cases hc
    | false =>
      by_cases hfl : calculator.isFixedLengthDataType (removeNullable t) = true
      · rw [if_pos hfl] at hfx hv
        rw [getStringRef_fixed calculator m' (r.pointTo buffer len) buffer i off _ _ rfl hi hs
          hbit hfx hv ho]
        exact hm1 _ _ _
      · rw [if_neg hfl] at hfx hv
        rw [getStringRef_variable calculator m' (r.pointTo buffer len) buffer i _ rfl hi hs
          hbit hfx hv]
        exact hm2 _ _ _ _
  refine ⟨⟨?_, hnot⟩, ?_, ?_⟩
  · intro hall
    cases hr : calculator.isDataTypeSupportRawData (removeNullable t) with
    | false => rfl
    | true =>
      exfalso
      exact hraw hr echoMethods (by intro _ _ _ hc; cases hc) (by intro _ _ _ _ hc; cases hc)
        (hall echoMethods)
  · intro hm1 hm2
    constructor
    · intro he
      cases hr : calculator.isDataTypeSupportRawData (removeNullable t) with
      | false => rfl
      | true => exact absurd he (hraw hr m hm1 hm2)
    · intro hr
      exact hnot hr m
  · intro hn
    rw [isNullAt_pointTo r buffer len i hi] at hn
    refine ⟨fun hr => hnot hr m, ?_⟩
    intro hr
    rw [hr] at hs
    exact getStringRef_null calculator m (r.pointTo buffer len) buffer i rfl hi hs
      (Except.ok.inj hn)

/-- Witness for C26: the array reader, whose only field does not support raw
data, on a row where that field is null. -/
theorem SparkRowReader.getStringRef_unknown_type_witness :
    (SparkRowReader.construct specCalculator exampleArrayTypes = .ok exampleArrayReader ∧
      exampleArrayTypes[0]? = some (.DataTypeArray .DataTypeInt32)) ∧
    SparkRowReader.isNullAt (exampleArrayReader.pointTo exampleNullRow 16) 0 = .ok true ∧
    SparkRowReader.getStringRef specCalculator failingMethods
      (exampleArrayReader.pointTo exampleNullRow 16) 0 = .error Error.UNKNOWN_TYPE :=
  ⟨⟨construct_exampleArrayReader, rfl⟩, rfl,
    ((SparkRowReader.getStringRef_unknown_type specCalculator failingMethods exampleArrayTypes
      exampleArrayReader exampleNullRow 16 0 (.DataTypeArray .DataTypeInt32)
      construct_exampleArrayReader rfl).2.2 rfl).1 rfl⟩

/-! ## Names consumed, by descriptor kind: proofs -/

theorem nameCountList_eq_sum (ts : List SubstraitType) :
    nameCountList ts = (ts.map SubstraitType.nameCount).sum := by
  induction ts with
  | nil => simp [nameCountList]
  | cons t rest ih => simp [nameCountList, ih]

theorem parseType_not_assertion (d : SubstraitType) (names : List String)
    (hlen : d.nameCount ≤ names.length) :
    TypeParser.parseType d (some names) ≠ .error Error.ASSERTION_FAILED := by
  obtain ⟨hok, herr⟩ := parseType_names_agree d names hlen
  cases h0 : TypeParser.parseType d none with
  | error e =>
    rw [herr e h0]
    intro hc
    cases hc
    have hu := parseType_none_error d _ h0
    cases hu
  | ok q =>
    obtain ⟨t, ht, _⟩ := hok q.1 q.2 h0
    rw [ht]
    intro hc; cases hc

/-- C24: with a name list supplied, a successful `parseType` leaves the list
without its first `c(d)` names, where `c(d)` is 1 for every descriptor that is
not a struct and one more than the sum over the fields for a struct; the
element of a list and the key and value of a map are translated without the
name list, so a list or map uses one name and the structs inside it become
positional tuples; and with at least `c(d)` names supplied the translation
does not end in the violated `assert` on an empty name list. -/
theorem TypeParser.parseType_name_count (d : SubstraitType) (names : List String)
    (hlen : d.nameCount ≤ names.length) :
    ((∀ ts n, d = .struct_ ts n →
        d.nameCount = 1 + (ts.map SubstraitType.nameCount).sum) ∧
      ((∀ ts n, d ≠ .struct_ ts n) → d.nameCount = 1)) ∧
    TypeParser.parseType d (some names) ≠ .error Error.ASSERTION_FAILED ∧
    (∀ (names' : List String) (t : DataType) (r : Option (List String)),
      TypeParser.parseType d (some names') = .ok (t, r) →
      d.nameCount ≤ names'.length ∧ r = some (names'.drop d.nameCount)) ∧
    (∀ (e : SubstraitType) (n : Type_Nullability) (t : DataType) (r : Option (List String)),
      d = .list e n → TypeParser.parseType d (some names) = .ok (t, r) →
      r = some (names.drop 1) ∧
      ∃ te, TypeParser.parseType e none = .ok (te, none) ∧
        t = TypeParser.tryWrapNullable n (.DataTypeArray te) ∧ te.allPositional = true) ∧
    (∀ (k v : SubstraitType) (n : Type_Nullability) (t : DataType)
      (r : Option (List String)),
      d = .map k v n → TypeParser.parseType d (some names) = .ok (t, r) →
      r = some (names.drop 1) ∧
      ∃ tk tv, t = TypeParser.tryWrapNullable n (.DataTypeMap tk tv) ∧
        tk.allPositional = true ∧ tv.allPositional = true) := by
  refine ⟨⟨?_, nameCount_of_not_struct d⟩, parseType_not_assertion d names hlen,
    parseType_names_consumed d, ?_, ?_⟩
  · intro ts n hd
    subst hd
    simp only [SubstraitType.nameCount]
    rw [nameCountList_eq_sum]
  · intro e n t r hd h
    subst hd
    have hc := (parseType_names_consumed _ names t r h).2
    simp only [SubstraitType.nameCount] at hc
    refine ⟨hc, ?_⟩
    rw [parseType_list_eq] at h
    cases names with
    | nil => simp [SubstraitType.nameCount] at hlen
    | cons x rest =>
      simp only [TypeParser.popFieldName] at h
      cases hp : TypeParser.parseType e none with
      | error e' => rw [hp] at h; cases h
      | ok q =>
        obtain ⟨te, nm⟩ := q
        have hnm : nm = none := parseType_none_names e te nm hp
        subst hnm
        rw [hp] at h
        simp only [Except.ok.injEq, Prod.mk.injEq] at h
        exact ⟨te, rfl, h.1.symm, parseType_none_allPositional e te none hp⟩
  · intro k v n t r hd h
    subst hd
    have hc := (parseType_names_consumed _ names t r h).2
    simp only [SubstraitType.nameCount] at hc
    refine ⟨hc, ?_⟩
    rw [parseType_map_eq] at h
    cases names with
    | nil => simp [SubstraitType.nameCount] at hlen
    | cons x rest =>
      simp only [TypeParser.popFieldName] at h
      split at h
      · simp only [Except.ok.injEq, Prod.mk.injEq] at h
        exact ⟨_, _, h.1.symm, rfl, rfl⟩
      · cases hk : TypeParser.parseType k none with
        | error e' => rw [hk] at h; cases h
        | ok pk =>
          cases hv : TypeParser.parseType v none with
          | error e' => rw [hk, hv] at h; cases h
          | ok pv =>
            rw [hk, hv] at h
            simp only [Except.ok.injEq, Prod.mk.injEq] at h
            exact ⟨pk.1, pv.1, h.1.symm, parseType_none_allPositional k pk.1 pk.2 hk,
              parseType_none_allPositional v pv.1 pv.2 hv⟩

/-- Witness for C24: a list of the example struct uses the single name `s`
and its element is the positional tuple. -/
theorem TypeParser.parseType_name_count_witness :
    exampleListOfStruct.nameCount ≤ exampleNames.length ∧
    TypeParser.parseType exampleListOfStruct (some exampleNames) =
      .ok (.DataTypeNullable (.DataTypeArray examplePositionalTuple),
        some ["a", "b", "c", "extra"]) ∧
    TypeParser.parseType exampleListOfStruct (some exampleNames) ≠
      .error Error.ASSERTION_FAILED :=
  ⟨by decide, rfl,
    (TypeParser.parseType_name_count exampleListOfStruct exampleNames (by decide)).2.1⟩

/-! ## Maps keyed by `nothing` and the scalar kinds: proofs -/

/-- C27: for every map descriptor whose key is of kind `nothing`, every value
descriptor and every name list from which the map's own name can be taken,
`parseType` returns `Map(Nothing, Nothing)`, wrapped in `Nullable` exactly when
the map's flag is `NULLABLE`; the value descriptor is not translated, so the
result is the same for an unsupported value that fails on its own; the key is
the bare `Nothing`, while a standalone `nothing` descriptor gives
`Nullable(Nothing)`. -/
theorem TypeParser.parseType_map_nothing_key (key value : SubstraitType)
    (n : Type_Nullability) (names fn : Option (List String))
    (hkey : key.has_nothing = true)
    (hpop : TypeParser.popFieldName names = .ok fn) :
    TypeParser.parseType (.map key value n) names =
      .ok (TypeParser.tryWrapNullable n (.DataTypeMap .DataTypeNothing .DataTypeNothing), fn) ∧
    removeNullable
        (TypeParser.tryWrapNullable n (.DataTypeMap .DataTypeNothing .DataTypeNothing)) =
      .DataTypeMap .DataTypeNothing .DataTypeNothing ∧
    ((TypeParser.tryWrapNullable n
        (.DataTypeMap .DataTypeNothing .DataTypeNothing)).isNullable = true ↔
      n = Type_Nullability.NULLABILITY_NULLABLE) ∧
    (∀ kind : UnhandledKind,
      TypeParser.parseType (.other kind) names = .error Error.UNKNOWN_TYPE ∧
      TypeParser.parseType (.map key (.other kind) n) names =
        TypeParser.parseType (.map key value n) names) ∧
    TypeParser.parseType key names = .ok (.DataTypeNullable .DataTypeNothing, fn) ∧
    DataType.DataTypeNothing ≠ .DataTypeNullable .DataTypeNothing := by
  have hmap : ∀ v : SubstraitType, TypeParser.parseType (.map key v n) names =
      .ok (TypeParser.tryWrapNullable n (.DataTypeMap .DataTypeNothing .DataTypeNothing),
        fn) := by
    intro v
    rw [parseType_map_eq, hpop]
    simp only [hkey, if_true]
  have hk : key = .nothing := by
    cases key <;> first | rfl | simp [SubstraitType.has_nothing] at hkey
  refine ⟨hmap value,
    removeNullable_tryWrapNullable n (.DataTypeMap .DataTypeNothing .DataTypeNothing) rfl,
    ?_, ?_, ?_, ?_⟩
  · rw [tryWrapNullable_isNullable n (.DataTypeMap .DataTypeNothing .DataTypeNothing) rfl]
    simp
  · intro kind
    refine ⟨?_, ?_⟩
    · rw [TypeParser.parseType, hpop]
    · rw [hmap, hmap]
  · subst hk
    rw [TypeParser.parseType, hpop]
    rfl
  · intro hc; cases hc

/-- Witness for C27: a required map from `nothing` to the unhandled kind `time`. -/
theorem TypeParser.parseType_map_nothing_key_witness :
    (SubstraitType.nothing.has_nothing = true ∧
      TypeParser.popFieldName (some ["m", "x"]) = .ok (some ["x"])) ∧
    TypeParser.parseType
        (.map .nothing (.other .time) .NULLABILITY_REQUIRED) (some ["m", "x"]) =
      .ok (TypeParser.tryWrapNullable .NULLABILITY_REQUIRED
        (.DataTypeMap .DataTypeNothing .DataTypeNothing), some ["x"]) :=
  ⟨⟨rfl, rfl⟩,
    (TypeParser.parseType_map_nothing_key .nothing (.other .time) .NULLABILITY_REQUIRED
      (some ["m", "x"]) (some ["x"]) rfl rfl).1⟩

/-- C28: the scalar translation is not injective. For every nullability flag
and name list the `string` and `binary` descriptors, which differ, give the
same outcome, the type `String` under the flag; for every length the
`fixed_char` and `fixed_binary` descriptors, which differ, give the same
outcome, `FixedString` of the length converted to `size_t` (the length itself
when it is not negative); `timestamp` gives `DateTime64(6)` and `date` gives
`Date32`. -/
theorem TypeParser.parseType_scalars_not_injective (n : Type_Nullability) (length : Int)
    (names : Option (List String)) :
    (TypeParser.parseType (.string n) names = TypeParser.parseType (.binary n) names ∧
      SubstraitType.string n ≠ SubstraitType.binary n ∧
      TypeParser.parseType (.string n) none =
        .ok (TypeParser.tryWrapNullable n .DataTypeString, none)) ∧
    (TypeParser.parseType (.fixed_char length n) names =
        TypeParser.parseType (.fixed_binary length n) names ∧
      SubstraitType.fixed_char length n ≠ SubstraitType.fixed_binary length n ∧
      TypeParser.parseType (.fixed_char length n) none =
        .ok (TypeParser.tryWrapNullable n (.DataTypeFixedString (toUInt64 length)), none) ∧
      (0 ≤ length → length < 2 ^ 64 → toUInt64 length = length.toNat)) ∧
    (∀ fn, TypeParser.popFieldName names = .ok fn →
      TypeParser.parseType (.timestamp n) names =
        .ok (TypeParser.tryWrapNullable n (.DataTypeDateTime64 6), fn) ∧
      TypeParser.parseType (.date n) names =
        .ok (TypeParser.tryWrapNullable n .DataTypeDate32, fn) ∧
      TypeParser.parseType (.string n) names =
        .ok (TypeParser.tryWrapNullable n .DataTypeString, fn) ∧
      TypeParser.parseType (.fixed_binary length n) names =
        .ok (TypeParser.tryWrapNullable n (.DataTypeFixedString (toUInt64 length)), fn)) := by
  refine ⟨⟨?_, ?_, ?_⟩, ⟨?_, ?_, ?_, ?_⟩, ?_⟩
  · rw [TypeParser.parseType, TypeParser.parseType]
  · intro hc; cases hc
  · rw [TypeParser.parseType]; rfl
  · rw [TypeParser.parseType, TypeParser.parseType]
  · intro hc; cases hc
  · rw [TypeParser.parseType]; rfl
  · intro h0 h1
    unfold toUInt64
    rw [Int.emod_eq_of_lt h0 h1]
  · intro fn hpop
    refine ⟨?_, ?_, ?_, ?_⟩ <;> rw [TypeParser.parseType, hpop]

/-! ## The end of a streamed row buffer: proofs -/

/-- C25: the scan of a row buffer that holds rows of lengths `lens` followed,
at the row boundary, by a negative length prefix of any value returns with
more fuel than rows: it has made the calls for exactly those rows, none for the
negative prefix, and the negative prefix itself is no error, the loop being
left with the helper as it is for every negative length; each executed
iteration moves the read position by `4 + len`, at least 4 bytes. -/
theorem SparkRowToCHColumn.appendRows_stops_at_negative
    (append : SparkRowToCHColumnHelper → Memory → Int → Int →
      Except Error SparkRowToCHColumnHelper)
    (rows_buf : Memory) (lens : List Nat) (fuel : Nat) (pos : Int)
    (helper : SparkRowToCHColumnHelper)
    (hrows : holdsRows rows_buf pos lens) (hfuel : lens.length < fuel) :
    SparkRowToCHColumn.appendRows append rows_buf fuel pos
        (toInt32 (readLE rows_buf pos 4)) helper =
      some (applyCalls append rows_buf (rowPointers pos lens) helper) ∧
    (rowPointers pos lens).length = lens.length ∧
    (∀ (f : Nat) (p len : Int) (h : SparkRowToCHColumnHelper), len < 0 →
      SparkRowToCHColumn.appendRows append rows_buf (f + 1) p len h = some (.ok h)) ∧
    (∀ (f : Nat) (p len : Int) (h h2 : SparkRowToCHColumnHelper), 0 ≤ len →
      append h rows_buf (p + 4) len = .ok h2 →
      p + 4 ≤ p + 4 + len ∧
      SparkRowToCHColumn.appendRows append rows_buf (f + 1) p len h =
        SparkRowToCHColumn.appendRows append rows_buf f (p + 4 + len)
          (toInt32 (readLE rows_buf (p + 4 + len) 4)) h2) := by
  refine ⟨appendRows_of_holdsRows append rows_buf lens fuel pos helper hrows hfuel,
    rowPointers_length lens pos, ?_, ?_⟩
  · intro f p len h hlen
    have hn : ¬ (0 ≤ len) := by omega
    simp only [SparkRowToCHColumn.appendRows, if_neg hn]
  · intro f p len h h2 hlen happ
    refine ⟨by omega, ?_⟩
    simp only [SparkRowToCHColumn.appendRows, if_pos hlen, happ]

/-- Witness for C25: the buffer `[len=3, row0][len=INT32_MIN]` gives one call,
for the row at offset 4 with length 3, and the scan returns. -/
theorem SparkRowToCHColumn.appendRows_stops_at_negative_witness :
    (holdsRows exampleBuffer3 0 [3] ∧ [3].length < 2 ∧
      toInt32 (readLE exampleBuffer3 7 4) = -2147483648) ∧
    SparkRowToCHColumn.appendRows recordingMethods.appendSparkRowToCHColumn exampleBuffer3 2 0
        (toInt32 (readLE exampleBuffer3 0 4)) exampleHelper =
      some (applyCalls recordingMethods.appendSparkRowToCHColumn exampleBuffer3
        (rowPointers 0 [3]) exampleHelper) ∧
    applyCalls recordingMethods.appendSparkRowToCHColumn exampleBuffer3
        (rowPointers 0 [3]) exampleHelper =
      .ok { exampleHelper with
        rows := 1
        mutable_columns := [[Field.Int64 4, Field.Int64 3], [], []] } :=
  have hrows : holdsRows exampleBuffer3 0 [3] := by
    refine ⟨by decide, ?_⟩
    show toInt32 (readLE exampleBuffer3 (0 + 4 + ((3 : Nat) : Int)) 4) < 0
    decide
  ⟨⟨hrows, by decide, by decide⟩,
    (SparkRowToCHColumn.appendRows_stops_at_negative
      recordingMethods.appendSparkRowToCHColumn exampleBuffer3 [3] 2 0 exampleHelper hrows
      (by decide)).1, rfl⟩

/-! ## Columns that must be tuples: proofs -/

theorem prepare_invariant (buildRowCountChunk : Nat → Chunk) (s : Executor)
    (h : Executor.invariant buildRowCountChunk s) :
    Executor.invariant buildRowCountChunk
      { processor := (s.processor.prepare buildRowCountChunk).1
        status := some (s.processor.prepare buildRowCountChunk).2 } := by
  obtain ⟨⟨input, output, oc, hi, ho⟩, st⟩ := s
  obtain ⟨h1, h2, h3, h4⟩ := h
  simp only at h1 h2 h3 h4
  unfold EmptyProject.prepare
  simp only [OutputPort.isFinished, OutputPort.canPush, InputPort.isFinished]
  cases hof : output.is_finished with
  | true =>
    simp only [if_true]
    exact ⟨h1, (by intro hc; cases hc), h3, h4⟩
  | false =>
    simp only [Bool.false_eq_true, if_false]
    cases ho with
    | true =>
      have hhi : hi = false := by
        cases hi
        · rfl
        · exact absurd ⟨rfl, rfl⟩ h1
      subst hhi
      obtain ⟨chunk, earlier, hp, hq, hc⟩ := h3 (Or.inr rfl)
      cases hcp : output.can_push with
      | true =>
        simp only [if_true]
        refine ⟨(by simp), (by intro hc'; cases hc'), (by simp), ?_⟩
        intro _ _
        show output.pushed ++ [oc] = input.pulled.map (fun c => buildRowCountChunk c.num_rows)
        rw [hp, hq, hc]
        simp
      | false =>
        simp only [Bool.false_eq_true, if_false, if_true]
        exact ⟨h1, (by intro hc'; cases hc'), h3, h4⟩
    | false =>
      simp only [Bool.false_eq_true, if_false]
      cases hi with
      | true =>
        simp only [if_true]
        exact ⟨h1, fun _ => Or.inl rfl, h3, h4⟩
      | false =>
        simp only [Bool.false_eq_true, if_false]
        have hq := h4 rfl rfl
        cases hif : input.is_finished with
        | true =>
          simp only [if_true]
          refine ⟨(by simp), (by intro hc'; cases hc'), (by simp), ?_⟩
          intro _ _
          exact hq
        | false =>
          simp only [Bool.false_eq_true, if_false]
          cases hd : input.data with
          | none =>
            simp only [InputPort.setNeeded, hd]
            refine ⟨(by simp), (by intro hc'; cases hc'), (by simp), ?_⟩
            intro _ _
            exact hq
          | some chunk =>
            simp only [InputPort.setNeeded, hd]
            refine ⟨(by simp), fun _ => Or.inl rfl, ?_, (by simp)⟩
            intro _
            exact ⟨chunk, input.pulled, rfl, hq, rfl⟩

theorem step_invariant (buildRowCountChunk : Nat → Chunk) (s s' : Executor) (call : Call)
    (h : Executor.invariant buildRowCountChunk s)
    (hs : Executor.step buildRowCountChunk s call = some s') :
    Executor.invariant buildRowCountChunk s' := by
  cases call with
  | prepare =>
    simp only [Executor.step, Option.some.injEq] at hs
    subst hs
    exact prepare_invariant buildRowCountChunk s h
  | work =>
    simp only [Executor.step] at hs
    split at hs
    · rename_i hready
      simp only [Option.some.injEq] at hs
      subst hs
      obtain ⟨h1, h2, h3, h4⟩ := h
      refine ⟨(by simp [EmptyProject.work]), fun _ => Or.inr rfl, ?_, ?_⟩
      · intro _
        exact h3 (h2 hready)
      · intro _ hc
        simp [EmptyProject.work] at hc
    · cases hs
  | ports a b c d =>
    simp only [Executor.step, Option.some.injEq] at hs
    subst hs
    exact h

theorem run_invariant (buildRowCountChunk : Nat → Chunk) :
    ∀ (calls : List Call) (s s' : Executor),
      Executor.invariant buildRowCountChunk s →
      Executor.run buildRowCountChunk s calls = some s' →
      Executor.invariant buildRowCountChunk s' := by
  intro calls
  induction calls with
  | nil =>
    intro s s' h hr
    simp only [Executor.run, Option.some.injEq] at hr
    subst hr
    exact h
  | cons call rest ih =>
    intro s s' h hr
    simp only [Executor.run] at hr
    cases hs : Executor.step buildRowCountChunk s call with
    | none => rw [hs] at hr; cases hr
    | some s1 =>
      rw [hs] at hr
      exact ih s1 s' (step_invariant buildRowCountChunk s s1 call h hs) hr

theorem construct_invariant (buildRowCountChunk : Nat → Chunk) (input : InputPort)
    (output : OutputPort) (hin : input.pulled = []) (hout : output.pushed = []) :
    Executor.invariant buildRowCountChunk
      { processor := EmptyProject.construct input output, status := none } := by
  refine ⟨(by simp [EmptyProject.construct]), (by intro hc; cases hc), ?_, ?_⟩
  · intro hc
    simp [EmptyProject.construct] at hc
  · intro _ _
    show output.pushed = input.pulled.map (fun c => buildRowCountChunk c.num_rows)
    rw [hin, hout]
    rfl

/-- What one `prepare` adds to the record of pushed chunks. -/
theorem prepare_pushed (buildRowCountChunk : Nat → Chunk) (p : EmptyProject) :
    (p.prepare buildRowCountChunk).1.output.pushed = p.output.pushed ∨
    (p.has_output = true ∧ p.output.is_finished = false ∧
      (p.prepare buildRowCountChunk).1.output.pushed = p.output.pushed ++ [p.output_chunk]) := by
  obtain ⟨input, output, oc, hi, ho⟩ := p
  unfold EmptyProject.prepare
  simp only [OutputPort.isFinished, OutputPort.canPush, InputPort.isFinished]
  cases hof : output.is_finished with
  | true => left; rfl
  | false =>
    simp only [Bool.false_eq_true, if_false]
    cases ho with
    | true =>
      cases hcp : output.can_push with
      | true => right; exact ⟨by trivial, by trivial, by trivial⟩
      | false => left; rfl
    | false =>
      simp only [Bool.false_eq_true, if_false]
      cases hi with
      | true => left; rfl
      | false =>
        simp only [Bool.false_eq_true, if_false]
        cases hif : input.is_finished with
        | true => left; rfl
        | false =>
          simp only [Bool.false_eq_true, if_false]
          cases hd : input.data with
          | none => left; simp only [InputPort.setNeeded, hd]
          | some chunk => left; simp only [InputPort.setNeeded, hd]

/-- C30: for every sequence of calls that follows the executor protocol
(`work` only while the last `prepare` returned `Ready`), whatever the ports
report in between, `has_input` and `has_output` are never both set; the chunks
pushed so far are the row-count chunks of the chunks pulled so far, one for
one and in pull order, with at most the last pulled chunk not yet pushed; a
`prepare` pushes nothing or pushes `buildRowCountChunk` of the row count of
the chunk pulled last; and when the output port is finished `prepare` closes
the input and returns `Finished` without pushing or pulling. -/
theorem EmptyProject.flags_and_pushes (buildRowCountChunk : Nat → Chunk)
    (input : InputPort) (output : OutputPort) (calls : List Call) (s : Executor)
    (hin : input.pulled = []) (hout : output.pushed = [])
    (hrun : Executor.run buildRowCountChunk
      { processor := EmptyProject.construct input output, status := none } calls = some s) :
    ¬ (s.processor.has_input = true ∧ s.processor.has_output = true) ∧
    (∃ k : Nat, k ≤ s.processor.input.pulled.length ∧
      s.processor.input.pulled.length ≤ k + 1 ∧
      s.processor.output.pushed =
        (s.processor.input.pulled.take k).map (fun c => buildRowCountChunk c.num_rows)) ∧
    ((s.processor.prepare buildRowCountChunk).1.output.pushed = s.processor.output.pushed ∨
      ∃ chunk : Chunk, s.processor.input.pulled.getLast? = some chunk ∧
        (s.processor.prepare buildRowCountChunk).1.output.pushed =
          s.processor.output.pushed ++ [buildRowCountChunk chunk.num_rows]) ∧
    (s.processor.output.is_finished = true →
      (s.processor.prepare buildRowCountChunk).2 = Status.Finished ∧
      (s.processor.prepare buildRowCountChunk).1.input.is_finished = true ∧
      (s.processor.prepare buildRowCountChunk).1.output.pushed = s.processor.output.pushed ∧
      (s.processor.prepare buildRowCountChunk).1.input.pulled = s.processor.input.pulled) := by
  obtain ⟨h1, _, h3, h4⟩ := run_invariant buildRowCountChunk calls _ s
    (construct_invariant buildRowCountChunk input output hin hout) hrun
  refine ⟨h1, ?_, ?_, ?_⟩
  · by_cases hf : s.processor.has_input = true ∨ s.processor.has_output = true
    · obtain ⟨chunk, earlier, hp, hq, _⟩ := h3 hf
      refine ⟨earlier.length, ?_, ?_, ?_⟩
      · rw [hp]; simp
      · rw [hp]; simp
      · rw [hp, hq]; simp
    · have hi : s.processor.has_input = false := by
        cases hb : s.processor.has_input with
        | false => rfl
        | true => exact absurd (Or.inl hb) hf
      have ho : s.processor.has_output = false := by
        cases hb : s.processor.has_output with
        | false => rfl
        | true => exact absurd (Or.inr hb) hf
      exact ⟨s.processor.input.pulled.length, Nat.le_refl _, Nat.le_succ _, by
        rw [List.take_length]; exact h4 hi ho⟩
  · rcases prepare_pushed buildRowCountChunk s.processor with hsame | ⟨ho, _, hpush⟩
    · exact Or.inl hsame
    · obtain ⟨chunk, earlier, hp, _, hc⟩ := h3 (Or.inr ho)
      refine Or.inr ⟨chunk, ?_, ?_⟩
      · rw [hp]; simp
      · rw [hpush, hc]
  · intro hfin
    unfold EmptyProject.prepare
    simp only [OutputPort.isFinished, hfin, if_true]
    exact ⟨by trivial, by trivial, by trivial, by trivial⟩

/-- Witness for C30: with a chunk of five rows waiting, `prepare`, `work`,
`prepare` pulls it and pushes the row-count chunk for five rows. -/
theorem EmptyProject.flags_and_pushes_witness :
    (exampleInput.pulled = [] ∧ exampleOutput.pushed = [] ∧
      Executor.run exampleBuildRowCountChunk
          { processor := EmptyProject.construct exampleInput exampleOutput, status := none }
          [Call.prepare, Call.work, Call.prepare] =
        some
          { processor :=
              { input := { is_finished := false, data := none, is_needed := false,
                           pulled := [{ columns := [], num_rows := 5 }] }
                output := { is_finished := false, can_push := false,
                            pushed := [exampleBuildRowCountChunk 5] }
                output_chunk := Chunk.empty
                has_input := false
                has_output := false }
            status := some Status.PortFull }) ∧
    ¬ ((false : Bool) = true ∧ (false : Bool) = true) :=
  ⟨⟨rfl, rfl, rfl⟩,
    (EmptyProject.flags_and_pushes exampleBuildRowCountChunk exampleInput exampleOutput
      [Call.prepare, Call.work, Call.prepare] _ rfl rfl rfl).1⟩

end local_engine
